import Mathlib

/-!
Shallow embedding of the session-management core of `src/objects/player.py`
(the `Player` class of the circles server) and proofs about it.

Modelling conventions:
- Python object references are replaced by stable keys: players by their
  numeric `id`, channels by their `_name` string, matches by their numeric
  `id`.  A `GState` carries a heap of live objects for each kind plus the
  process-wide registries (`glob.players`, `glob.channels`, `glob.matches`)
  as lists of keys.  Removing an object from a registry does not remove it
  from the heap, matching Python, where a de-registered object stays alive
  while still referenced.
- Outbound queues are modelled at packet granularity: every call site of
  `Player.enqueue` in the source passes one serialized packet, which we
  record as a `Packet` value appended to the queue.  The byte-level
  behaviour of `Player.enqueue` / `Player.dequeue` themselves (lines
  979-988) is modelled separately by `enqueue` / `dequeue` over byte lists.
- Fallible code (Python statements that can raise, such as `list.remove`
  on a missing element, attribute access on `None`, or an unbounded
  `while` loop that can fail to terminate) is modelled in `Option`: a
  `none` result corresponds to an exception or divergence, which has no
  resulting state.
- Fields of `Player` that no claim touches (stats, friends, blocks, clan,
  geolocation, menu options, tokens, timestamps) are omitted; their
  updates do not interact with the modelled state.
- Code of this repository that is outside `src/` (objects/match.py,
  objects/channel.py, constants/privileges.py) is modelled from the spec;
  each such definition carries a doc comment starting with
  `Modelled from the spec:`.
-/

namespace Circles

/-- Abstract serialized protocol notifications (the `packets.*` calls of the
source).  The encoding collaborator is out of scope; the core only ever
concatenates opaque packets into outbound queues, so we keep them symbolic. -/
inductive Packet where
  | matchJoinFail
  | matchJoinSuccess (mid : Nat)
  | matchState (mid : Nat)
  | matchTransferHost
  | disposeMatch (mid : Nat)
  | channelJoin (name : String)
  | channelKick (name : String)
  | channelInfo (name : String) (count : Nat)
  | spectatorJoined (pid : Nat)
  | fellowSpectatorJoined (pid : Nat)
  | spectatorLeft (pid : Nat)
  | fellowSpectatorLeft (pid : Nat)
  | logoutNotice (pid : Nat)
  | botMessage (msg : String)
  deriving DecidableEq, Repr

/-- Modelled from the spec: slot status values of objects/match.py (not under
src/): status is one of Open, Locked, NotReady, Ready, NoMap, Playing,
Complete, Quit.  `open` is a Lean keyword, hence `open_`. -/
inductive SlotStatus where
  | open_ | locked | notReady | ready | noMap | playing | complete | quit
  deriving DecidableEq, Repr

/-- Modelled from the spec: team enum of objects/match.py (not under src/). -/
inductive MatchTeams where
  | neutral | blue | red
  deriving DecidableEq, Repr

/-- Modelled from the spec: team-mode enum of objects/match.py (not under
src/); the two vs-modes require team play. -/
inductive MatchTeamTypes where
  | head_to_head | tag_coop | team_vs | tag_team_vs
  deriving DecidableEq, Repr

/-- Modelled from the spec: a Slot of objects/match.py (not under src/):
status, occupant back-reference, team.  Per-slot mods are omitted (no claim
touches them). -/
structure Slot where
  status : SlotStatus
  player : Option Nat
  team   : MatchTeams
  deriving DecidableEq, Repr

/-- Modelled from the spec: `SlotStatus.has_player` of objects/match.py (not
under src/): the statuses that carry an occupant, i.e. all statuses except
Open and Locked (the spec: occupant required for all statuses except
Open/Locked). -/
def SlotStatus.hasPlayer (st : SlotStatus) : Bool :=
  !(st == SlotStatus.open_ || st == SlotStatus.locked)

/-- Modelled from the spec: `Slot.empty` of objects/match.py (not under
src/): a slot counts as empty when its status is Open (spec 4.3 step 2: if
every slot is now Open the match is torn down). -/
def Slot.empty (sl : Slot) : Bool := sl.status == SlotStatus.open_

/-- Modelled from the spec: `Slot.reset` of objects/match.py (not under
src/): reset the slot to Open, clearing occupant and team. -/
def Slot.reset (_sl : Slot) : Slot :=
  { status := SlotStatus.open_, player := none, team := MatchTeams.neutral }

/-- First index of a list element satisfying `p` (lowest-indexed hit), used
to embed the index searches of objects/match.py. -/
def firstIdx (p : α → Bool) : List α → Option Nat
  | [] => none
  | a :: l => if p a then some 0 else (firstIdx p l).map (· + 1)

/-- Replace the element at index `i` by `f` of it; out-of-range indices
leave the list unchanged (all uses are in range). -/
def listModify (l : List α) (i : Nat) (f : α → α) : List α :=
  match l, i with
  | [], _ => []
  | a :: l, 0 => f a :: l
  | a :: l, i + 1 => a :: listModify l i f

/-- The match object: numeric id, password, host back-reference (player id),
tourney-client ids, owned chat channel (by name), the 16 slots, team mode,
pending start-countdown timer handle, pending alert timer handles, and the
referee set.  Display name is omitted. -/
structure MatchObj where
  mid : Nat
  passwd : String
  host : Nat
  tourneyClients : List Nat
  chat : String
  slots : List Slot
  teamType : MatchTeamTypes
  startingStart : Option Nat
  startingAlerts : List Nat
  refs : List Nat
  deriving DecidableEq, Repr

/-- Modelled from the spec: `Match.get_free` of objects/match.py (not under
src/): the lowest-indexed slot with status Open, or none (full). -/
def MatchObj.getFree (m : MatchObj) : Option Nat :=
  firstIdx (fun sl => sl.status == SlotStatus.open_) m.slots

/-- Modelled from the spec: `Match.get_slot` of objects/match.py (not under
src/): the slot whose occupant is the given player; we return its index. -/
def MatchObj.getSlotIdx (m : MatchObj) (pid : Nat) : Option Nat :=
  firstIdx (fun sl => sl.player == some pid) m.slots

/-- The channel object: raw `_name` key, read-privilege requirement,
auto-join flag, instanced flag, ordered member list (player ids).  Topic and
write privilege are omitted (no claim touches them).  `instance` is a Lean
keyword, hence `instanced`. -/
structure Channel where
  name : String
  readPriv : Nat
  autoJoin : Bool
  instanced : Bool
  players : List Nat
  deriving DecidableEq, Repr

/-- The session object of src/objects/player.py, restricted to the fields
the claims touch.  `match` is a Lean keyword, hence `matchId` (it stores the
match key).  `queue` is `_queue` at packet granularity. -/
structure Player where
  pid : Nat
  name : String
  priv : Nat
  inLobby : Bool
  stealth : Bool
  botClient : Bool
  channels : List String
  spectators : List Nat
  spectating : Option Nat
  matchId : Option Nat
  queue : List Packet
  deriving DecidableEq, Repr

/-- Modelled from the spec: the Normal bit of constants/privileges.py (not
under src/), the ordinary-player privilege bit tested by `restricted`. -/
def Privileges.Normal : Nat := 1

/-- Modelled from the spec: the staff privilege mask of
constants/privileges.py (not under src/), the union of the moderator, admin
and dangerous bit groups. -/
def Privileges.Staff : Nat := 1792

/-- Modelled from the spec: `self not in glob.players.staff` of
join_match — whether the session holds staff privilege. -/
def isStaff (p : Player) : Bool := p.priv &&& Privileges.Staff != 0

/-- `Player.restricted` (src/objects/player.py line 315): not carrying the
Normal privilege bit. -/
def Player.restricted (p : Player) : Bool := p.priv &&& Privileges.Normal == 0

/-- The global state: heaps of live objects plus the process-wide
registries, and the set of cancelled timer handles (calling `.cancel()` on a
timer handle records it here). -/
structure GState where
  players : List Player
  playersReg : List Nat
  channels : List Channel
  channelsReg : List String
  matchHeap : List MatchObj
  matchesReg : List Nat
  cancelled : List Nat
  deriving DecidableEq, Repr

/-- Dereference a player id in the heap. -/
def findPlayer (s : GState) (i : Nat) : Option Player :=
  s.players.find? (fun p => p.pid == i)

/-- Dereference a channel name in the heap (a direct object reference in
Python). -/
def findChannel (s : GState) (n : String) : Option Channel :=
  s.channels.find? (fun c => c.name == n)

/-- `glob.channels[name]`: registry lookup, `none` when the name is not
registered. -/
def regChannel (s : GState) (n : String) : Option Channel :=
  if n ∈ s.channelsReg then findChannel s n else none

/-- Dereference a match id in the heap. -/
def findMatch (s : GState) (i : Nat) : Option MatchObj :=
  s.matchHeap.find? (fun m => m.mid == i)

/-- Apply `f` to the player object with id `i`. -/
def updatePlayer (s : GState) (i : Nat) (f : Player → Player) : GState :=
  { s with players := s.players.map fun p => if p.pid = i then f p else p }

/-- Apply `f` to the channel object named `n`. -/
def updateChannel (s : GState) (n : String) (f : Channel → Channel) : GState :=
  { s with channels := s.channels.map fun c => if c.name = n then f c else c }

/-- Apply `f` to the match object with id `i`. -/
def updateMatch (s : GState) (i : Nat) (f : MatchObj → MatchObj) : GState :=
  { s with matchHeap := s.matchHeap.map fun m => if m.mid = i then f m else m }

/-- `r.enqueue(packet)`: append one packet to the queue of player `r`.  A
session flagged as a bot client has its `enqueue` replaced by a no-op at
construction (src/objects/player.py line 236), so nothing is appended. -/
def enqueueTo (s : GState) (r : Nat) (pkt : Packet) : GState :=
  updatePlayer s r fun p =>
    if p.botClient then p else { p with queue := p.queue ++ [pkt] }

/-- Enqueue one packet to each listed recipient in order (the broadcast
loops of the source). -/
def broadcast (s : GState) (rs : List Nat) (pkt : Packet) : GState :=
  rs.foldl (fun st r => enqueueTo st r pkt) s

/-- The queue of player `i`, empty when the id is dangling. -/
def queueOf (s : GState) (i : Nat) : List Packet :=
  ((findPlayer s i).map Player.queue).getD []

/-- `Player.join_channel` (src/objects/player.py lines 658-686).  Fails
(returns false, state unchanged) when already a member, when read privileges
are missing, or for the `#lobby` channel while not in the lobby UI.  On
success the session is appended to the member list and its channel list, a
join notice is enqueued to it, and the new occupancy is broadcast: to the
members for an instanced channel, to the whole registry otherwise. -/
def join_channel (s : GState) (pid : Nat) (cname : String) : Option (Bool × GState) :=
  match findPlayer s pid, findChannel s cname with
  | some p, some c =>
    if pid ∈ c.players then some (false, s)
    else if p.priv &&& c.readPriv ≠ c.readPriv then some (false, s)
    else if c.name = "#lobby" ∧ p.inLobby = false then some (false, s)
    else
      let newPlayers := c.players ++ [pid]
      let s1 := updateChannel s cname fun ch => { ch with players := newPlayers }
      let s2 := updatePlayer s1 pid fun q => { q with channels := q.channels ++ [cname] }
      let s3 := enqueueTo s2 pid (Packet.channelJoin cname)
      let recips := if c.instanced then newPlayers else s3.playersReg
      some (true, broadcast s3 recips (Packet.channelInfo cname newPlayers.length))
  | _, _ => none

/-- `Player.leave_channel` (src/objects/player.py lines 688-709).  No-op
when not a member; otherwise remove the session from the member list (for an
instanced channel whose membership thereby reaches zero, `Channel.remove` —
modelled from the spec, objects/channel.py is not under src/ — also removes
the channel from the registry), remove the channel from the session's list,
optionally enqueue a kick notice, and rebroadcast occupancy with the same
scoping as join. -/
def leave_channel (s : GState) (pid : Nat) (cname : String) (kick : Bool) : Option GState :=
  match findChannel s cname with
  | none => none
  | some c =>
    if pid ∉ c.players then some s
    else
      let newPlayers := c.players.erase pid
      let s1 := updateChannel s cname fun ch => { ch with players := newPlayers }
      let s1 := if newPlayers.isEmpty ∧ c.instanced then
          { s1 with channelsReg := s1.channelsReg.erase cname } else s1
      let s2 := updatePlayer s1 pid fun q => { q with channels := q.channels.erase cname }
      let s3 := if kick then enqueueTo s2 pid (Packet.channelKick cname) else s2
      let recips := if c.instanced then newPlayers else s3.playersReg
      some (broadcast s3 recips (Packet.channelInfo cname newPlayers.length))

/-- Modelled from the spec: `Match.enqueue_state` of objects/match.py (not
under src/): broadcast the full match state to every current occupant. -/
def enqueueState (s : GState) (mid : Nat) : GState :=
  match findMatch s mid with
  | none => s
  | some m => broadcast s (m.slots.filterMap fun sl => sl.player) (Packet.matchState mid)

/-- Modelled from the spec: `Channel.send_bot` of objects/channel.py (not
under src/): post a system chat notice to the channel members. -/
def sendBotToChannel (s : GState) (cname : String) (msg : String) : GState :=
  match findChannel s cname with
  | some c => broadcast s c.players (Packet.botMessage msg)
  | none => s

/-- `Player.join_match` (src/objects/player.py lines 534-588).  The checks
in source order: already in a match; id among the tourney clients; for a
non-host joiner a password check with staff override and then the free-slot
search; then chat-channel admission (aborting on failure, without a failure
packet); then leave the `#lobby` channel if a member, assign the slot
(defaulting the team to red in team-vs modes), bind `session.match`, notify
the session and broadcast the match state. -/
def join_match (s : GState) (pid mid : Nat) (passwd : String) : Option (Bool × GState) :=
  match findPlayer s pid with
  | none => none
  | some p =>
    if p.matchId.isSome then
      some (false, enqueueTo s pid Packet.matchJoinFail)
    else
      match findMatch s mid with
      | none => none
      | some m =>
        if pid ∈ m.tourneyClients then
          some (false, enqueueTo s pid Packet.matchJoinFail)
        else
          match (if pid ≠ m.host then
                  (if passwd ≠ m.passwd ∧ isStaff p = false then
                     Sum.inl (enqueueTo s pid Packet.matchJoinFail)
                   else match m.getFree with
                     | none => Sum.inl (enqueueTo s pid Packet.matchJoinFail)
                     | some i => Sum.inr i)
                 else Sum.inr 0 : Sum GState Nat) with
          | Sum.inl sFail => some (false, sFail)
          | Sum.inr slotID =>
            match join_channel s pid m.chat with
            | none => none
            | some (false, s1) => some (false, s1)
            | some (true, s1) =>
              let s2? : Option GState :=
                match regChannel s1 "#lobby" with
                | some lobby =>
                  match findPlayer s1 pid with
                  | some p1 =>
                    if lobby.name ∈ p1.channels then leave_channel s1 pid lobby.name true
                    else some s1
                  | none => some s1
                | none => some s1
              match s2? with
              | none => none
              | some s2 =>
                let s3 := updateMatch s2 mid fun mm =>
                  { mm with slots := listModify mm.slots slotID fun sl =>
                      { sl with
                        team := if m.teamType = MatchTeamTypes.team_vs ∨
                                   m.teamType = MatchTeamTypes.tag_team_vs then
                                  MatchTeams.red else sl.team,
                        status := SlotStatus.notReady,
                        player := some pid } }
                let s4 := updatePlayer s3 pid fun q => { q with matchId := some mid }
                let s5 := enqueueTo s4 pid (Packet.matchJoinSuccess mid)
                some (true, enqueueState s5 mid)

/-- `Player.leave_match` (src/objects/player.py lines 590-638).  No-op when
not in a match.  Otherwise: reset the session's slot, leave the match chat;
if every slot is now Open, cancel the pending start timer together with its
alert timers (the alerts loop sits under the start-timer check, as in the
source), remove the match from the registry and tell the lobby channel to
dispose it; otherwise transfer host to the occupant of the first remaining
occupied slot (notifying them), drop the session from the referees with a
chat notice, and broadcast the match state; finally clear `session.match`. -/
def leave_match (s : GState) (pid : Nat) : Option GState :=
  match findPlayer s pid with
  | none => none
  | some p =>
    match p.matchId with
    | none => some s
    | some mid =>
      match findMatch s mid with
      | none => none
      | some m =>
        match m.getSlotIdx pid with
        | none => none
        | some j =>
          let s1 := updateMatch s mid fun mm =>
            { mm with slots := listModify mm.slots j Slot.reset }
          match leave_channel s1 pid m.chat true with
          | none => none
          | some s2 =>
            match findMatch s2 mid with
            | none => none
            | some m2 =>
              if m2.slots.all Slot.empty then
                let s3 :=
                  match m2.startingStart with
                  | some t =>
                    updateMatch
                      { s2 with cancelled := s2.cancelled ++ t :: m2.startingAlerts } mid
                      fun mm => { mm with startingStart := none, startingAlerts := [] }
                  | none => s2
                let s4 := { s3 with matchesReg := s3.matchesReg.erase mid }
                let s5 :=
                  match regChannel s4 "#lobby" with
                  | some lobby => broadcast s4 lobby.players (Packet.disposeMatch mid)
                  | none => s4
                some (updatePlayer s5 pid fun q => { q with matchId := none })
              else
                match (if pid = m2.host then
                        match m2.slots.find? (fun sl => sl.status.hasPlayer) with
                        | some sl =>
                          match sl.player with
                          | some q =>
                            some (enqueueTo
                              (updateMatch s2 mid fun mm => { mm with host := q })
                              q Packet.matchTransferHost)
                          | none => none
                        | none => some s2
                      else some s2 : Option GState) with
                | none => none
                | some s3 =>
                  let s4 :=
                    if pid ∈ m2.refs then
                      sendBotToChannel
                        (updateMatch s3 mid fun mm => { mm with refs := mm.refs.erase pid })
                        m.chat (p.name ++ " removed from match referees.")
                    else s3
                  some (updatePlayer (enqueueState s4 mid) pid
                    fun q => { q with matchId := none })

/-- Python `list.remove`: removes the first occurrence, raising ValueError
(modelled as `none`) when the element is absent. -/
def listRemove (l : List Nat) (x : Nat) : Option (List Nat) :=
  if x ∈ l then some (l.erase x) else none

/-- The stealth branch of add_spectator: give the new observer the list of
existing fellow spectators, one notice each, telling nobody else. -/
def spectNotifyStealth (s : GState) (oid : Nat) (specs : List Nat) : GState :=
  specs.foldl (fun st σ => enqueueTo st oid (Packet.fellowSpectatorJoined σ)) s

/-- The non-stealth branch of add_spectator: per existing spectator, tell
them about the new observer and tell the observer about them. -/
def spectNotifyFull (s : GState) (oid : Nat) (specs : List Nat) : GState :=
  specs.foldl
    (fun st σ =>
      enqueueTo (enqueueTo st σ (Packet.fellowSpectatorJoined oid))
        oid (Packet.fellowSpectatorJoined σ)) s

/-- The remaining-spectators loop of remove_spectator: each remaining
spectator gets the departure notice followed by the refreshed occupancy. -/
def spectLeaveNotify (s : GState) (oid : Nat) (specs : List Nat)
    (cname : String) (cnt : Nat) : GState :=
  specs.foldl
    (fun st σ =>
      enqueueTo (enqueueTo st σ (Packet.fellowSpectatorLeft oid))
        σ (Packet.channelInfo cname cnt)) s

/-- `Player.add_spectator` (src/objects/player.py lines 711-749), called on
the host with the observer as argument.  Lazily create and register the
instanced spectator channel (the host joining it first, result unchecked,
read privilege defaulting to Normal — modelled from the spec, the Channel
constructor is not under src/); admit the observer through join_channel,
aborting on failure; then notify according to the stealth flag and append
the observer to the spectator list, setting its back-reference. -/
def add_spectator (s : GState) (hid oid : Nat) : Option GState :=
  match findPlayer s hid, findPlayer s oid with
  | some _h, some p =>
    let cname := "#spec_" ++ toString hid
    let s1? : Option GState :=
      match regChannel s cname with
      | some _ => some s
      | none =>
        let spec_chan : Channel :=
          { name := cname, readPriv := Privileges.Normal, autoJoin := false,
            instanced := true, players := [] }
        let s0 := { s with channels := s.channels ++ [spec_chan] }
        match join_channel s0 hid cname with
        | none => none
        | some (_, sA) => some { sA with channelsReg := sA.channelsReg ++ [cname] }
    match s1? with
    | none => none
    | some s1 =>
      match join_channel s1 oid cname with
      | none => none
      | some (false, s2) => some s2
      | some (true, s2) =>
        match findPlayer s2 hid with
        | none => none
        | some h1 =>
          let s3 :=
            if p.stealth = false then
              enqueueTo (spectNotifyFull s2 oid h1.spectators) hid
                (Packet.spectatorJoined oid)
            else
              spectNotifyStealth s2 oid h1.spectators
          let s4 := updatePlayer s3 hid fun q => { q with spectators := q.spectators ++ [oid] }
          some (updatePlayer s4 oid fun q => { q with spectating := some hid })
  | _, _ => none

/-- `Player.remove_spectator` (src/objects/player.py lines 751-772), called
on the host with the observer as argument.  The unguarded
`self.spectators.remove(p)` raises when the observer is absent; then the
observer's back-reference is cleared, it leaves the spectator channel
(looked up in the registry; a missing channel raises at the membership
test), and either the host leaves the emptied channel too or the refreshed
occupancy and the departure are pushed to the host and remaining
spectators; the host always gets the stopped-spectating notice. -/
def remove_spectator (s : GState) (hid oid : Nat) : Option GState :=
  match findPlayer s hid with
  | none => none
  | some h =>
    match listRemove h.spectators oid with
    | none => none
    | some newSpecs =>
      let s1 := updatePlayer s hid fun q => { q with spectators := newSpecs }
      let s2 := updatePlayer s1 oid fun q => { q with spectating := none }
      let cname := "#spec_" ++ toString hid
      match regChannel s2 cname with
      | none => none
      | some c =>
        match leave_channel s2 oid c.name true with
        | none => none
        | some s3 =>
          if newSpecs.isEmpty then
            match leave_channel s3 hid c.name true with
            | none => none
            | some s4 => some (enqueueTo s4 hid (Packet.spectatorLeft oid))
          else
            match findChannel s3 c.name with
            | none => none
            | some c2 =>
              let s4 := enqueueTo s3 hid (Packet.channelInfo c2.name c2.players.length)
              let s5 := spectLeaveNotify s4 oid newSpecs c2.name c2.players.length
              some (enqueueTo s5 hid (Packet.spectatorLeft oid))

/-- The `while self.channels:` loop of logout, leaving `self.channels[0]`
without kick until the list empties.  The loop has no bound in Python; a
state in which an iteration makes no progress loops forever, modelled by
running out of fuel (`none`). -/
def leaveAllChannels (fuel : Nat) (s : GState) (pid : Nat) : Option GState :=
  match findPlayer s pid with
  | none => none
  | some p =>
    match p.channels with
    | [] => some s
    | c0 :: _ =>
      match fuel with
      | 0 => none
      | fuel' + 1 =>
        match leave_channel s pid c0 false with
        | none => none
        | some s1 => leaveAllChannels fuel' s1 pid

/-- The stop-spectating step of logout: `if host := self.spectating:
host.remove_spectator(self)` — remove_spectator is invoked only when the
session is spectating someone. -/
def logoutSpectStep (s : GState) (pid : Nat) : Option GState :=
  match findPlayer s pid with
  | none => none
  | some p =>
    match p.spectating with
    | some hid => remove_spectator s hid pid
    | none => some s

/-- `Player.logout` (src/objects/player.py lines 352-382): leave the match
if any, stop spectating if spectating, leave every channel, remove the
session from the registry, and — only when the session is not restricted —
broadcast the logout to the registry.  Token invalidation and the datadog
counter are outside the modelled state. -/
def logout (s : GState) (pid : Nat) : Option GState :=
  match findPlayer s pid with
  | none => none
  | some p =>
    match (if p.matchId.isSome then leave_match s pid else some s) with
    | none => none
    | some s1 =>
      match logoutSpectStep s1 pid with
      | none => none
      | some s2 =>
        match findPlayer s2 pid with
        | none => none
        | some p2 =>
          match leaveAllChannels p2.channels.length s2 pid with
          | none => none
          | some s3 =>
            let s4 := { s3 with playersReg := s3.playersReg.erase pid }
            some (if p.restricted = false then
                    broadcast s4 s4.playersReg (Packet.logoutNotice pid)
                  else s4)

/-- Byte-level `Player.enqueue` (src/objects/player.py lines 979-981):
append the bytes to the session buffer. -/
def enqueue (q : List Nat) (b : List Nat) : List Nat := q ++ b

/-- Byte-level `Player.dequeue` (src/objects/player.py lines 983-988):
drain the whole buffer, returning its copy, or return nothing (None — read
as empty by the transport) when the buffer is empty. -/
def dequeue (q : List Nat) : Option (List Nat) × List Nat :=
  if q = [] then (none, q) else (some q, [])

/-- The occupant of the lowest-indexed occupied slot, the spec reading of
the host-transfer target. -/
def firstOccupant (slots : List Slot) : Option Nat :=
  (slots.find? fun sl => sl.player.isSome).bind Slot.player

/-- The match object after step 1 of leave_match: the slot at index `j`
reset to Open. -/
def MatchObj.resetSlot (m : MatchObj) (j : Nat) : MatchObj :=
  { m with slots := listModify m.slots j Slot.reset }

/-- The claim C1 invariant, forward direction: a non-null `session.match`
points at a live match one of whose slots holds the session. -/
def matchInv (s : GState) : Prop :=
  ∀ p ∈ s.players, ∀ mid ∈ p.matchId,
    ∃ m ∈ s.matchHeap, m.mid = mid ∧ ∃ sl ∈ m.slots, sl.player = some p.pid

/-- Occupancy back-reference: every slot occupant is a live session whose
`match` field points back at that match. -/
def occInv (s : GState) : Prop :=
  ∀ m ∈ s.matchHeap, ∀ sl ∈ m.slots, ∀ q ∈ sl.player,
    ∃ p ∈ s.players, p.pid = q ∧ p.matchId = some m.mid

/-- Slot well-formedness: a slot carries an occupant exactly when its
status requires one. -/
def slotWFAll (s : GState) : Prop :=
  ∀ m ∈ s.matchHeap, ∀ sl ∈ m.slots, sl.status.hasPlayer = sl.player.isSome

/-- Host back-reference: a non-empty match is hosted by one of its
occupants (spec data model: the host must be a current slot occupant). -/
def hostOccAll (s : GState) : Prop :=
  ∀ m ∈ s.matchHeap, (∃ sl ∈ m.slots, sl.player.isSome = true) →
    ∃ sl ∈ m.slots, sl.player = some m.host

/-- Fixed slot capacity of 16. -/
def slotsLen (s : GState) : Prop := ∀ m ∈ s.matchHeap, m.slots.length = 16

/-- The claim C8 invariant: an instanced channel with zero members is not
registered. -/
def emptyInstancedDereg (s : GState) : Prop :=
  ∀ c ∈ s.channels, c.instanced = true → c.players = [] → c.name ∉ s.channelsReg

/-- Every channel object named `n` is non-instanced. -/
def nonInstancedName (s : GState) (n : String) : Prop :=
  ∀ c ∈ s.channels, c.name = n → c.instanced = false

instance (s : GState) : Decidable (matchInv s) := by unfold matchInv; infer_instance

instance (s : GState) : Decidable (occInv s) := by unfold occInv; infer_instance

instance (s : GState) : Decidable (slotWFAll s) := by unfold slotWFAll; infer_instance

instance (s : GState) : Decidable (hostOccAll s) := by unfold hostOccAll; infer_instance

instance (s : GState) : Decidable (slotsLen s) := by unfold slotsLen; infer_instance

instance (s : GState) : Decidable (emptyInstancedDereg s) := by
  unfold emptyInstancedDereg; infer_instance

instance (s : GState) (n : String) : Decidable (nonInstancedName s n) := by
  unfold nonInstancedName; infer_instance

/-- Projection of a player to its id and match back-reference; operations
that touch neither preserve the image of `players` under it. -/
def projM (p : Player) : Nat × Option Nat := (p.pid, p.matchId)

/-- Projection of a player to its id and the spectator-graph fields. -/
def projS (p : Player) : Nat × Option Nat × List Nat :=
  (p.pid, p.spectating, p.spectators)

/-- Projection of a match to its id and slots; operations touching neither
preserve the image of `matchHeap` under it. -/
def projMat (m : MatchObj) : Nat × List Slot := (m.mid, m.slots)

/-- Distinct occupied slots of a match hold distinct sessions (each session
is seated at most once per match). -/
def occUnique (s : GState) : Prop :=
  ∀ m ∈ s.matchHeap, (m.slots.map Slot.player).Pairwise
    (fun a b => a.isSome = true → a ≠ b)

instance (s : GState) : Decidable (occUnique s) := by
  unfold occUnique; infer_instance

/-- The claim C1 biconditional, per session: a non-null `session.match`
points at a live match seating the session, and a session seated in any
live match has a non-null `session.match`. -/
def C1Iff (s : GState) : Prop :=
  ∀ p ∈ s.players,
    (∀ mid ∈ p.matchId, ∃ m ∈ s.matchHeap, m.mid = mid ∧
      ∃ sl ∈ m.slots, sl.player = some p.pid) ∧
    ((∃ m ∈ s.matchHeap, ∃ sl ∈ m.slots, sl.player = some p.pid) →
      p.matchId ≠ none)

instance (s : GState) : Decidable (C1Iff s) := by
  unfold C1Iff; infer_instance

/-- The slot-assignment core of join_match in isolation: seat `pid` at
`slotID` of match `mid` and point the session at the match. -/
def assignState (s : GState) (pid mid slotID : Nat) (fSl : Slot → Slot) : GState :=
  updatePlayer (updateMatch s mid fun mm =>
    { mm with slots := listModify mm.slots slotID fSl }) pid
    fun q => { q with matchId := some mid }

/-- The slot-clearing core of leave_match in isolation: reset slot `j` of
match `mid` and null the session's match back-reference. -/
def clearState (s : GState) (pid mid j : Nat) : GState :=
  updatePlayer (updateMatch s mid fun mm =>
    { mm with slots := listModify mm.slots j Slot.reset }) pid
    fun q => { q with matchId := none }

/-! Concrete fixture states used by the witness theorems. -/

/-- Fixture player: an ordinary session that is a member of `#osu`. -/
def FxP1 : Player :=
  { pid := 1, name := "A", priv := 1, inLobby := false, stealth := false,
    botClient := false, channels := ["#osu"], spectators := [], spectating := none,
    matchId := none, queue := [] }

/-- Fixture channel: a public non-instanced channel with member 1. -/
def FxChan : Channel :=
  { name := "#osu", readPriv := 1, autoJoin := true, instanced := false, players := [1] }

/-- Fixture state for the channel-admission witness. -/
def FxG : GState :=
  { players := [FxP1], playersReg := [1], channels := [FxChan], channelsReg := ["#osu"],
    matchHeap := [], matchesReg := [], cancelled := [] }

/-- The channel-registry outcome claim C8 asserts of an operation from `s`
to `s'`: empty instanced channels are deregistered, the registry stays
duplicate-free, channel names and instanced flags are untouched, nothing
enters the registry, and registered names denoting non-instanced channels
are never removed. -/
def C8Post (s s' : GState) : Prop :=
  emptyInstancedDereg s' ∧ s'.channelsReg.Nodup ∧
  (s'.channels.map fun c => (c.name, c.instanced)) =
    (s.channels.map fun c => (c.name, c.instanced)) ∧
  (∀ n, n ∈ s'.channelsReg → n ∈ s.channelsReg) ∧
  (∀ n ∈ s.channelsReg, nonInstancedName s n → n ∈ s'.channelsReg)

/-- Fixture player: the host of match 1, seated in slot 0. -/
def MxP1 : Player :=
  { pid := 1, name := "A", priv := 1, inLobby := false, stealth := false,
    botClient := false, channels := ["#multi_1"], spectators := [], spectating := none,
    matchId := some 1, queue := [] }

/-- Fixture player: an ordinary session not in any match. -/
def MxP2 : Player :=
  { pid := 2, name := "B", priv := 1, inLobby := false, stealth := false,
    botClient := false, channels := [], spectators := [], spectating := none,
    matchId := none, queue := [] }

/-- Fixture slots: slot 0 occupied by player 1, the other 15 open. -/
def MxSlots : List Slot :=
  { status := SlotStatus.notReady, player := some 1, team := MatchTeams.neutral } ::
    List.replicate 15 { status := SlotStatus.open_, player := none, team := MatchTeams.neutral }

/-- Fixture match: hosted by player 1, password protected, with a pending
start timer and two alert timers. -/
def MxM : MatchObj :=
  { mid := 1, passwd := "pw", host := 1, tourneyClients := [], chat := "#multi_1",
    slots := MxSlots, teamType := MatchTeamTypes.head_to_head,
    startingStart := some 77, startingAlerts := [78, 79], refs := [] }

/-- Fixture chat channel of match 1 (instanced, member 1). -/
def MxChat : Channel :=
  { name := "#multi_1", readPriv := 0, autoJoin := false, instanced := true, players := [1] }

/-- Fixture state around match 1: its host, a free player, the chat channel
and the registries. -/
def MxG : GState :=
  { players := [MxP1, MxP2], playersReg := [1, 2], channels := [MxChat],
    channelsReg := ["#multi_1"], matchHeap := [MxM], matchesReg := [1], cancelled := [] }

/-- The state after player 2 fails to join match 1 with a wrong password. -/
def MxGfail : GState := enqueueTo MxG 2 Packet.matchJoinFail

/-- The state after player 1 leaves the instanced chat channel of match 1,
emptying it. -/
def MxGleave : GState := (leave_channel MxG 1 "#multi_1" true).getD MxG

/-- The state after player 1, the only occupant, leaves match 1. -/
def MxGlm : GState := (leave_match MxG 1).getD MxG

/-- Fixture player: occupant of slot 1 of the two-player match. -/
def HxP2 : Player :=
  { pid := 2, name := "B", priv := 1, inLobby := false, stealth := false,
    botClient := false, channels := ["#multi_1"], spectators := [], spectating := none,
    matchId := some 1, queue := [] }

/-- Fixture match hosted by player 1 with players 1 and 2 seated. -/
def HxM : MatchObj :=
  { mid := 1, passwd := "pw", host := 1, tourneyClients := [], chat := "#multi_1",
    slots := { status := SlotStatus.notReady, player := some 1, team := MatchTeams.neutral } ::
      { status := SlotStatus.notReady, player := some 2, team := MatchTeams.neutral } ::
      List.replicate 14 { status := SlotStatus.open_, player := none, team := MatchTeams.neutral },
    teamType := MatchTeamTypes.head_to_head, startingStart := none,
    startingAlerts := [], refs := [] }

/-- Fixture chat channel of the two-player match. -/
def HxChat : Channel :=
  { name := "#multi_1", readPriv := 0, autoJoin := false, instanced := true,
    players := [1, 2] }

/-- Fixture state around the two-player match. -/
def HxG : GState :=
  { players := [MxP1, HxP2], playersReg := [1, 2], channels := [HxChat],
    channelsReg := ["#multi_1"], matchHeap := [HxM], matchesReg := [1], cancelled := [] }

/-- The state after the host (player 1) leaves the two-player match. -/
def HxGlm : GState := (leave_match HxG 1).getD HxG

/-- Fixture player: a host being spectated by player 3, member of its
spectator channel. -/
def SxHost : Player :=
  { pid := 1, name := "host", priv := 1, inLobby := false, stealth := false,
    botClient := false, channels := ["#spec_1"], spectators := [3],
    spectating := none, matchId := none, queue := [] }

/-- Fixture player: a stealthed observer about to spectate player 1. -/
def SxObs : Player :=
  { pid := 2, name := "ghost", priv := 1, inLobby := false, stealth := true,
    botClient := false, channels := [], spectators := [], spectating := none,
    matchId := none, queue := [] }

/-- Fixture player: the pre-existing spectator of player 1. -/
def SxSpec3 : Player :=
  { pid := 3, name := "watcher", priv := 1, inLobby := false, stealth := false,
    botClient := false, channels := ["#spec_1"], spectators := [],
    spectating := some 1, matchId := none, queue := [] }

/-- Fixture channel: the registered spectator channel of player 1, with the
host and the pre-existing spectator as members. -/
def SxChan : Channel :=
  { name := "#spec_1", readPriv := 1, autoJoin := false, instanced := true,
    players := [1, 3] }

/-- Fixture state around the spectated host. -/
def SxG : GState :=
  { players := [SxHost, SxObs, SxSpec3], playersReg := [1, 2, 3],
    channels := [SxChan], channelsReg := ["#spec_1"],
    matchHeap := [], matchesReg := [], cancelled := [] }

/-- The state after the stealthed player 2 starts spectating player 1. -/
def SxG2 : GState := (add_spectator SxG 1 2).getD SxG

/-- The state after the spectator (player 3) logs out of the fixture. -/
def SxGout : GState := (logout SxG 3).getD SxG

/-- Fixture player: a restricted session (no Normal privilege bit). -/
def RxP1 : Player :=
  { pid := 1, name := "banned", priv := 0, inLobby := false, stealth := false,
    botClient := false, channels := [], spectators := [], spectating := none,
    matchId := none, queue := [] }

/-- Fixture player: an ordinary registered session watching the registry. -/
def RxP2 : Player :=
  { pid := 2, name := "other", priv := 1, inLobby := false, stealth := false,
    botClient := false, channels := [], spectators := [], spectating := none,
    matchId := none, queue := [] }

/-- Fixture state with a restricted session and an ordinary one, both
registered. -/
def RxG : GState :=
  { players := [RxP1, RxP2], playersReg := [1, 2], channels := [],
    channelsReg := [], matchHeap := [], matchesReg := [], cancelled := [] }

/-- The state after the restricted player 1 logs out. -/
def RxGout : GState := (logout RxG 1).getD RxG

/-! Helper lemmas about the list primitives and state accessors, shared by
the claim theorems. -/

theorem findPlayer_mem {s : GState} {i : Nat} {p : Player}
    (h : findPlayer s i = some p) : p ∈ s.players ∧ p.pid = i := by
  refine ⟨List.mem_of_find?_eq_some h, ?_⟩
  have := List.find?_some h
  simpa using this

theorem findChannel_mem {s : GState} {n : String} {c : Channel}
    (h : findChannel s n = some c) : c ∈ s.channels ∧ c.name = n := by
  refine ⟨List.mem_of_find?_eq_some h, ?_⟩
  have := List.find?_some h
  simpa using this

theorem findMatch_mem {s : GState} {i : Nat} {m : MatchObj}
    (h : findMatch s i = some m) : m ∈ s.matchHeap ∧ m.mid = i := by
  refine ⟨List.mem_of_find?_eq_some h, ?_⟩
  have := List.find?_some h
  simpa using this

theorem find?_pid_map_update (l : List Player) (i j : Nat) (f : Player → Player)
    (hf : ∀ p, (f p).pid = p.pid) :
    (l.map fun p => if p.pid = i then f p else p).find? (fun p => p.pid == j) =
      if j = i then (l.find? (fun p => p.pid == j)).map f
      else l.find? (fun p => p.pid == j) := by
  induction l with
  | nil => simp
  | cons a l ih =>
    by_cases hi : a.pid = i
    · by_cases hj : a.pid = j
      · simp only [List.map_cons, List.find?_cons, if_pos hi]
        rw [show ((f a).pid == j) = true by simp [hf, hj],
            show (a.pid == j) = true by simp [hj]]
        simp [hj ▸ hi]
      · simp only [List.map_cons, List.find?_cons, if_pos hi]
        rw [show ((f a).pid == j) = false by simp [hf, hj],
            show (a.pid == j) = false by simp [hj]]
        exact ih
    · by_cases hj : a.pid = j
      · simp only [List.map_cons, List.find?_cons, if_neg hi]
        rw [show (a.pid == j) = true by simp [hj]]
        have : ¬(j = i) := fun h => hi (hj.trans h)
        simp [this]
      · simp only [List.map_cons, List.find?_cons, if_neg hi]
        rw [show (a.pid == j) = false by simp [hj]]
        exact ih

theorem findPlayer_updatePlayer_self (s : GState) (i : Nat) (f : Player → Player)
    (hf : ∀ p, (f p).pid = p.pid) :
    findPlayer (updatePlayer s i f) i = (findPlayer s i).map f := by
  unfold findPlayer updatePlayer
  rw [find?_pid_map_update s.players i i f hf, if_pos rfl]

theorem findPlayer_updatePlayer_ne (s : GState) (i j : Nat) (f : Player → Player)
    (hf : ∀ p, (f p).pid = p.pid) (hij : j ≠ i) :
    findPlayer (updatePlayer s i f) j = findPlayer s j := by
  unfold findPlayer updatePlayer
  rw [find?_pid_map_update s.players i j f hf, if_neg hij]

theorem map_congr_fun {l : List α} {f g : α → β} (h : ∀ a, f a = g a) :
    l.map f = l.map g := by
  induction l with
  | nil => rfl
  | cons a l ih => simp [h a, ih]

theorem updatePlayer_projEq (s : GState) (i : Nat) (f : Player → Player)
    (g : Player → β) (hf : ∀ p, g (f p) = g p) :
    (updatePlayer s i f).players.map g = s.players.map g := by
  unfold updatePlayer
  rw [List.map_map]
  exact map_congr_fun fun p => by by_cases h : p.pid = i <;> simp [h, hf]

theorem enqueueTo_projEq (s : GState) (r : Nat) (pkt : Packet)
    (g : Player → β) (hg : ∀ p l, g { p with queue := l } = g p) :
    (enqueueTo s r pkt).players.map g = s.players.map g := by
  unfold enqueueTo
  exact updatePlayer_projEq s r _ g fun p => by
    by_cases h : p.botClient = true
    · rw [if_pos h]
    · rw [if_neg h]; exact hg p _

theorem broadcast_cons (s : GState) (r : Nat) (rs : List Nat) (pkt : Packet) :
    broadcast s (r :: rs) pkt = broadcast (enqueueTo s r pkt) rs pkt := rfl

theorem broadcast_projEq (pkt : Packet) (g : Player → β)
    (hg : ∀ p l, g { p with queue := l } = g p) :
    ∀ (rs : List Nat) (s : GState),
      (broadcast s rs pkt).players.map g = s.players.map g := by
  intro rs
  induction rs with
  | nil => intro s; rfl
  | cons a rs ih =>
    intro s
    show (broadcast (enqueueTo s a pkt) rs pkt).players.map g = _
    rw [ih (enqueueTo s a pkt), enqueueTo_projEq s a pkt g hg]

theorem broadcast_stable (pkt : Packet) :
    ∀ (rs : List Nat) (s : GState),
      (broadcast s rs pkt).playersReg = s.playersReg ∧
      (broadcast s rs pkt).channels = s.channels ∧
      (broadcast s rs pkt).channelsReg = s.channelsReg ∧
      (broadcast s rs pkt).matchHeap = s.matchHeap ∧
      (broadcast s rs pkt).matchesReg = s.matchesReg ∧
      (broadcast s rs pkt).cancelled = s.cancelled := by
  intro rs
  induction rs with
  | nil => intro s; exact ⟨rfl, rfl, rfl, rfl, rfl, rfl⟩
  | cons a rs ih => intro s; exact ih (enqueueTo s a pkt)

theorem find?_map_eq {l : List Player} (g : Player → β)
    (k : Player → Bool) (v : Player → γ)
    (hk : ∀ p q, g p = g q → k p = k q) (hv : ∀ p q, g p = g q → v p = v q) :
    ∀ {l' : List Player}, l'.map g = l.map g →
      (l'.find? k).map v = (l.find? k).map v := by
  induction l with
  | nil =>
    intro l' h
    have hnil : l' = [] := by
      cases l' with
      | nil => rfl
      | cons b t => simp at h
    subst hnil; rfl
  | cons a l ih =>
    intro l' h
    match l' with
    | [] => simp at h
    | b :: l'' =>
      simp only [List.map_cons, List.cons.injEq] at h
      obtain ⟨hba, htl⟩ := h
      simp only [List.find?_cons]
      rw [hk b a hba]
      by_cases hka : k a = true
      · simp [hka, hv b a hba]
      · simp only [Bool.not_eq_true] at hka
        simp only [hka]
        exact ih htl

theorem foldl_enqueue_eq (bs : List (List Nat)) :
    ∀ a : List Nat, bs.foldl enqueue a = a ++ bs.flatten := by
  induction bs with
  | nil => intro a; simp [List.foldl]
  | cons b bs ih => intro a; simp [List.foldl, enqueue, ih, List.append_assoc]

theorem findView_of_projEq {s s' : GState} (g : Player → β)
    (h : s'.players.map g = s.players.map g)
    (hpid : ∀ p q : Player, g p = g q → p.pid = q.pid)
    (v : Player → γ) (hv : ∀ p q, g p = g q → v p = v q) (j : Nat) :
    (findPlayer s' j).map v = (findPlayer s j).map v := by
  unfold findPlayer
  exact find?_map_eq g (fun p => p.pid == j) v
    (fun p q hg => by show (p.pid == j) = (q.pid == j); rw [hpid p q hg]) hv h

theorem findPlayer_isSome_of_projEq {s s' : GState} (g : Player → β)
    (h : s'.players.map g = s.players.map g)
    (hpid : ∀ p q : Player, g p = g q → p.pid = q.pid) (j : Nat) :
    (findPlayer s' j).isSome = (findPlayer s j).isSome := by
  have := findView_of_projEq g h hpid (fun _ => ()) (fun _ _ _ => rfl) j
  cases h1 : findPlayer s' j <;> cases h2 : findPlayer s j <;>
    simp [h1, h2] at this ⊢

theorem findPlayer_enqueueTo_ne {s : GState} {r j : Nat} (pkt : Packet)
    (hij : j ≠ r) : findPlayer (enqueueTo s r pkt) j = findPlayer s j :=
  findPlayer_updatePlayer_ne s r j _
    (fun p => by by_cases h : p.botClient = true <;> simp [h]) hij

theorem findPlayer_enqueueTo_self (s : GState) (r : Nat) (pkt : Packet) :
    findPlayer (enqueueTo s r pkt) r = (findPlayer s r).map
      (fun p => if p.botClient = true then p else { p with queue := p.queue ++ [pkt] }) :=
  findPlayer_updatePlayer_self s r _
    (fun p => by by_cases h : p.botClient = true <;> simp [h])

theorem broadcast_find (pkt : Packet) :
    ∀ (rs : List Nat) (s : GState) (j : Nat), ∃ l : List Packet,
      findPlayer (broadcast s rs pkt) j =
        (findPlayer s j).map (fun p => { p with queue := p.queue ++ l }) ∧
      (∀ x ∈ l, x = pkt) ∧
      (j ∈ rs → ∀ p, findPlayer s j = some p → p.botClient = false → l ≠ []) := by
  intro rs
  induction rs with
  | nil =>
    intro s j
    refine ⟨[], ?_, by simp, by simp⟩
    show findPlayer s j = _
    cases hf : findPlayer s j <;> simp [hf]
  | cons a rs ih =>
    intro s j
    by_cases hja : j = a
    · subst hja
      obtain ⟨l₁, h1, h2, h3⟩ := ih (enqueueTo s j pkt) j
      rw [findPlayer_enqueueTo_self s j pkt, Option.map_map] at h1
      cases hf : findPlayer s j with
      | none =>
        rw [hf] at h1
        simp only [Option.map_none'] at h1
        refine ⟨l₁, by rw [broadcast_cons, h1]; simp, h2, ?_⟩
        intro _ p hp
        exact absurd hp (by simp)
      | some p =>
        rw [hf] at h1
        simp only [Option.map_some'] at h1
        by_cases hb : p.botClient = true
        · simp only [Function.comp_apply, if_pos hb] at h1
          refine ⟨l₁, by rw [broadcast_cons, h1]; simp, h2, ?_⟩
          intro _ q hq hqb
          have hpq : p = q := by injection hq
          rw [← hpq, hb] at hqb
          exact absurd hqb (by simp)
        · simp only [Function.comp_apply, if_neg hb] at h1
          refine ⟨pkt :: l₁, ?_, ?_, ?_⟩
          · rw [broadcast_cons, h1]
            simp [List.append_assoc]
          · intro x hx
            rcases List.mem_cons.mp hx with h | h
            · exact h
            · exact h2 x h
          · intro _ _ _ _; simp
    · obtain ⟨l₁, h1, h2, h3⟩ := ih (enqueueTo s a pkt) j
      rw [findPlayer_enqueueTo_ne pkt hja] at h1
      refine ⟨l₁, h1, h2, ?_⟩
      intro hmem p hp hb
      have : j ∈ rs := by
        rcases List.mem_cons.mp hmem with h | h
        · exact absurd h hja
        · exact h
      exact h3 this p (by rw [findPlayer_enqueueTo_ne pkt hja]; exact hp) hb

theorem listModify_length (f : α → α) :
    ∀ (l : List α) (i : Nat), (listModify l i f).length = l.length := by
  intro l
  induction l with
  | nil => intro i; rfl
  | cons a l ih =>
    intro i
    cases i with
    | zero => rfl
    | succ i => simp [listModify, ih]

theorem listModify_getElem? (f : α → α) :
    ∀ (l : List α) (i j : Nat),
      (listModify l i f)[j]? = if j = i then l[j]?.map f else l[j]? := by
  intro l
  induction l with
  | nil => intro i j; simp [listModify]
  | cons a l ih =>
    intro i j
    cases i with
    | zero =>
      cases j with
      | zero => simp [listModify]
      | succ j => simp [listModify]
    | succ i =>
      cases j with
      | zero => simp [listModify]
      | succ j =>
        simp only [listModify, List.getElem?_cons_succ]
        rw [ih i j]
        by_cases h : j = i
        · simp [h]
        · rw [if_neg h, if_neg (fun hc => h (Nat.succ_injective hc))]

theorem mem_listModify {f : α → α} {l : List α} {i : Nat} {b : α}
    (h : b ∈ listModify l i f) :
    b ∈ l ∨ ∃ a, l[i]? = some a ∧ b = f a := by
  obtain ⟨j, hj, hget⟩ := List.mem_iff_getElem.mp h
  have hlen : j < l.length := by rw [← listModify_length f l i]; exact hj
  have hsome : (if j = i then l[j]?.map f else l[j]?) = some b := by
    rw [← listModify_getElem? f l i j, List.getElem?_eq_getElem hj, hget]
  by_cases hji : j = i
  · subst hji
    rw [if_pos rfl, List.getElem?_eq_getElem hlen] at hsome
    right
    refine ⟨l[j], List.getElem?_eq_getElem hlen, ?_⟩
    have : f l[j] = b := by simpa using hsome
    exact this.symm
  · rw [if_neg hji, List.getElem?_eq_getElem hlen] at hsome
    left
    have : l[j] = b := by simpa using hsome
    exact this ▸ List.getElem_mem hlen

theorem mem_listModify_of_ne {f : α → α} {l : List α} {i j : Nat}
    (hj : j < l.length) (hji : j ≠ i) : l[j] ∈ listModify l i f := by
  have h := listModify_getElem? f l i j
  rw [if_neg hji, List.getElem?_eq_getElem hj] at h
  exact List.getElem?_mem h

theorem self_mem_listModify {f : α → α} {l : List α} {i : Nat}
    (hi : i < l.length) : f l[i] ∈ listModify l i f := by
  have h := listModify_getElem? f l i i
  rw [if_pos rfl, List.getElem?_eq_getElem hi] at h
  simp only [Option.map_some'] at h
  exact List.getElem?_mem h

theorem firstIdx_some {p : α → Bool} :
    ∀ {l : List α} {i : Nat}, firstIdx p l = some i →
      ∃ a, l[i]? = some a ∧ p a = true := by
  intro l
  induction l with
  | nil => intro i h; simp [firstIdx] at h
  | cons a l ih =>
    intro i h
    by_cases hp : p a = true
    · rw [firstIdx, if_pos hp] at h
      obtain rfl := Option.some.injEq .. ▸ h.symm
      exact ⟨a, by simp, hp⟩
    · rw [firstIdx, if_neg hp] at h
      cases hrec : firstIdx p l with
      | none => rw [hrec] at h; simp at h
      | some i' =>
        rw [hrec] at h
        simp only [Option.map_some', Option.some.injEq] at h
        obtain ⟨b, hb, hpb⟩ := ih hrec
        exact ⟨b, by rw [← h]; simpa using hb, hpb⟩

theorem firstIdx_lt {p : α → Bool} {l : List α} {i : Nat}
    (h : firstIdx p l = some i) : i < l.length := by
  obtain ⟨a, ha, _⟩ := firstIdx_some h
  exact List.getElem?_eq_some_iff.mp ha |>.1

theorem find?_congr {p q : α → Bool} :
    ∀ {l : List α}, (∀ a ∈ l, p a = q a) → l.find? p = l.find? q := by
  intro l
  induction l with
  | nil => intro _; rfl
  | cons a l ih =>
    intro h
    simp only [List.find?_cons]
    rw [h a (by simp)]
    by_cases hq : q a = true
    · simp [hq]
    · simp only [Bool.not_eq_true] at hq
      simp only [hq]
      exact ih fun b hb => h b (by simp [hb])

theorem find?_isSome_of_exists {p : α → Bool} {l : List α}
    (h : ∃ a ∈ l, p a = true) : (l.find? p).isSome = true := by
  obtain ⟨a, ha, hpa⟩ := h
  induction l with
  | nil => simp at ha
  | cons b l ih =>
    simp only [List.find?_cons]
    by_cases hb : p b = true
    · simp [hb]
    · simp only [Bool.not_eq_true] at hb
      simp only [hb]
      rcases List.mem_cons.mp ha with rfl | ha'
      · rw [hpa] at hb; simp at hb
      · exact ih ha'

theorem nodup_pid_eq {l : List Player} (h : (l.map Player.pid).Nodup)
    {p q : Player} (hp : p ∈ l) (hq : q ∈ l) (hpq : p.pid = q.pid) : p = q :=
  List.inj_on_of_nodup_map h hp hq hpq

theorem spectLeaveNotify_projEq (oid : Nat) (cname : String) (cnt : Nat)
    (g : Player → β) (hgQ : ∀ p l, g { p with queue := l } = g p) :
    ∀ (specs : List Nat) (s : GState),
      (spectLeaveNotify s oid specs cname cnt).players.map g = s.players.map g := by
  intro specs
  induction specs with
  | nil => intro s; rfl
  | cons a specs ih =>
    intro s
    show (spectLeaveNotify (enqueueTo (enqueueTo s a (Packet.fellowSpectatorLeft oid)) a
      (Packet.channelInfo cname cnt)) oid specs cname cnt).players.map g = _
    rw [ih, enqueueTo_projEq _ _ _ g hgQ, enqueueTo_projEq _ _ _ g hgQ]

theorem spectLeaveNotify_stable (oid : Nat) (cname : String) (cnt : Nat) :
    ∀ (specs : List Nat) (s : GState),
      (spectLeaveNotify s oid specs cname cnt).playersReg = s.playersReg ∧
      (spectLeaveNotify s oid specs cname cnt).channels = s.channels ∧
      (spectLeaveNotify s oid specs cname cnt).channelsReg = s.channelsReg ∧
      (spectLeaveNotify s oid specs cname cnt).matchHeap = s.matchHeap ∧
      (spectLeaveNotify s oid specs cname cnt).matchesReg = s.matchesReg ∧
      (spectLeaveNotify s oid specs cname cnt).cancelled = s.cancelled := by
  intro specs
  induction specs with
  | nil => intro s; exact ⟨rfl, rfl, rfl, rfl, rfl, rfl⟩
  | cons a specs ih =>
    intro s
    exact ih (enqueueTo (enqueueTo s a (Packet.fellowSpectatorLeft oid)) a
      (Packet.channelInfo cname cnt))

theorem join_channel_effects {s : GState} {pid : Nat} {cname : String}
    {b : Bool} {s' : GState}
    (h : join_channel s pid cname = some (b, s')) (g : Player → β)
    (hgQ : ∀ p l, g { p with queue := l } = g p)
    (hgC : ∀ p l, g { p with channels := l } = g p) :
    s'.players.map g = s.players.map g ∧
    s'.matchHeap = s.matchHeap ∧ s'.matchesReg = s.matchesReg ∧
    s'.playersReg = s.playersReg ∧ s'.cancelled = s.cancelled ∧
    s'.channelsReg = s.channelsReg := by
  unfold join_channel at h
  split at h
  case _ p c _ _ =>
    split at h
    · obtain ⟨_, rfl⟩ := Prod.mk.injEq .. ▸ Option.some.injEq .. ▸ h
      exact ⟨rfl, rfl, rfl, rfl, rfl, rfl⟩
    · split at h
      · obtain ⟨_, rfl⟩ := Prod.mk.injEq .. ▸ Option.some.injEq .. ▸ h
        exact ⟨rfl, rfl, rfl, rfl, rfl, rfl⟩
      · split at h
        · obtain ⟨_, rfl⟩ := Prod.mk.injEq .. ▸ Option.some.injEq .. ▸ h
          exact ⟨rfl, rfl, rfl, rfl, rfl, rfl⟩
        · dsimp only [] at h
          injection h with h
          obtain ⟨hb, hs⟩ := Prod.mk.injEq .. ▸ h
          subst hs
          refine ⟨?_, ?_, ?_, ?_, ?_, ?_⟩
          · rw [broadcast_projEq _ g hgQ, enqueueTo_projEq _ _ _ g hgQ,
              updatePlayer_projEq _ _ _ g (fun p => hgC p _)]
            rfl
          · exact ((broadcast_stable _ _ _).2.2.2.1).trans rfl
          · exact ((broadcast_stable _ _ _).2.2.2.2.1).trans rfl
          · exact ((broadcast_stable _ _ _).1).trans rfl
          · exact ((broadcast_stable _ _ _).2.2.2.2.2).trans rfl
          · exact ((broadcast_stable _ _ _).2.2.1).trans rfl
  case _ => exact absurd h (by simp)

theorem leave_channel_effects {s : GState} {pid : Nat} {cname : String}
    {k : Bool} {s' : GState}
    (h : leave_channel s pid cname k = some s') (g : Player → β)
    (hgQ : ∀ p l, g { p with queue := l } = g p)
    (hgC : ∀ p l, g { p with channels := l } = g p) :
    s'.players.map g = s.players.map g ∧
    s'.matchHeap = s.matchHeap ∧ s'.matchesReg = s.matchesReg ∧
    s'.playersReg = s.playersReg ∧ s'.cancelled = s.cancelled ∧
    (s'.channelsReg = s.channelsReg ∨ s'.channelsReg = s.channelsReg.erase cname) := by
  unfold leave_channel at h
  split at h
  · exact absurd h (by simp)
  case _ c _ =>
    split at h
    · obtain rfl := Option.some.injEq .. ▸ h
      exact ⟨rfl, rfl, rfl, rfl, rfl, Or.inl rfl⟩
    · obtain rfl := Option.some.injEq .. ▸ h
      set s1a := updateChannel s cname fun ch => { ch with players := c.players.erase pid }
        with hs1a
      set s1 := if (c.players.erase pid).isEmpty ∧ c.instanced = true then
          { s1a with channelsReg := s1a.channelsReg.erase cname } else s1a with hs1
      set s2 := updatePlayer s1 pid fun q => { q with channels := q.channels.erase cname }
        with hs2
      set s3 := if k then enqueueTo s2 pid (Packet.channelKick cname) else s2 with hs3
      have h1players : s1.players = s.players := by
        rw [hs1]; split <;> rfl
      have h1 : s1.playersReg = s.playersReg ∧ s1.matchHeap = s.matchHeap ∧
          s1.matchesReg = s.matchesReg ∧ s1.cancelled = s.cancelled ∧
          (s1.channelsReg = s.channelsReg ∨ s1.channelsReg = s.channelsReg.erase cname) := by
        rw [hs1]; split
        · exact ⟨rfl, rfl, rfl, rfl, Or.inr rfl⟩
        · exact ⟨rfl, rfl, rfl, rfl, Or.inl rfl⟩
      have h3players : s3.players.map g = s.players.map g := by
        rw [hs3]; split
        · rw [enqueueTo_projEq _ _ _ g hgQ, hs2,
            updatePlayer_projEq _ _ _ g (fun p => hgC p _), h1players]
        · rw [hs2, updatePlayer_projEq _ _ _ g (fun p => hgC p _), h1players]
      have h3 : s3.playersReg = s1.playersReg ∧ s3.matchHeap = s1.matchHeap ∧
          s3.matchesReg = s1.matchesReg ∧ s3.cancelled = s1.cancelled ∧
          s3.channelsReg = s1.channelsReg := by
        rw [hs3]; split <;> exact ⟨rfl, rfl, rfl, rfl, rfl⟩
      obtain ⟨e1, e2, e3, e4, e5, e6⟩ := broadcast_stable
        (Packet.channelInfo cname (c.players.erase pid).length)
        (if c.instanced = true then c.players.erase pid else s3.playersReg) s3
      refine ⟨?_, ?_, ?_, ?_, ?_, ?_⟩
      · rw [broadcast_projEq _ g hgQ, h3players]
      · rw [e4, h3.2.1, h1.2.1]
      · rw [e5, h3.2.2.1, h1.2.2.1]
      · rw [e1, h3.1, h1.1]
      · rw [e6, h3.2.2.2.1, h1.2.2.2.1]
      · rw [e3, h3.2.2.2.2]; exact h1.2.2.2.2

theorem join_channel_false {s : GState} {pid : Nat} {cname : String} {s1 : GState}
    (h : join_channel s pid cname = some (false, s1)) : s1 = s := by
  unfold join_channel at h
  split at h
  case _ p c _ _ =>
    split at h
    · obtain ⟨_, h2⟩ := Prod.mk.injEq .. ▸ Option.some.injEq .. ▸ h
      exact h2.symm
    · split at h
      · obtain ⟨_, h2⟩ := Prod.mk.injEq .. ▸ Option.some.injEq .. ▸ h
        exact h2.symm
      · split at h
        · obtain ⟨_, h2⟩ := Prod.mk.injEq .. ▸ Option.some.injEq .. ▸ h
          exact h2.symm
        · dsimp only [] at h
          injection h with h
          obtain ⟨hb, _⟩ := Prod.mk.injEq .. ▸ h
          exact absurd hb (by simp)
  case _ => exact absurd h (by simp)

/-- C2: join_match returns true only after a complete pass — on a true
return the session was not in a match, its id is not among the tourney
clients, a non-host joiner passed the password check (or staff override)
and found a free slot, and chat-channel admission succeeded — while every
false return (any early failure, including chat-channel admission denial)
leaves the match heap (hence all slots and match membership) and the
registry and every session's `match` field exactly as before the call. -/
theorem c2_join_match_failure_no_mutation (s : GState) (pid mid : Nat) (pw : String)
    (r : Bool) (s' : GState) (h : join_match s pid mid pw = some (r, s')) :
    (r = false →
      s'.matchHeap = s.matchHeap ∧ s'.matchesReg = s.matchesReg ∧
      s'.players.map projM = s.players.map projM) ∧
    (r = true → ∃ p, findPlayer s pid = some p ∧ p.matchId = none ∧
      ∃ m, findMatch s mid = some m ∧ pid ∉ m.tourneyClients ∧
        (pid ≠ m.host → (pw = m.passwd ∨ isStaff p = true) ∧ m.getFree.isSome = true) ∧
        ∃ s₁, join_channel s pid m.chat = some (true, s₁)) := by
  have hgQ : ∀ (p : Player) (l : List Packet), projM { p with queue := l } = projM p :=
    fun _ _ => rfl
  have hfail : ∀ s₀ : GState, (enqueueTo s₀ pid Packet.matchJoinFail).matchHeap = s₀.matchHeap ∧
      (enqueueTo s₀ pid Packet.matchJoinFail).matchesReg = s₀.matchesReg ∧
      (enqueueTo s₀ pid Packet.matchJoinFail).players.map projM = s₀.players.map projM :=
    fun s₀ => ⟨rfl, rfl, enqueueTo_projEq s₀ pid _ projM hgQ⟩
  unfold join_match at h
  split at h
  · exact absurd h (by simp)
  case _ p hp =>
    split at h
    case isTrue hms =>
      obtain ⟨hr, hs⟩ := Prod.mk.injEq .. ▸ Option.some.injEq .. ▸ h
      refine ⟨fun _ => hs ▸ hfail s, fun ht => absurd (hr.trans ht) (by simp)⟩
    case isFalse hms =>
      split at h
      · exact absurd h (by simp)
      case _ m hm =>
        split at h
        case isTrue htc =>
          obtain ⟨hr, hs⟩ := Prod.mk.injEq .. ▸ Option.some.injEq .. ▸ h
          refine ⟨fun _ => hs ▸ hfail s, fun ht => absurd (hr.trans ht) (by simp)⟩
        case isFalse htc =>
          split at h
          case _ sFail hsum =>
            obtain ⟨hr, hs⟩ := Prod.mk.injEq .. ▸ Option.some.injEq .. ▸ h
            have hsf : sFail = enqueueTo s pid Packet.matchJoinFail := by
              by_cases hh : pid ≠ m.host
              · rw [if_pos hh] at hsum
                by_cases hpw : pw ≠ m.passwd ∧ isStaff p = false
                · rw [if_pos hpw] at hsum
                  injection hsum.symm
                · rw [if_neg hpw] at hsum
                  cases hfree : m.getFree with
                  | none => rw [hfree] at hsum; injection hsum.symm
                  | some i => rw [hfree] at hsum; exact absurd hsum.symm (by simp)
              · rw [if_neg hh] at hsum
                exact absurd hsum.symm (by simp)
            refine ⟨fun _ => ?_, fun ht => absurd (hr.trans ht) (by simp)⟩
            rw [← hs, hsf]
            exact hfail s
          case _ slotID hsum =>
            split at h
            next => exact absurd h (by simp)
            next s1 hjc =>
              obtain ⟨hr, hs⟩ := Prod.mk.injEq .. ▸ Option.some.injEq .. ▸ h
              have hs1 : s1 = s := join_channel_false hjc
              refine ⟨fun _ => ?_, fun ht => absurd (hr.trans ht) (by simp)⟩
              rw [← hs, hs1]
              exact ⟨rfl, rfl, rfl⟩
            next s1 hjc =>
              refine ⟨?_, fun _ => ?_⟩
              · intro hrf
                subst hrf
                exfalso
                dsimp only [] at h
                repeat' split at h
                all_goals simp at h
              · refine ⟨p, hp, Option.not_isSome_iff_eq_none.mp (by simp [hms]), m, hm,
                  htc, ?_, s1, hjc⟩
                intro hne
                rw [if_pos hne] at hsum
                by_cases hpw : pw ≠ m.passwd ∧ isStaff p = false
                · rw [if_pos hpw] at hsum
                  exact absurd hsum (by simp)
                · cases hfree : m.getFree with
                  | none =>
                    rw [if_neg hpw, hfree] at hsum
                    exact absurd hsum (by simp)
                  | some i =>
                    refine ⟨?_, by simp [hfree]⟩
                    by_cases hpe : pw = m.passwd
                    · exact Or.inl hpe
                    · right
                      by_cases hst : isStaff p = true
                      · exact hst
                      · exact absurd ⟨hpe, by simpa using hst⟩ hpw

/-- Witness for C2 at a concrete state: player 2 joining the
password-protected match 1 with a wrong password is refused and the match
state is untouched. -/
theorem c2_witness :
    (false = false →
      MxGfail.matchHeap = MxG.matchHeap ∧ MxGfail.matchesReg = MxG.matchesReg ∧
      MxGfail.players.map projM = MxG.players.map projM) ∧
    (false = true → ∃ p, findPlayer MxG 2 = some p ∧ p.matchId = none ∧
      ∃ m, findMatch MxG 1 = some m ∧ 2 ∉ m.tourneyClients ∧
        (2 ≠ m.host → ("bad" = m.passwd ∨ isStaff p = true) ∧ m.getFree.isSome = true) ∧
        ∃ s₁, join_channel MxG 2 m.chat = some (true, s₁)) :=
  c2_join_match_failure_no_mutation MxG 2 1 "bad" false MxGfail (by decide)

theorem nonInstancedName_of_flagsEq {s s' : GState}
    (hf : (s'.channels.map fun c => (c.name, c.instanced)) =
      (s.channels.map fun c => (c.name, c.instanced)))
    {n : String} (h : nonInstancedName s n) : nonInstancedName s' n := by
  intro c hc hname
  have : (c.name, c.instanced) ∈ s'.channels.map fun c => (c.name, c.instanced) :=
    List.mem_map_of_mem _ hc
  rw [hf] at this
  obtain ⟨c₀, hc₀, hcc⟩ := List.mem_map.mp this
  obtain ⟨h1, h2⟩ := Prod.mk.injEq .. ▸ hcc
  rw [← h2]
  exact h c₀ hc₀ (by rw [h1, hname])

theorem namesNodup_of_flagsEq {s s' : GState}
    (hf : (s'.channels.map fun c => (c.name, c.instanced)) =
      (s.channels.map fun c => (c.name, c.instanced)))
    (h : (s.channels.map Channel.name).Nodup) : (s'.channels.map Channel.name).Nodup := by
  have : s'.channels.map Channel.name = s.channels.map Channel.name := by
    have := congrArg (List.map Prod.fst) hf
    rwa [List.map_map, List.map_map] at this
  rw [this]
  exact h

theorem nodup_name_eq {l : List Channel} (h : (l.map Channel.name).Nodup)
    {c d : Channel} (hc : c ∈ l) (hd : d ∈ l) (hcd : c.name = d.name) : c = d :=
  List.inj_on_of_nodup_map h hc hd hcd

theorem C8Post_trans {s s₁ s₂ : GState} (h1 : C8Post s s₁) (h2 : C8Post s₁ s₂) :
    C8Post s s₂ := by
  obtain ⟨e1, n1, f1, sub1, pres1⟩ := h1
  obtain ⟨e2, n2, f2, sub2, pres2⟩ := h2
  refine ⟨e2, n2, f2.trans f1, fun n hn => sub1 n (sub2 n hn), ?_⟩
  intro n hn hni
  exact pres2 n (pres1 n hn hni) (nonInstancedName_of_flagsEq f1 hni)

theorem C8Post_of_eq {s s' : GState} (hInv : emptyInstancedDereg s)
    (hnd : s.channelsReg.Nodup) (hc : s'.channels = s.channels)
    (hr : s'.channelsReg = s.channelsReg) : C8Post s s' := by
  refine ⟨?_, by rw [hr]; exact hnd, by rw [hc], fun n hn => by rwa [hr] at hn,
    fun n hn _ => by rwa [hr]⟩
  intro c hmem hi hp
  rw [hc] at hmem
  rw [hr]
  exact hInv c hmem hi hp

theorem leave_channel_c8core {s : GState} {pid : Nat} {cname : String}
    {k : Bool} {s' : GState}
    (hInv : emptyInstancedDereg s) (hnd : s.channelsReg.Nodup)
    (hnames : (s.channels.map Channel.name).Nodup)
    (h : leave_channel s pid cname k = some s') : C8Post s s' := by
  unfold leave_channel at h
  split at h
  · exact absurd h (by simp)
  case _ c hc =>
    split at h
    · obtain rfl := Option.some.injEq .. ▸ h
      exact C8Post_of_eq hInv hnd rfl rfl
    case _ hmem =>
      obtain rfl := Option.some.injEq .. ▸ h
      obtain ⟨hcmem, hcname⟩ := findChannel_mem hc
      set newPlayers := c.players.erase pid with hnp
      set s1a := updateChannel s cname fun ch => { ch with players := newPlayers } with hs1a
      set s1 := if newPlayers.isEmpty ∧ c.instanced = true then
          { s1a with channelsReg := s1a.channelsReg.erase cname } else s1a with hs1
      have hch1 : s1.channels =
          s.channels.map fun c₀ => if c₀.name = cname then { c₀ with players := newPlayers } else c₀ := by
        rw [hs1]; split <;> rfl
      have hreg1 : s1.channelsReg = (if newPlayers.isEmpty ∧ c.instanced = true then
          s.channelsReg.erase cname else s.channelsReg) := by
        rw [hs1]; split <;> rfl
      set s3 := if k then
          enqueueTo (updatePlayer s1 pid fun q => { q with channels := q.channels.erase cname })
            pid (Packet.channelKick cname)
        else updatePlayer s1 pid fun q => { q with channels := q.channels.erase cname } with hs3
      have hch3 : s3.channels = s1.channels := by rw [hs3]; split <;> rfl
      have hreg3 : s3.channelsReg = s1.channelsReg := by rw [hs3]; split <;> rfl
      obtain ⟨_, ebc, ebr, _, _, _⟩ := broadcast_stable
        (Packet.channelInfo cname newPlayers.length)
        (if c.instanced = true then newPlayers else s3.playersReg) s3
      have hch : (broadcast s3 (if c.instanced = true then newPlayers else s3.playersReg)
          (Packet.channelInfo cname newPlayers.length)).channels = s1.channels := by
        rw [ebc, hch3]
      have hreg : (broadcast s3 (if c.instanced = true then newPlayers else s3.playersReg)
          (Packet.channelInfo cname newPlayers.length)).channelsReg = s1.channelsReg := by
        rw [ebr, hreg3]
      refine ⟨?_, ?_, ?_, ?_, ?_⟩
      · -- empty instanced channels are deregistered
        intro c' hmem' hi' hp'
        rw [hch, hch1] at hmem'
        rw [hreg, hreg1]
        obtain ⟨c₀, hc₀, hite⟩ := List.mem_map.mp hmem'
        by_cases hn0 : c₀.name = cname
        · rw [if_pos hn0] at hite
          have hc₀c : c₀ = c := nodup_name_eq hnames hc₀ hcmem (hn0.trans hcname.symm)
          rw [hc₀c] at hite
          have hinst : c.instanced = true := by rw [← hite] at hi'; exact hi'
          have hempty : newPlayers.isEmpty = true := by
            rw [← hite] at hp'; simpa using hp'
          rw [if_pos ⟨hempty, hinst⟩]
          have hcn : c'.name = cname := by rw [← hite]; exact hcname
          rw [hcn]
          exact (List.Nodup.mem_erase_iff hnd).not.mpr (by simp)
        · rw [if_neg hn0] at hite
          rw [← hite] at hi' hp' ⊢
          have hnot : c₀.name ∉ s.channelsReg := hInv c₀ hc₀ hi' hp'
          split
          · intro hcontra
            exact hnot (List.mem_of_mem_erase hcontra)
          · exact hnot
      · rw [hreg, hreg1]
        split
        · exact hnd.erase cname
        · exact hnd
      · rw [hch, hch1, List.map_map]
        exact map_congr_fun fun c₀ => by by_cases hn0 : c₀.name = cname <;> simp [hn0]
      · intro n hn
        rw [hreg, hreg1] at hn
        split at hn
        · exact List.mem_of_mem_erase hn
        · exact hn
      · intro n hn hni
        rw [hreg, hreg1]
        split
        case isTrue hcond =>
          have hne : n ≠ cname := by
            intro hcontra
            have := hni c hcmem (hcname.trans hcontra.symm)
            rw [this] at hcond
            exact absurd hcond.2 (by simp)
          exact (List.Nodup.mem_erase_iff hnd).mpr ⟨hne, hn⟩
        · exact hn

theorem enqueueState_stable (s : GState) (mid : Nat) :
    (enqueueState s mid).playersReg = s.playersReg ∧
    (enqueueState s mid).channels = s.channels ∧
    (enqueueState s mid).channelsReg = s.channelsReg ∧
    (enqueueState s mid).matchHeap = s.matchHeap ∧
    (enqueueState s mid).matchesReg = s.matchesReg ∧
    (enqueueState s mid).cancelled = s.cancelled := by
  unfold enqueueState
  split
  · exact ⟨rfl, rfl, rfl, rfl, rfl, rfl⟩
  · exact broadcast_stable _ _ _

theorem sendBotToChannel_stable (s : GState) (cname msg : String) :
    (sendBotToChannel s cname msg).playersReg = s.playersReg ∧
    (sendBotToChannel s cname msg).channels = s.channels ∧
    (sendBotToChannel s cname msg).channelsReg = s.channelsReg ∧
    (sendBotToChannel s cname msg).matchHeap = s.matchHeap ∧
    (sendBotToChannel s cname msg).matchesReg = s.matchesReg ∧
    (sendBotToChannel s cname msg).cancelled = s.cancelled := by
  unfold sendBotToChannel
  split
  · exact broadcast_stable _ _ _
  · exact ⟨rfl, rfl, rfl, rfl, rfl, rfl⟩

theorem remove_spectator_chanview {s : GState} {hid oid : Nat} {s' : GState}
    (h : remove_spectator s hid oid = some s') :
    ∃ (s2 s3 : GState) (cn : String),
      s2.channels = s.channels ∧ s2.channelsReg = s.channelsReg ∧
      leave_channel s2 oid cn true = some s3 ∧
      ((s'.channels = s3.channels ∧ s'.channelsReg = s3.channelsReg) ∨
        ∃ s4, leave_channel s3 hid cn true = some s4 ∧
          s'.channels = s4.channels ∧ s'.channelsReg = s4.channelsReg) := by
  unfold remove_spectator at h
  split at h
  · exact absurd h (by simp)
  case _ hp =>
    split at h
    · exact absurd h (by simp)
    case _ newSpecs hrem =>
      split at h
      case isTrue hempty =>
        dsimp only [] at h
        split at h
        · exact absurd h (by simp)
        case _ c hreg =>
          split at h
          · exact absurd h (by simp)
          case _ s3 hlc =>
            split at h
            · exact absurd h (by simp)
            case _ s4 hlc2 =>
              obtain rfl := Option.some.injEq .. ▸ h
              exact ⟨updatePlayer (updatePlayer s hid fun q =>
                  { q with spectators := newSpecs }) oid
                  (fun q => { q with spectating := none }), s3, c.name, rfl, rfl, hlc,
                Or.inr ⟨s4, hlc2, rfl, rfl⟩⟩
      case isFalse hempty =>
        dsimp only [] at h
        split at h
        · exact absurd h (by simp)
        case _ c hreg =>
          split at h
          · exact absurd h (by simp)
          case _ s3 hlc =>
            split at h
            · exact absurd h (by simp)
            case _ c2 hc2 =>
              obtain rfl := Option.some.injEq .. ▸ h
              obtain ⟨_, e2, e3, _, _, _⟩ := spectLeaveNotify_stable oid c2.name
                c2.players.length newSpecs (enqueueTo s3 hid
                  (Packet.channelInfo c2.name c2.players.length))
              refine ⟨updatePlayer (updatePlayer s hid fun q =>
                  { q with spectators := newSpecs }) oid
                  (fun q => { q with spectating := none }), s3, c.name, rfl, rfl, hlc,
                Or.inl ⟨?_, ?_⟩⟩
              · show (spectLeaveNotify (enqueueTo s3 hid
                    (Packet.channelInfo c2.name c2.players.length)) oid newSpecs
                    c2.name c2.players.length).channels = s3.channels
                rw [e2]; rfl
              · show (spectLeaveNotify (enqueueTo s3 hid
                    (Packet.channelInfo c2.name c2.players.length)) oid newSpecs
                    c2.name c2.players.length).channelsReg = s3.channelsReg
                rw [e3]; rfl

theorem leave_match_chanview {s : GState} {pid : Nat} {s' : GState}
    (h : leave_match s pid = some s') :
    (s'.channels = s.channels ∧ s'.channelsReg = s.channelsReg) ∨
    ∃ (s1 s2 : GState) (cn : String),
      s1.channels = s.channels ∧ s1.channelsReg = s.channelsReg ∧
      leave_channel s1 pid cn true = some s2 ∧
      s'.channels = s2.channels ∧ s'.channelsReg = s2.channelsReg := by
  unfold leave_match at h
  split at h
  · exact absurd h (by simp)
  case _ p hp =>
    split at h
    · obtain rfl := Option.some.injEq .. ▸ h
      exact Or.inl ⟨rfl, rfl⟩
    case _ mid hmid =>
      split at h
      · exact absurd h (by simp)
      case _ m hm =>
        split at h
        · exact absurd h (by simp)
        case _ j hj =>
          dsimp only [] at h
          split at h
          · exact absurd h (by simp)
          case _ s2 hlc =>
            split at h
            · exact absurd h (by simp)
            case _ m2 hm2 =>
              split at h
              · -- the match emptied: timers cancelled, match deregistered
                obtain rfl := Option.some.injEq .. ▸ h
                refine Or.inr ⟨updateMatch s mid (fun mm =>
                  { mm with slots := listModify mm.slots j Slot.reset }),
                  s2, m.chat, rfl, rfl, hlc, ?_⟩
                set s3 := (match m2.startingStart with
                  | some t =>
                    updateMatch
                      { s2 with cancelled := s2.cancelled ++ t :: m2.startingAlerts } mid
                      fun mm => { mm with startingStart := none, startingAlerts := [] }
                  | none => s2) with hs3
                have e3 : s3.channels = s2.channels ∧ s3.channelsReg = s2.channelsReg := by
                  rw [hs3]; cases m2.startingStart <;> exact ⟨rfl, rfl⟩
                set s4 := { s3 with matchesReg := s3.matchesReg.erase mid } with hs4
                constructor
                · show (match regChannel s4 "#lobby" with
                    | some lobby => broadcast s4 lobby.players (Packet.disposeMatch mid)
                    | none => s4).channels = s2.channels
                  cases regChannel s4 "#lobby"
                  · exact e3.1
                  · rw [(broadcast_stable _ _ _).2.1]; exact e3.1
                · show (match regChannel s4 "#lobby" with
                    | some lobby => broadcast s4 lobby.players (Packet.disposeMatch mid)
                    | none => s4).channelsReg = s2.channelsReg
                  cases regChannel s4 "#lobby"
                  · exact e3.2
                  · rw [(broadcast_stable _ _ _).2.2.1]; exact e3.2
              · -- occupants remain: host transfer, referee removal, state broadcast
                split at h
                · exact absurd h (by simp)
                case _ s3 hhost =>
                  obtain rfl := Option.some.injEq .. ▸ h
                  refine Or.inr ⟨updateMatch s mid (fun mm =>
                    { mm with slots := listModify mm.slots j Slot.reset }),
                    s2, m.chat, rfl, rfl, hlc, ?_⟩
                  have e3 : s3.channels = s2.channels ∧ s3.channelsReg = s2.channelsReg := by
                    split at hhost
                    · split at hhost
                      · split at hhost
                        · obtain rfl := Option.some.injEq .. ▸ hhost
                          exact ⟨rfl, rfl⟩
                        · exact absurd hhost (by simp)
                      · obtain rfl := Option.some.injEq .. ▸ hhost
                        exact ⟨rfl, rfl⟩
                    · obtain rfl := Option.some.injEq .. ▸ hhost
                      exact ⟨rfl, rfl⟩
                  set s4 := (if pid ∈ m2.refs then
                      sendBotToChannel
                        (updateMatch s3 mid fun mm => { mm with refs := mm.refs.erase pid })
                        m.chat (p.name ++ " removed from match referees.")
                    else s3) with hs4
                  have e4 : s4.channels = s3.channels ∧ s4.channelsReg = s3.channelsReg := by
                    rw [hs4]; split
                    · obtain ⟨_, f2, f3, _, _, _⟩ := sendBotToChannel_stable
                        (updateMatch s3 mid fun mm => { mm with refs := mm.refs.erase pid })
                        m.chat (p.name ++ " removed from match referees.")
                      exact ⟨f2, f3⟩
                    · exact ⟨rfl, rfl⟩
                  obtain ⟨_, g2, g3, _, _, _⟩ := enqueueState_stable s4 mid
                  exact ⟨by rw [show (updatePlayer (enqueueState s4 mid) pid _).channels =
                      (enqueueState s4 mid).channels from rfl, g2, e4.1, e3.1],
                    by rw [show (updatePlayer (enqueueState s4 mid) pid _).channelsReg =
                      (enqueueState s4 mid).channelsReg from rfl, g3, e4.2, e3.2]⟩

/-- C8: any leave_channel, remove_spectator or leave_match that brings an
instanced channel to zero members removes it from the channel registry
before returning (stated as the invariant that empty instanced channels are
never registered), and names whose channels are non-instanced are never
removed from the registry by these operations. -/
theorem c8_instanced_channel_teardown :
    (∀ (s : GState) (pid : Nat) (cn : String) (k : Bool) (s' : GState),
      emptyInstancedDereg s → s.channelsReg.Nodup →
      (s.channels.map Channel.name).Nodup →
      leave_channel s pid cn k = some s' →
      emptyInstancedDereg s' ∧
      (∀ n ∈ s.channelsReg, nonInstancedName s n → n ∈ s'.channelsReg)) ∧
    (∀ (s : GState) (hid oid : Nat) (s' : GState),
      emptyInstancedDereg s → s.channelsReg.Nodup →
      (s.channels.map Channel.name).Nodup →
      remove_spectator s hid oid = some s' →
      emptyInstancedDereg s' ∧
      (∀ n ∈ s.channelsReg, nonInstancedName s n → n ∈ s'.channelsReg)) ∧
    (∀ (s : GState) (pid : Nat) (s' : GState),
      emptyInstancedDereg s → s.channelsReg.Nodup →
      (s.channels.map Channel.name).Nodup →
      leave_match s pid = some s' →
      emptyInstancedDereg s' ∧
      (∀ n ∈ s.channelsReg, nonInstancedName s n → n ∈ s'.channelsReg)) := by
  have hstep : ∀ (s s₀ s₁ : GState) (pid : Nat) (cn : String) (k : Bool),
      C8Post s s₀ → (s.channels.map Channel.name).Nodup →
      leave_channel s₀ pid cn k = some s₁ → C8Post s s₁ := by
    intro s s₀ s₁ pid cn k hpost hnames hlc
    exact C8Post_trans hpost
      (leave_channel_c8core hpost.1 hpost.2.1
        (namesNodup_of_flagsEq hpost.2.2.1 hnames) hlc)
  refine ⟨?_, ?_, ?_⟩
  · intro s pid cn k s' hInv hnd hnames h
    obtain ⟨e1, _, _, _, e5⟩ := leave_channel_c8core hInv hnd hnames h
    exact ⟨e1, e5⟩
  · intro s hid oid s' hInv hnd hnames h
    obtain ⟨s2, s3, cn, hc2, hr2, hlc, hrest⟩ := remove_spectator_chanview h
    have p2 : C8Post s s2 := C8Post_of_eq hInv hnd hc2 hr2
    have p3 : C8Post s s3 := hstep s s2 s3 oid cn true p2 hnames hlc
    have pfin : C8Post s s' := by
      rcases hrest with ⟨hc', hr'⟩ | ⟨s4, hlc2, hc', hr'⟩
      · exact C8Post_trans p3 (C8Post_of_eq p3.1 p3.2.1 hc' hr')
      · have p4 : C8Post s s4 := hstep s s3 s4 hid cn true p3 hnames hlc2
        exact C8Post_trans p4 (C8Post_of_eq p4.1 p4.2.1 hc' hr')
    exact ⟨pfin.1, pfin.2.2.2.2⟩
  · intro s pid s' hInv hnd hnames h
    rcases leave_match_chanview h with ⟨hc', hr'⟩ | ⟨s1, s2, cn, hc1, hr1, hlc, hc', hr'⟩
    · have pfin := C8Post_of_eq hInv hnd hc' hr'
      exact ⟨pfin.1, pfin.2.2.2.2⟩
    · have p1 : C8Post s s1 := C8Post_of_eq hInv hnd hc1 hr1
      have p2 : C8Post s s2 := hstep s s1 s2 pid cn true p1 hnames hlc
      have pfin : C8Post s s' := C8Post_trans p2 (C8Post_of_eq p2.1 p2.2.1 hc' hr')
      exact ⟨pfin.1, pfin.2.2.2.2⟩

/-- Witness for C8 at a concrete state: player 1 leaving the instanced chat
channel of match 1 empties it, and afterwards no empty instanced channel is
registered. -/
theorem c8_witness :
    emptyInstancedDereg MxGleave ∧
    (∀ n ∈ MxG.channelsReg, nonInstancedName MxG n → n ∈ MxGleave.channelsReg) :=
  c8_instanced_channel_teardown.1 MxG 1 "#multi_1" true MxGleave (by decide) (by decide)
    (by decide) (by decide)

theorem find?_mid_map_update (l : List MatchObj) (i j : Nat) (f : MatchObj → MatchObj)
    (hf : ∀ m, (f m).mid = m.mid) :
    (l.map fun m => if m.mid = i then f m else m).find? (fun m => m.mid == j) =
      if j = i then (l.find? (fun m => m.mid == j)).map f
      else l.find? (fun m => m.mid == j) := by
  induction l with
  | nil => simp
  | cons a l ih =>
    by_cases hi : a.mid = i
    · by_cases hj : a.mid = j
      · simp only [List.map_cons, List.find?_cons, if_pos hi]
        rw [show ((f a).mid == j) = true by simp [hf, hj],
            show (a.mid == j) = true by simp [hj]]
        simp [hj ▸ hi]
      · simp only [List.map_cons, List.find?_cons, if_pos hi]
        rw [show ((f a).mid == j) = false by simp [hf, hj],
            show (a.mid == j) = false by simp [hj]]
        exact ih
    · by_cases hj : a.mid = j
      · simp only [List.map_cons, List.find?_cons, if_neg hi]
        rw [show (a.mid == j) = true by simp [hj]]
        have : ¬(j = i) := fun h => hi (hj.trans h)
        simp [this]
      · simp only [List.map_cons, List.find?_cons, if_neg hi]
        rw [show (a.mid == j) = false by simp [hj]]
        exact ih

theorem findMatch_updateMatch_self {s : GState} {i : Nat} {m : MatchObj}
    (f : MatchObj → MatchObj) (hf : ∀ m, (f m).mid = m.mid)
    (hm : findMatch s i = some m) :
    findMatch (updateMatch s i f) i = some (f m) := by
  unfold findMatch updateMatch at *
  rw [find?_mid_map_update s.matchHeap i i f hf, if_pos rfl, hm]
  rfl

theorem findMatch_congr {s s' : GState} (h : s'.matchHeap = s.matchHeap) (i : Nat) :
    findMatch s' i = findMatch s i := by
  unfold findMatch
  rw [h]

theorem nodup_not_mem_erase {l : List Nat} (h : l.Nodup) (a : Nat) :
    a ∉ l.erase a := fun hc => ((List.Nodup.mem_erase_iff h).mp hc).1 rfl

/-- C4: when a session leaves its match and every slot thereby becomes
Open, the pending start-countdown timer (if any) and the pending alert
timers are cancelled and the match is removed from the match registry.  The
hypothesis that the alert list is empty whenever no start timer is pending
reflects objects/match.py, which sets both fields together. -/
theorem c4_empty_match_teardown (s : GState) (pid mid : Nat) (p : Player)
    (m : MatchObj) (j : Nat) (s' : GState)
    (hp : findPlayer s pid = some p) (hmid : p.matchId = some mid)
    (hm : findMatch s mid = some m) (hj : m.getSlotIdx pid = some j)
    (hrnd : s.matchesReg.Nodup)
    (hallopen : (listModify m.slots j Slot.reset).all Slot.empty = true)
    (halerts : m.startingStart = none → m.startingAlerts = [])
    (h : leave_match s pid = some s') :
    mid ∉ s'.matchesReg ∧
    (∀ t, m.startingStart = some t → t ∈ s'.cancelled) ∧
    (∀ a ∈ m.startingAlerts, a ∈ s'.cancelled) := by
  unfold leave_match at h
  rw [hp] at h
  simp only [hmid, hm, hj] at h
  try dsimp only [] at h
  split at h
  · exact absurd h (by simp)
  case _ s2 hlc =>
    obtain ⟨_, hsH, hsR, _, hsC, _⟩ := leave_channel_effects hlc projM
      (fun _ _ => rfl) (fun _ _ => rfl)
    have hm2find : findMatch s2 mid = some (m.resetSlot j) := by
      rw [findMatch_congr hsH mid]
      exact findMatch_updateMatch_self _ (fun _ => rfl) hm
    have hreg2 : s2.matchesReg = s.matchesReg := hsR.trans rfl
    have hcan2 : s2.cancelled = s.cancelled := hsC.trans rfl
    split at h
    · exact absurd h (by simp)
    case _ m2 hm2 =>
      have hm2eq : m2 = m.resetSlot j := by
        rw [hm2find] at hm2
        injection hm2 with hh
        exact hh.symm
      subst hm2eq
      rw [if_pos (show (m.resetSlot j).slots.all Slot.empty = true from hallopen)] at h
      rw [show (m.resetSlot j).startingStart = m.startingStart from rfl,
        show (m.resetSlot j).startingAlerts = m.startingAlerts from rfl] at h
      have hfin : ∀ s₃ : GState, mid ∉ s₃.matchesReg.erase mid →
          some (updatePlayer (match regChannel { s₃ with
              matchesReg := s₃.matchesReg.erase mid } "#lobby" with
            | some lobby => broadcast { s₃ with matchesReg := s₃.matchesReg.erase mid }
                lobby.players (Packet.disposeMatch mid)
            | none => { s₃ with matchesReg := s₃.matchesReg.erase mid }) pid
            (fun q => { q with matchId := none })) = some s' →
          mid ∉ s'.matchesReg ∧ s'.cancelled = s₃.cancelled := by
        intro s₃ hnot hfe
        obtain rfl := Option.some.injEq .. ▸ hfe
        constructor
        · show mid ∉ (match regChannel { s₃ with
              matchesReg := s₃.matchesReg.erase mid } "#lobby" with
            | some lobby => broadcast { s₃ with matchesReg := s₃.matchesReg.erase mid }
                lobby.players (Packet.disposeMatch mid)
            | none => { s₃ with matchesReg := s₃.matchesReg.erase mid }).matchesReg
          cases regChannel { s₃ with matchesReg := s₃.matchesReg.erase mid } "#lobby"
          · exact hnot
          · rw [(broadcast_stable _ _ _).2.2.2.2.1]
            exact hnot
        · show (match regChannel { s₃ with
              matchesReg := s₃.matchesReg.erase mid } "#lobby" with
            | some lobby => broadcast { s₃ with matchesReg := s₃.matchesReg.erase mid }
                lobby.players (Packet.disposeMatch mid)
            | none => { s₃ with matchesReg := s₃.matchesReg.erase mid }).cancelled = s₃.cancelled
          cases regChannel { s₃ with matchesReg := s₃.matchesReg.erase mid } "#lobby"
          · rfl
          · rw [(broadcast_stable _ _ _).2.2.2.2.2]
      cases hstart : m.startingStart with
      | some t =>
        rw [hstart] at h
        try dsimp only [] at h
        obtain ⟨hnot', hcan'⟩ := hfin _ (by
          show mid ∉ s2.matchesReg.erase mid
          rw [hreg2]
          exact nodup_not_mem_erase hrnd mid) h
        refine ⟨hnot', ?_, ?_⟩
        · intro t' ht'
          obtain rfl : t = t' := by injection ht'
          rw [hcan']
          show t ∈ s2.cancelled ++ t :: m.startingAlerts
          simp
        · intro a ha
          rw [hcan']
          show a ∈ s2.cancelled ++ t :: m.startingAlerts
          simp [ha]
      | none =>
        rw [hstart] at h
        try dsimp only [] at h
        obtain ⟨hnot', _⟩ := hfin _ (by
          show mid ∉ s2.matchesReg.erase mid
          rw [hreg2]
          exact nodup_not_mem_erase hrnd mid) h
        refine ⟨hnot', fun t' ht' => absurd ht' (by simp), ?_⟩
        intro a ha
        rw [halerts hstart] at ha
        exact absurd ha (by simp)

/-- Witness for C4 at a concrete state: player 1, sole occupant of match 1,
leaves; the start timer 77 and alert timers 78 and 79 are cancelled and the
match is deregistered. -/
theorem c4_witness :
    1 ∉ MxGlm.matchesReg ∧
    (∀ t, MxM.startingStart = some t → t ∈ MxGlm.cancelled) ∧
    (∀ a ∈ MxM.startingAlerts, a ∈ MxGlm.cancelled) :=
  c4_empty_match_teardown MxG 1 1 MxP1 MxM 0 MxGlm (by decide) (by decide) (by decide)
    (by decide) (by decide) (by decide) (by decide) (by decide)

theorem queueExt_refl (s : GState) (j : Nat) :
    ∃ l, findPlayer s j = (findPlayer s j).map
      (fun p => { p with queue := p.queue ++ l }) :=
  ⟨[], by cases h : findPlayer s j <;> simp [h]⟩

theorem queueExt_trans {o₁ o₂ o₃ : Option Player} {l₁ l₂ : List Packet}
    (h₁ : o₂ = o₁.map (fun p => { p with queue := p.queue ++ l₁ }))
    (h₂ : o₃ = o₂.map (fun p => { p with queue := p.queue ++ l₂ })) :
    o₃ = o₁.map (fun p => { p with queue := p.queue ++ (l₁ ++ l₂) }) := by
  cases o₁ with
  | none => rw [h₂, h₁]; rfl
  | some p =>
    rw [h₂, h₁]
    simp [List.append_assoc]

theorem leave_channel_queue_other {s : GState} {pid : Nat} {cn : String}
    {k : Bool} {s' : GState} (h : leave_channel s pid cn k = some s')
    (j : Nat) (hj : j ≠ pid) :
    ∃ l, findPlayer s' j = (findPlayer s j).map
      (fun p => { p with queue := p.queue ++ l }) := by
  unfold leave_channel at h
  split at h
  · exact absurd h (by simp)
  case _ c hc =>
    split at h
    · obtain rfl := Option.some.injEq .. ▸ h
      exact queueExt_refl s j
    · obtain rfl := Option.some.injEq .. ▸ h
      set newPlayers := c.players.erase pid with hnp
      set s1a := updateChannel s cn fun ch => { ch with players := newPlayers } with hs1a
      set s1 := if newPlayers.isEmpty ∧ c.instanced = true then
          { s1a with channelsReg := s1a.channelsReg.erase cn } else s1a with hs1
      set s2 := updatePlayer s1 pid fun q => { q with channels := q.channels.erase cn }
        with hs2
      set s3 := if k then enqueueTo s2 pid (Packet.channelKick cn) else s2 with hs3
      obtain ⟨l₁, hb, -, -⟩ := broadcast_find (Packet.channelInfo cn newPlayers.length)
        (if c.instanced = true then newPlayers else s3.playersReg) s3 j
      have h2 : findPlayer s2 j = findPlayer s1 j :=
        findPlayer_updatePlayer_ne s1 pid j _ (fun p => rfl) hj
      have h1 : findPlayer s1 j = findPlayer s j := by
        rw [hs1]; split <;> rfl
      have h3 : findPlayer s3 j = findPlayer s j := by
        rw [hs3]
        split
        · rw [findPlayer_enqueueTo_ne _ hj, h2, h1]
        · rw [h2, h1]
      exact ⟨l₁, by rw [hb, h3]⟩

theorem enqueueState_queue (s : GState) (mid : Nat) (j : Nat) :
    ∃ l, findPlayer (enqueueState s mid) j = (findPlayer s j).map
      (fun p => { p with queue := p.queue ++ l }) := by
  unfold enqueueState
  split
  · exact queueExt_refl s j
  · obtain ⟨l₁, hb, -, -⟩ := broadcast_find _ _ _ j
    exact ⟨l₁, hb⟩

theorem sendBotToChannel_queue (s : GState) (cn msg : String) (j : Nat) :
    ∃ l, findPlayer (sendBotToChannel s cn msg) j = (findPlayer s j).map
      (fun p => { p with queue := p.queue ++ l }) := by
  unfold sendBotToChannel
  split
  · obtain ⟨l₁, hb, -, -⟩ := broadcast_find _ _ _ j
    exact ⟨l₁, hb⟩
  · exact queueExt_refl s j

/-- C3: when the host leaves a match that still has a remaining occupant,
the host becomes the occupant of the lowest-indexed remaining occupied slot
(`firstOccupant` of the slots after the leaver's slot is reset) and a
host-transfer notification is appended to that occupant's queue.  The slot
well-formedness hypothesis ties the status-based search of the source to
the occupant-based reading of the spec; the new host is a live non-bot
session distinct from the leaver. -/
theorem c3_host_transfer_lowest_slot (s : GState) (pid mid : Nat) (p : Player)
    (m : MatchObj) (j q : Nat) (qq : Player) (s' : GState)
    (hp : findPlayer s pid = some p) (hmid : p.matchId = some mid)
    (hm : findMatch s mid = some m) (hj : m.getSlotIdx pid = some j)
    (hhost : m.host = pid)
    (hSW : ∀ sl ∈ m.slots, sl.status.hasPlayer = sl.player.isSome)
    (hocc : ∃ sl ∈ (m.resetSlot j).slots, sl.player.isSome = true)
    (hq : firstOccupant (m.resetSlot j).slots = some q)
    (hqpid : q ≠ pid)
    (hqq : findPlayer s q = some qq) (hqbot : qq.botClient = false)
    (h : leave_match s pid = some s') :
    (findMatch s' mid).map MatchObj.host = some q ∧
    ∃ l, queueOf s' q = queueOf s q ++ l ∧ Packet.matchTransferHost ∈ l := by
  have hswAll : ∀ sl ∈ (m.resetSlot j).slots, sl.status.hasPlayer = sl.player.isSome := by
    intro sl hsl
    rcases mem_listModify hsl with hmem | ⟨a, _, rfl⟩
    · exact hSW sl hmem
    · rfl
  have hfindEq : (m.resetSlot j).slots.find? (fun sl => sl.status.hasPlayer) =
      (m.resetSlot j).slots.find? (fun sl => sl.player.isSome) :=
    find?_congr (fun sl hsl => hswAll sl hsl)
  obtain ⟨sl₀, hfo, hsl₀p⟩ : ∃ sl₀, (m.resetSlot j).slots.find?
      (fun sl => sl.player.isSome) = some sl₀ ∧ sl₀.player = some q := by
    unfold firstOccupant at hq
    cases hfo : (m.resetSlot j).slots.find? (fun sl => sl.player.isSome) with
    | none => rw [hfo] at hq; simp at hq
    | some sl₀ => rw [hfo] at hq; exact ⟨sl₀, rfl, by simpa using hq⟩
  have hallfalse : ¬((m.resetSlot j).slots.all Slot.empty = true) := by
    intro hall
    obtain ⟨sl, hsl, hs⟩ := hocc
    have hhp : sl.status.hasPlayer = true := by rw [hswAll sl hsl]; exact hs
    have hemp := List.all_eq_true.mp hall sl hsl
    unfold Slot.empty at hemp
    unfold SlotStatus.hasPlayer at hhp
    rw [show (sl.status == SlotStatus.open_) = true from hemp] at hhp
    simp at hhp
  unfold leave_match at h
  rw [hp] at h
  simp only [hmid, hm, hj] at h
  try dsimp only [] at h
  split at h
  · exact absurd h (by simp)
  case _ s2 hlc =>
    have hm2find : findMatch s2 mid = some (m.resetSlot j) := by
      rw [findMatch_congr ((leave_channel_effects hlc projM
        (fun _ _ => rfl) (fun _ _ => rfl)).2.1) mid]
      exact findMatch_updateMatch_self _ (fun _ => rfl) hm
    split at h
    · exact absurd h (by simp)
    case _ m2 hm2 =>
      have hm2eq : m2 = m.resetSlot j := by
        rw [hm2find] at hm2
        injection hm2 with hh
        exact hh.symm
      subst hm2eq
      rw [if_neg hallfalse] at h
      rw [if_pos (show pid = (m.resetSlot j).host from hhost.symm)] at h
      rw [show (m.resetSlot j).slots.find? (fun sl => sl.status.hasPlayer) = some sl₀
        from hfindEq.trans hfo] at h
      try dsimp only [] at h
      rw [hsl₀p] at h
      try dsimp only [] at h
      -- the queue of the new host at the transfer point
      obtain ⟨l₀, hql₀⟩ := leave_channel_queue_other hlc q hqpid
      have hfs2 : findPlayer s2 q = some { qq with queue := qq.queue ++ l₀ } := by
        rw [hql₀]
        rw [show findPlayer (updateMatch s mid fun mm =>
          { mm with slots := listModify mm.slots j Slot.reset }) q = findPlayer s q
          from rfl, hqq]
        rfl
      set T3 := enqueueTo (updateMatch s2 mid fun mm => { mm with host := q }) q
        Packet.matchTransferHost with hT3
      have hfT3 : findPlayer T3 q =
          some { qq with queue := (qq.queue ++ l₀) ++ [Packet.matchTransferHost] } := by
        rw [hT3, findPlayer_enqueueTo_self]
        rw [show findPlayer (updateMatch s2 mid fun mm => { mm with host := q }) q =
          findPlayer s2 q from rfl, hfs2]
        simp [hqbot]
      have hfmT3 : findMatch T3 mid = some { (m.resetSlot j) with host := q } := by
        rw [findMatch_congr (show T3.matchHeap = (updateMatch s2 mid fun mm =>
          { mm with host := q }).matchHeap from rfl) mid]
        exact findMatch_updateMatch_self _ (fun _ => rfl) hm2find
      split at h
      case isTrue href =>
        obtain rfl := Option.some.injEq .. ▸ h
        set S4 := sendBotToChannel (updateMatch T3 mid fun mm =>
          { mm with refs := mm.refs.erase pid }) m.chat
          (p.name ++ " removed from match referees.") with hS4
        obtain ⟨_, _, _, hbH, _, _⟩ := sendBotToChannel_stable (updateMatch T3 mid fun mm =>
          { mm with refs := mm.refs.erase pid }) m.chat
          (p.name ++ " removed from match referees.")
        have hfmS4 : findMatch S4 mid =
            some { (m.resetSlot j) with host := q, refs := (m.resetSlot j).refs.erase pid } := by
          rw [hS4, findMatch_congr hbH mid]
          exact findMatch_updateMatch_self (fun mm => { mm with refs := mm.refs.erase pid })
            (fun _ => rfl) hfmT3
        obtain ⟨l₂, hql₂⟩ := sendBotToChannel_queue (updateMatch T3 mid fun mm =>
          { mm with refs := mm.refs.erase pid }) m.chat
          (p.name ++ " removed from match referees.") q
        obtain ⟨l₃, hql₃⟩ := enqueueState_queue S4 mid q
        constructor
        · rw [show findMatch (updatePlayer (enqueueState S4 mid) pid fun qp =>
            { qp with matchId := none }) mid = findMatch (enqueueState S4 mid) mid from rfl]
          rw [findMatch_congr ((enqueueState_stable S4 mid).2.2.2.1) mid, hfmS4]
          rfl
        · refine ⟨l₀ ++ [Packet.matchTransferHost] ++ l₂ ++ l₃, ?_, by simp⟩
          have hfq : findPlayer (updatePlayer (enqueueState S4 mid) pid fun qp =>
              { qp with matchId := none }) q = findPlayer (enqueueState S4 mid) q :=
            findPlayer_updatePlayer_ne _ pid q _ (fun _ => rfl) hqpid
          unfold queueOf
          rw [hfq, hql₃, hS4, hql₂]
          rw [show findPlayer (updateMatch T3 mid fun mm =>
            { mm with refs := mm.refs.erase pid }) q = findPlayer T3 q from rfl, hfT3]
          rw [hqq]
          simp [List.append_assoc]
      case isFalse href =>
        obtain rfl := Option.some.injEq .. ▸ h
        obtain ⟨l₃, hql₃⟩ := enqueueState_queue T3 mid q
        constructor
        · rw [show findMatch (updatePlayer (enqueueState T3 mid) pid fun qp =>
            { qp with matchId := none }) mid = findMatch (enqueueState T3 mid) mid from rfl]
          rw [findMatch_congr ((enqueueState_stable T3 mid).2.2.2.1) mid, hfmT3]
          rfl
        · refine ⟨l₀ ++ [Packet.matchTransferHost] ++ l₃, ?_, by simp⟩
          have hfq : findPlayer (updatePlayer (enqueueState T3 mid) pid fun qp =>
              { qp with matchId := none }) q = findPlayer (enqueueState T3 mid) q :=
            findPlayer_updatePlayer_ne _ pid q _ (fun _ => rfl) hqpid
          unfold queueOf
          rw [hfq, hql₃, hfT3, hqq]
          simp [List.append_assoc]

/-- Witness for C3 at a concrete state: host 1 leaves the two-player match;
player 2, in the lowest-indexed remaining occupied slot, becomes host and
receives the transfer notification. -/
theorem c3_witness :
    (findMatch HxGlm 1).map MatchObj.host = some 2 ∧
    ∃ l, queueOf HxGlm 2 = queueOf HxG 2 ++ l ∧ Packet.matchTransferHost ∈ l :=
  c3_host_transfer_lowest_slot HxG 1 1 MxP1 HxM 0 2 HxP2 HxGlm (by decide) (by decide)
    (by decide) (by decide) (by decide) (by decide) (by decide) (by decide) (by decide)
    (by decide) (by decide) (by decide)

/-- C6: dequeue returns previously enqueued bytes exactly once, concatenated
in enqueue order (an empty concatenation reads as the empty `None` result),
the buffer is left empty, and every further dequeue returns empty until
another enqueue occurs. -/
theorem c6_queue_fifo_drain (bs : List (List Nat)) :
    (dequeue (bs.foldl enqueue [])).1.getD [] = bs.flatten ∧
    (dequeue (bs.foldl enqueue [])).2 = [] ∧
    dequeue (dequeue (bs.foldl enqueue [])).2 = (none, []) := by
  rw [foldl_enqueue_eq]
  simp only [List.nil_append, dequeue]
  by_cases h : bs.flatten = [] <;> simp [h]

/-- C7: join_channel returns false exactly for the three admission
failures — already a member, missing read privilege, or the lobby channel
while not in the lobby UI — and a false return leaves the state untouched
(in particular the member list and the channel list of the session). -/
theorem c7_join_channel_failure_iff (s : GState) (pid : Nat) (cname : String)
    (p : Player) (c : Channel)
    (hp : findPlayer s pid = some p) (hc : findChannel s cname = some c)
    (r : Bool) (s' : GState) (h : join_channel s pid cname = some (r, s')) :
    (r = false ↔ pid ∈ c.players ∨ p.priv &&& c.readPriv ≠ c.readPriv ∨
      (c.name = "#lobby" ∧ p.inLobby = false)) ∧
    (r = false → s' = s) := by
  rw [join_channel, hp, hc] at h
  by_cases h1 : pid ∈ c.players
  · simp only [if_pos h1] at h
    obtain ⟨hr, hs⟩ := Prod.mk.injEq .. ▸ Option.some.injEq .. ▸ h
    subst hr; subst hs
    exact ⟨by simp [h1], fun _ => rfl⟩
  · simp only [if_neg h1] at h
    by_cases h2 : p.priv &&& c.readPriv ≠ c.readPriv
    · simp only [if_pos h2] at h
      obtain ⟨hr, hs⟩ := Prod.mk.injEq .. ▸ Option.some.injEq .. ▸ h
      subst hr; subst hs
      exact ⟨by simp [h1, h2], fun _ => rfl⟩
    · simp only [if_neg h2] at h
      by_cases h3 : c.name = "#lobby" ∧ p.inLobby = false
      · simp only [if_pos h3] at h
        obtain ⟨hr, hs⟩ := Prod.mk.injEq .. ▸ Option.some.injEq .. ▸ h
        subst hr; subst hs
        exact ⟨by simp [h1, h2, h3], fun _ => rfl⟩
      · simp only [if_neg h3] at h
        obtain ⟨hr, hs⟩ := Prod.mk.injEq .. ▸ Option.some.injEq .. ▸ h
        subst hr
        exact ⟨by simp [h1, h2, h3], fun hf => absurd hf (by simp)⟩

/-- Witness for C7 at a concrete state: player 1 rejoining `#osu` (already a
member) is refused with the state unchanged. -/
theorem c7_witness :
    ((false = false) ↔ 1 ∈ FxChan.players ∨
      FxP1.priv &&& FxChan.readPriv ≠ FxChan.readPriv ∨
      (FxChan.name = "#lobby" ∧ FxP1.inLobby = false)) ∧
    ((false = false) → FxG = FxG) :=
  c7_join_channel_failure_iff FxG 1 "#osu" FxP1 FxChan (by decide) (by decide)
    false FxG (by decide)

theorem join_channel_success {s : GState} {pid : Nat} {cname : String}
    {p : Player} {c : Channel}
    (hp : findPlayer s pid = some p) (hc : findChannel s cname = some c)
    (hmem : pid ∉ c.players) (hpriv : p.priv &&& c.readPriv = c.readPriv)
    (hlob : ¬(c.name = "#lobby" ∧ p.inLobby = false)) :
    join_channel s pid cname = some (true,
      broadcast
        (enqueueTo
          (updatePlayer
            (updateChannel s cname fun ch => { ch with players := c.players ++ [pid] })
            pid fun q => { q with channels := q.channels ++ [cname] })
          pid (Packet.channelJoin cname))
        (if c.instanced = true then c.players ++ [pid] else s.playersReg)
        (Packet.channelInfo cname (c.players ++ [pid]).length)) := by
  unfold join_channel
  rw [hp, hc]
  try dsimp only []
  rw [if_neg hmem, if_neg (not_not_intro hpriv), if_neg hlob]
  rfl

theorem spectNotifyStealth_find_other (oid j : Nat) (hj : j ≠ oid) :
    ∀ (specs : List Nat) (s : GState),
      findPlayer (spectNotifyStealth s oid specs) j = findPlayer s j := by
  intro specs
  induction specs with
  | nil => intro s; rfl
  | cons a specs ih =>
    intro s
    show findPlayer (spectNotifyStealth
      (enqueueTo s oid (Packet.fellowSpectatorJoined a)) oid specs) j = _
    rw [ih, findPlayer_enqueueTo_ne _ hj]

theorem spectNotifyStealth_find_self (oid : Nat) :
    ∀ (specs : List Nat) (s : GState) (p : Player),
      findPlayer s oid = some p → p.botClient = false →
      findPlayer (spectNotifyStealth s oid specs) oid =
        some { p with queue := p.queue ++ specs.map Packet.fellowSpectatorJoined } := by
  intro specs
  induction specs with
  | nil =>
    intro s p hp _
    show findPlayer s oid = _
    rw [hp]
    simp
  | cons a specs ih =>
    intro s p hp hb
    show findPlayer (spectNotifyStealth
      (enqueueTo s oid (Packet.fellowSpectatorJoined a)) oid specs) oid = _
    rw [ih (enqueueTo s oid (Packet.fellowSpectatorJoined a))
      { p with queue := p.queue ++ [Packet.fellowSpectatorJoined a] }
      (by simp [findPlayer_enqueueTo_self, hp, hb]) hb]
    simp [List.append_assoc]

theorem queue_view_updatePlayer (s : GState) (i j : Nat) (f : Player → Player)
    (hf : ∀ p, (f p).pid = p.pid) (hq : ∀ p, (f p).queue = p.queue) :
    (findPlayer (updatePlayer s i f) j).map Player.queue =
      (findPlayer s j).map Player.queue := by
  by_cases hji : j = i
  · subst hji
    rw [findPlayer_updatePlayer_self s j f hf, Option.map_map]
    cases hp : findPlayer s j <;> simp [hq, Function.comp]
  · rw [findPlayer_updatePlayer_ne s i j f hf hji]

/-- C5: when a stealthed observer is admitted as a spectator (the spectator
channel exists and admission passes), the host and every pre-existing
spectator receive at most channel-occupancy refreshes — never a
spectator-joined or fellow-spectator-joined notice about the observer —
while the observer's own queue receives a fellow-spectator notice for every
pre-existing spectator of the host. -/
theorem c5_stealth_spectator (s : GState) (hid oid : Nat) (h po : Player) (c : Channel)
    (hhp : findPlayer s hid = some h)
    (hop : findPlayer s oid = some po)
    (hstealth : po.stealth = true)
    (hbot : po.botClient = false)
    (hho : oid ≠ hid)
    (hns : oid ∉ h.spectators)
    (hc : regChannel s ("#spec_" ++ toString hid) = some c)
    (hmem : oid ∉ c.players)
    (hpriv : po.priv &&& c.readPriv = c.readPriv)
    (hlob : c.name ≠ "#lobby")
    (s' : GState)
    (hrun : add_spectator s hid oid = some s') :
    (∀ r ∈ hid :: h.spectators, ∃ l : List Packet,
        (findPlayer s' r).map Player.queue =
          (findPlayer s r).map (fun p => p.queue ++ l) ∧
        ∀ x ∈ l, ∃ n k, x = Packet.channelInfo n k) ∧
    (∀ σ ∈ h.spectators, Packet.fellowSpectatorJoined σ ∈ queueOf s' oid) := by
  set cn := "#spec_" ++ toString hid with hcn
  have hfc : findChannel s cn = some c := by
    unfold regChannel at hc
    split at hc
    · exact hc
    · exact absurd hc (by simp)
  have hjc := join_channel_success hop hfc hmem hpriv (fun hcon => hlob hcon.1)
  set s3' := enqueueTo (updatePlayer (updateChannel s cn
      (fun ch => { ch with players := c.players ++ [oid] }))
    oid (fun q => { q with channels := q.channels ++ [cn] }))
    oid (Packet.channelJoin cn) with hs3'
  set rcp := (if c.instanced = true then c.players ++ [oid] else s.playersReg) with hrcp
  set pktI := Packet.channelInfo cn (c.players ++ [oid]).length with hpktI
  unfold add_spectator at hrun
  rw [hhp, hop] at hrun
  try dsimp only [] at hrun
  rw [← hcn] at hrun
  rw [hc] at hrun
  try dsimp only [] at hrun
  rw [hjc] at hrun
  try dsimp only [] at hrun
  obtain ⟨lb, hlb, hlbP, -⟩ := broadcast_find pktI rcp s3' hid
  have hs3h : findPlayer s3' hid = some h := by
    rw [hs3', findPlayer_enqueueTo_ne (Packet.channelJoin cn) (Ne.symm hho),
        findPlayer_updatePlayer_ne (updateChannel s cn
          (fun ch => { ch with players := c.players ++ [oid] })) oid hid
          (fun q => { q with channels := q.channels ++ [cn] })
          (fun p => rfl) (Ne.symm hho)]
    exact hhp
  have hSh : findPlayer (broadcast s3' rcp pktI) hid =
      some { h with queue := h.queue ++ lb } := by
    rw [hlb, hs3h]
    rfl
  rw [hSh] at hrun
  try dsimp only [] at hrun
  rw [if_neg (by simp [hstealth])] at hrun
  injection hrun with hrun
  subst hrun
  set St := spectNotifyStealth (broadcast s3' rcp pktI) oid h.spectators with hSt
  constructor
  · intro r hr
    have hro : r ≠ oid := by
      rcases List.mem_cons.mp hr with h1 | h1
      · exact fun he => hho (he ▸ h1 ▸ rfl)
      · exact fun he => hns (he ▸ h1)
    obtain ⟨lr, hlr, hlrP, -⟩ := broadcast_find pktI rcp s3' r
    refine ⟨lr, ?_, ?_⟩
    · have e5 : findPlayer (updatePlayer (updatePlayer St hid
          (fun q => { q with spectators := q.spectators ++ [oid] })) oid
          (fun q => { q with spectating := some hid })) r =
          findPlayer (updatePlayer St hid
            (fun q => { q with spectators := q.spectators ++ [oid] })) r :=
        findPlayer_updatePlayer_ne _ oid r
          (fun q => { q with spectating := some hid }) (fun p => rfl) hro
      have e4 : (findPlayer (updatePlayer St hid
          (fun q => { q with spectators := q.spectators ++ [oid] })) r).map Player.queue =
          (findPlayer St r).map Player.queue :=
        queue_view_updatePlayer St hid r
          (fun q => { q with spectators := q.spectators ++ [oid] })
          (fun p => rfl) (fun p => rfl)
      have e3 : findPlayer St r = findPlayer (broadcast s3' rcp pktI) r :=
        spectNotifyStealth_find_other oid r hro h.spectators _
      have e2 : findPlayer s3' r = findPlayer s r := by
        rw [hs3', findPlayer_enqueueTo_ne (Packet.channelJoin cn) hro,
            findPlayer_updatePlayer_ne (updateChannel s cn
              (fun ch => { ch with players := c.players ++ [oid] })) oid r
              (fun q => { q with channels := q.channels ++ [cn] })
              (fun p => rfl) hro]
        rfl
      rw [e5, e4, e3, hlr, e2, Option.map_map]
      cases hf : findPlayer s r <;> simp [Function.comp]
    · intro x hx
      exact ⟨cn, (c.players ++ [oid]).length, (hlrP x hx).trans hpktI⟩
  · intro σ hσ
    have f1 : findPlayer s3' oid =
        some { po with
               channels := po.channels ++ [cn],
               queue := po.queue ++ [Packet.channelJoin cn] } := by
      rw [hs3', findPlayer_enqueueTo_self,
          findPlayer_updatePlayer_self (updateChannel s cn
            (fun ch => { ch with players := c.players ++ [oid] })) oid
            (fun q => { q with channels := q.channels ++ [cn] }) (fun p => rfl)]
      have hb0 : findPlayer (updateChannel s cn
          (fun ch => { ch with players := c.players ++ [oid] })) oid = some po := hop
      rw [hb0]
      simp [hbot]
    obtain ⟨lo, hlo, -, -⟩ := broadcast_find pktI rcp s3' oid
    have f2 : findPlayer (broadcast s3' rcp pktI) oid =
        some { po with
               channels := po.channels ++ [cn],
               queue := (po.queue ++ [Packet.channelJoin cn]) ++ lo } := by
      rw [hlo, f1]
      rfl
    have f3 : findPlayer St oid =
        some { po with
               channels := po.channels ++ [cn],
               queue := ((po.queue ++ [Packet.channelJoin cn]) ++ lo)
                 ++ h.spectators.map Packet.fellowSpectatorJoined } :=
      spectNotifyStealth_find_self oid h.spectators _ _ f2 hbot
    have f4e : findPlayer (updatePlayer St hid
        (fun q => { q with spectators := q.spectators ++ [oid] })) oid =
        findPlayer St oid :=
      findPlayer_updatePlayer_ne St hid oid
        (fun q => { q with spectators := q.spectators ++ [oid] }) (fun p => rfl) hho
    unfold queueOf
    rw [findPlayer_updatePlayer_self (updatePlayer St hid
          (fun q => { q with spectators := q.spectators ++ [oid] })) oid
          (fun q => { q with spectating := some hid }) (fun p => rfl),
        f4e, f3]
    show Packet.fellowSpectatorJoined σ ∈
      ((po.queue ++ [Packet.channelJoin cn]) ++ lo)
        ++ h.spectators.map Packet.fellowSpectatorJoined
    exact List.mem_append_right _ (List.mem_map_of_mem _ hσ)

/-- Witness for C5 at a concrete state: the stealthed player 2 starts
spectating player 1 (already watched by player 3); neither player 1 nor
player 3 is told about player 2, while player 2 is told about player 3. -/
theorem c5_witness :
    (∀ r ∈ 1 :: SxHost.spectators, ∃ l : List Packet,
        (findPlayer SxG2 r).map Player.queue =
          (findPlayer SxG r).map (fun p => p.queue ++ l) ∧
        ∀ x ∈ l, ∃ n k, x = Packet.channelInfo n k) ∧
    (∀ σ ∈ SxHost.spectators, Packet.fellowSpectatorJoined σ ∈ queueOf SxG2 2) :=
  c5_stealth_spectator SxG 1 2 SxHost SxObs SxChan (by decide) (by decide)
    (by decide) (by decide) (by decide) (by decide) (by decide) (by decide)
    (by decide) (by decide) SxG2 (by decide)

/-- C10: remove_spectator is partial — with the observer absent from the
host's spectator list the unguarded removal raises instead of no-opping;
with the observer present the removal step itself cannot fail; and the
logout caller invokes remove_spectator exactly when the session's
`spectating` back-reference is set, on that host. -/
theorem c10_remove_spectator_partial (s : GState) (hid oid pid : Nat)
    (h p : Player)
    (hh : findPlayer s hid = some h)
    (hp : findPlayer s pid = some p) :
    (oid ∉ h.spectators → remove_spectator s hid oid = none) ∧
    (oid ∈ h.spectators →
      listRemove h.spectators oid = some (h.spectators.erase oid)) ∧
    (p.spectating = none → logoutSpectStep s pid = some s) ∧
    (∀ hid2, p.spectating = some hid2 →
      logoutSpectStep s pid = remove_spectator s hid2 pid) := by
  refine ⟨?_, ?_, ?_, ?_⟩
  · intro hn
    unfold remove_spectator
    rw [hh]
    try dsimp only []
    unfold listRemove
    rw [if_neg hn]
  · intro hm
    unfold listRemove
    rw [if_pos hm]
  · intro hnone
    unfold logoutSpectStep
    rw [hp]
    try dsimp only []
    rw [hnone]
  · intro hid2 hsome
    unfold logoutSpectStep
    rw [hp]
    try dsimp only []
    rw [hsome]

/-- Witness for C10 at a concrete state: player 2 is not a spectator of
player 1, so removing it raises; player 3's logout step goes through
remove_spectator on its host (player 1). -/
theorem c10_witness :
    (2 ∉ SxHost.spectators → remove_spectator SxG 1 2 = none) ∧
    (2 ∈ SxHost.spectators →
      listRemove SxHost.spectators 2 = some (SxHost.spectators.erase 2)) ∧
    (SxSpec3.spectating = none → logoutSpectStep SxG 3 = some SxG) ∧
    (∀ hid2, SxSpec3.spectating = some hid2 →
      logoutSpectStep SxG 3 = remove_spectator SxG hid2 3) :=
  c10_remove_spectator_partial SxG 1 2 3 SxHost SxSpec3 (by decide) (by decide)

theorem enqueueState_projEq (s : GState) (mid : Nat) (g : Player → β)
    (hgQ : ∀ q l, g { q with queue := l } = g q) :
    (enqueueState s mid).players.map g = s.players.map g := by
  unfold enqueueState
  split
  · rfl
  · exact broadcast_projEq _ g hgQ _ _

theorem sendBotToChannel_projEq (s : GState) (cname msg : String) (g : Player → β)
    (hgQ : ∀ q l, g { q with queue := l } = g q) :
    (sendBotToChannel s cname msg).players.map g = s.players.map g := by
  unfold sendBotToChannel
  split
  · exact broadcast_projEq _ g hgQ _ _
  · rfl

theorem leaveAllChannels_out (pid : Nat) (g : Player → β)
    (hgQ : ∀ q l, g { q with queue := l } = g q)
    (hgC : ∀ q l, g { q with channels := l } = g q) :
    ∀ (fuel : Nat) (s s' : GState), leaveAllChannels fuel s pid = some s' →
      s'.players.map g = s.players.map g ∧ s'.playersReg = s.playersReg ∧
      ∃ p1, findPlayer s' pid = some p1 ∧ p1.channels = [] := by
  intro fuel
  induction fuel with
  | zero =>
    intro s s' h
    unfold leaveAllChannels at h
    split at h
    · exact absurd h (by simp)
    case _ p0 hp0 =>
      split at h
      case _ hch =>
        obtain rfl := Option.some.injEq .. ▸ h
        exact ⟨rfl, rfl, p0, hp0, hch⟩
      case _ c0 rest hch =>
        exact absurd h (by simp)
  | succ fuel ih =>
    intro s s' h
    unfold leaveAllChannels at h
    split at h
    · exact absurd h (by simp)
    case _ p0 hp0 =>
      split at h
      case _ hch =>
        obtain rfl := Option.some.injEq .. ▸ h
        exact ⟨rfl, rfl, p0, hp0, hch⟩
      case _ c0 rest hch =>
        try dsimp only [] at h
        split at h
        · exact absurd h (by simp)
        case _ s1 hlc =>
          obtain ⟨m1, r1, sub⟩ := ih s1 s' h
          obtain ⟨me, -, -, re, -, -⟩ := leave_channel_effects hlc g hgQ hgC
          exact ⟨m1.trans me, r1.trans re, sub⟩

/-- Counterexample for C9 as frozen: a restricted session's logout succeeds
and removes it from the registry, yet no departure notice is broadcast —
every queue in the state is untouched (src/objects/player.py line 380 guards
the broadcast with the restriction check). -/
theorem c9_counterexample :
    logout RxG 1 = some RxGout ∧ 1 ∉ RxGout.playersReg ∧
    RxGout.players.map Player.queue = RxG.players.map Player.queue := by decide

theorem leave_match_out {s : GState} {pid : Nat} {s' : GState} {p : Player}
    (hp : findPlayer s pid = some p)
    (h : leave_match s pid = some s')
    (g : Player → β)
    (hgQ : ∀ q l, g { q with queue := l } = g q)
    (hgC : ∀ q l, g { q with channels := l } = g q)
    (hgM : ∀ q v, g { q with matchId := v } = g q)
    (hgpid : ∀ a b : Player, g a = g b → a.pid = b.pid) :
    s'.players.map g = s.players.map g ∧
    s'.playersReg = s.playersReg ∧
    ∃ p1, findPlayer s' pid = some p1 ∧ p1.matchId = none := by
  have key : ∀ (sx : GState), sx.players.map g = s.players.map g →
      sx.playersReg = s.playersReg →
      some (updatePlayer sx pid (fun q => { q with matchId := none })) = some s' →
      s'.players.map g = s.players.map g ∧ s'.playersReg = s.playersReg ∧
      ∃ p1, findPlayer s' pid = some p1 ∧ p1.matchId = none := by
    intro sx hmap hreg hh
    obtain rfl := Option.some.injEq .. ▸ hh
    refine ⟨?_, hreg, ?_⟩
    · rw [updatePlayer_projEq sx pid (fun q => { q with matchId := none }) g
        (fun q => hgM q none)]
      exact hmap
    · have hS : (findPlayer sx pid).isSome = true := by
        rw [findPlayer_isSome_of_projEq g hmap hgpid pid, hp]
        rfl
      obtain ⟨px, hpx⟩ := Option.isSome_iff_exists.mp hS
      refine ⟨{ px with matchId := none }, ?_, rfl⟩
      rw [findPlayer_updatePlayer_self sx pid (fun q => { q with matchId := none })
        (fun q => rfl), hpx]
      rfl
  unfold leave_match at h
  rw [hp] at h
  try dsimp only [] at h
  split at h
  case _ hmidn =>
    obtain rfl := Option.some.injEq .. ▸ h
    exact ⟨rfl, rfl, p, hp, hmidn⟩
  case _ mid hmid =>
    split at h
    · exact absurd h (by simp)
    case _ m hfm =>
      split at h
      · exact absurd h (by simp)
      case _ j hslot =>
        try dsimp only [] at h
        split at h
        · exact absurd h (by simp)
        case _ s2 hlc =>
          split at h
          · exact absurd h (by simp)
          case _ m2 hfm2 =>
            have hmapS2 : s2.players.map g = s.players.map g :=
              ((leave_channel_effects hlc g hgQ hgC).1).trans rfl
            have hregS2 : s2.playersReg = s.playersReg :=
              ((leave_channel_effects hlc g hgQ hgC).2.2.2.1).trans rfl
            split at h
            case isTrue hempty =>
              try dsimp only [] at h
              cases hstart : m2.startingStart with
              | some t =>
                rw [hstart] at h
                try dsimp only [] at h
                split at h
                case _ lobby hlob =>
                  refine key _ ?_ ?_ h
                  · rw [broadcast_projEq _ g hgQ]
                    exact hmapS2
                  · exact ((broadcast_stable _ _ _).1).trans hregS2
                case _ hlob =>
                  refine key _ ?_ ?_ h
                  · exact hmapS2
                  · exact hregS2
              | none =>
                rw [hstart] at h
                try dsimp only [] at h
                split at h
                case _ lobby hlob =>
                  refine key _ ?_ ?_ h
                  · rw [broadcast_projEq _ g hgQ]
                    exact hmapS2
                  · exact ((broadcast_stable _ _ _).1).trans hregS2
                case _ hlob =>
                  refine key _ ?_ ?_ h
                  · exact hmapS2
                  · exact hregS2
            case isFalse hempty =>
              split at h
              · exact absurd h (by simp)
              case _ s3 hs3 =>
                try dsimp only [] at h
                have h3 : s3.players.map g = s2.players.map g ∧
                    s3.playersReg = s2.playersReg := by
                  by_cases hh2 : pid = m2.host
                  · rw [if_pos hh2] at hs3
                    split at hs3
                    case _ sl hsl =>
                      split at hs3
                      case _ q hq =>
                        obtain rfl := Option.some.injEq .. ▸ hs3
                        constructor
                        · rw [enqueueTo_projEq _ _ _ g hgQ]
                          rfl
                        · rfl
                      case _ hq => exact absurd hs3 (by simp)
                    case _ hsl =>
                      obtain rfl := Option.some.injEq .. ▸ hs3
                      exact ⟨rfl, rfl⟩
                  · rw [if_neg hh2] at hs3
                    obtain rfl := Option.some.injEq .. ▸ hs3
                    exact ⟨rfl, rfl⟩
                split at h
                case isTrue href =>
                  refine key _ ?_ ?_ h
                  · rw [enqueueState_projEq _ _ g hgQ,
                      sendBotToChannel_projEq _ _ _ g hgQ]
                    exact h3.1.trans hmapS2
                  · exact ((enqueueState_stable _ _).1).trans
                      (((sendBotToChannel_stable _ _ _).1).trans (h3.2.trans hregS2))
                case isFalse href =>
                  refine key _ ?_ ?_ h
                  · rw [enqueueState_projEq _ _ g hgQ]
                    exact h3.1.trans hmapS2
                  · exact ((enqueueState_stable _ _).1).trans (h3.2.trans hregS2)

theorem remove_spectator_out {s : GState} {hid oid : Nat} {s' : GState} {po : Player}
    (hpo : findPlayer s oid = some po)
    (h : remove_spectator s hid oid = some s')
    (g : Player → β)
    (hgQ : ∀ q l, g { q with queue := l } = g q)
    (hgC : ∀ q l, g { q with channels := l } = g q)
    (hgS : ∀ q v, g { q with spectators := v } = g q)
    (hgT : ∀ q v, g { q with spectating := v } = g q)
    (hgpid : ∀ a b : Player, g a = g b → a.pid = b.pid) :
    s'.players.map g = s.players.map g ∧
    s'.playersReg = s.playersReg ∧
    ∃ p1, findPlayer s' oid = some p1 ∧ p1.spectating = none := by
  have g2pid : ∀ a b : Player, (a.pid, a.spectating) = (b.pid, b.spectating) →
      a.pid = b.pid := fun a b hab => congrArg Prod.fst hab
  have step : ∀ {sa sb : GState},
      sb.players.map (fun q : Player => (q.pid, q.spectating)) =
        sa.players.map (fun q : Player => (q.pid, q.spectating)) →
      (findPlayer sa oid).map (fun q : Player => (q.pid, q.spectating)) =
        some (oid, none) →
      (findPlayer sb oid).map (fun q : Player => (q.pid, q.spectating)) =
        some (oid, none) :=
    fun hm hv => (findView_of_projEq (fun q : Player => (q.pid, q.spectating)) hm g2pid
      (fun q : Player => (q.pid, q.spectating)) (fun a b hab => hab) oid).trans hv
  have extract : ∀ (sx : GState),
      (findPlayer sx oid).map (fun q : Player => (q.pid, q.spectating)) =
        some (oid, none) →
      ∃ p1, findPlayer sx oid = some p1 ∧ p1.spectating = none := by
    intro sx hv
    cases hf : findPlayer sx oid with
    | none => rw [hf] at hv; exact absurd hv (by simp)
    | some p1 =>
      rw [hf, Option.map_some'] at hv
      injection hv with hv
      exact ⟨p1, rfl, congrArg Prod.snd hv⟩
  unfold remove_spectator at h
  split at h
  · exact absurd h (by simp)
  case _ h0 hh0 =>
    split at h
    · exact absurd h (by simp)
    case _ newSpecs hrem =>
      have hmap2 : (updatePlayer (updatePlayer s hid
          fun q => { q with spectators := newSpecs }) oid
          (fun q => { q with spectating := none })).players.map g =
          s.players.map g := by
        rw [updatePlayer_projEq (updatePlayer s hid
            fun q => { q with spectators := newSpecs }) oid
            (fun q => { q with spectating := none }) g (fun q => hgT q none)]
        rw [updatePlayer_projEq s hid (fun q => { q with spectators := newSpecs }) g
            (fun q => hgS q newSpecs)]
      have hreg2 : (updatePlayer (updatePlayer s hid
          fun q => { q with spectators := newSpecs }) oid
          (fun q => { q with spectating := none })).playersReg = s.playersReg := rfl
      have hview2 : (findPlayer (updatePlayer (updatePlayer s hid
          fun q => { q with spectators := newSpecs }) oid
          (fun q => { q with spectating := none })) oid).map
          (fun q : Player => (q.pid, q.spectating)) = some (oid, none) := by
        have hm1 : (updatePlayer s hid
            fun q => { q with spectators := newSpecs }).players.map
            (fun q : Player => q.pid) = s.players.map (fun q : Player => q.pid) :=
          updatePlayer_projEq s hid (fun q => { q with spectators := newSpecs })
            (fun q : Player => q.pid) (fun q => rfl)
        have h1 : (findPlayer (updatePlayer s hid
            fun q => { q with spectators := newSpecs }) oid).isSome = true := by
          rw [findPlayer_isSome_of_projEq (fun q : Player => q.pid) hm1
            (fun a b hab => hab) oid, hpo]
          rfl
        obtain ⟨q1, hq1⟩ := Option.isSome_iff_exists.mp h1
        have hq1pid : q1.pid = oid := (findPlayer_mem hq1).2
        rw [findPlayer_updatePlayer_self
          (updatePlayer s hid fun q => { q with spectators := newSpecs }) oid
          (fun q => { q with spectating := none }) (fun q => rfl), hq1]
        simp [hq1pid]
      split at h
      case isTrue hempty =>
        dsimp only [] at h
        split at h
        · exact absurd h (by simp)
        case _ c hregc =>
          split at h
          · exact absurd h (by simp)
          case _ s3 hlc =>
            split at h
            · exact absurd h (by simp)
            case _ s4 hlc2 =>
              obtain rfl := Option.some.injEq .. ▸ h
              refine ⟨?_, ?_, ?_⟩
              · rw [enqueueTo_projEq _ _ _ g hgQ]
                exact ((leave_channel_effects hlc2 g hgQ hgC).1).trans
                  (((leave_channel_effects hlc g hgQ hgC).1).trans hmap2)
              · exact ((leave_channel_effects hlc2 g hgQ hgC).2.2.2.1).trans
                  (((leave_channel_effects hlc g hgQ hgC).2.2.2.1).trans hreg2)
              · refine extract _ ?_
                have v3 : (findPlayer s3 oid).map
                    (fun q : Player => (q.pid, q.spectating)) = some (oid, none) :=
                  step ((leave_channel_effects hlc
                    (fun q : Player => (q.pid, q.spectating))
                    (fun q l => rfl) (fun q l => rfl)).1) hview2
                have v4 : (findPlayer s4 oid).map
                    (fun q : Player => (q.pid, q.spectating)) = some (oid, none) :=
                  step ((leave_channel_effects hlc2
                    (fun q : Player => (q.pid, q.spectating))
                    (fun q l => rfl) (fun q l => rfl)).1) v3
                exact step (enqueueTo_projEq s4 hid (Packet.spectatorLeft oid)
                  (fun q : Player => (q.pid, q.spectating)) (fun q l => rfl)) v4
      case isFalse hempty =>
        dsimp only [] at h
        split at h
        · exact absurd h (by simp)
        case _ c hregc =>
          split at h
          · exact absurd h (by simp)
          case _ s3 hlc =>
            split at h
            · exact absurd h (by simp)
            case _ c2 hc2 =>
              obtain rfl := Option.some.injEq .. ▸ h
              refine ⟨?_, ?_, ?_⟩
              · rw [enqueueTo_projEq _ _ _ g hgQ,
                  spectLeaveNotify_projEq oid c2.name c2.players.length g hgQ,
                  enqueueTo_projEq _ _ _ g hgQ]
                exact ((leave_channel_effects hlc g hgQ hgC).1).trans hmap2
              · exact ((spectLeaveNotify_stable oid c2.name c2.players.length newSpecs
                  (enqueueTo s3 hid
                    (Packet.channelInfo c2.name c2.players.length))).1).trans
                  (((leave_channel_effects hlc g hgQ hgC).2.2.2.1).trans hreg2)
              · refine extract _ ?_
                have v3 : (findPlayer s3 oid).map
                    (fun q : Player => (q.pid, q.spectating)) = some (oid, none) :=
                  step ((leave_channel_effects hlc
                    (fun q : Player => (q.pid, q.spectating))
                    (fun q l => rfl) (fun q l => rfl)).1) hview2
                have vA : (findPlayer (enqueueTo s3 hid
                    (Packet.channelInfo c2.name c2.players.length)) oid).map
                    (fun q : Player => (q.pid, q.spectating)) = some (oid, none) :=
                  step (enqueueTo_projEq s3 hid
                    (Packet.channelInfo c2.name c2.players.length)
                    (fun q : Player => (q.pid, q.spectating)) (fun q l => rfl)) v3
                have vB : (findPlayer (spectLeaveNotify (enqueueTo s3 hid
                    (Packet.channelInfo c2.name c2.players.length)) oid newSpecs
                    c2.name c2.players.length) oid).map
                    (fun q : Player => (q.pid, q.spectating)) = some (oid, none) :=
                  step (spectLeaveNotify_projEq oid c2.name c2.players.length
                    (fun q : Player => (q.pid, q.spectating)) (fun q l => rfl)
                    newSpecs (enqueueTo s3 hid
                      (Packet.channelInfo c2.name c2.players.length))) vA
                exact step (enqueueTo_projEq _ hid (Packet.spectatorLeft oid)
                  (fun q : Player => (q.pid, q.spectating)) (fun q l => rfl)) vB

theorem logoutSpectStep_out {s : GState} {pid : Nat} {s' : GState} {p : Player}
    (hp : findPlayer s pid = some p)
    (h : logoutSpectStep s pid = some s')
    (g : Player → β)
    (hgQ : ∀ q l, g { q with queue := l } = g q)
    (hgC : ∀ q l, g { q with channels := l } = g q)
    (hgS : ∀ q v, g { q with spectators := v } = g q)
    (hgT : ∀ q v, g { q with spectating := v } = g q)
    (hgpid : ∀ a b : Player, g a = g b → a.pid = b.pid) :
    s'.players.map g = s.players.map g ∧
    s'.playersReg = s.playersReg ∧
    ∃ p1, findPlayer s' pid = some p1 ∧ p1.spectating = none := by
  unfold logoutSpectStep at h
  rw [hp] at h
  try dsimp only [] at h
  split at h
  case _ hid2 hspec =>
    exact remove_spectator_out hp h g hgQ hgC hgS hgT hgpid
  case _ hspec =>
    obtain rfl := Option.some.injEq .. ▸ h
    exact ⟨rfl, rfl, p, hp, hspec⟩

/-- C9 (amended): logout performs the destruction cascade — the session
ends with no match back-reference, not spectating, member of no channel,
and is removed from the session registry — and the departure broadcast to
the registry's sessions happens only for an unrestricted session: every
remaining registered live non-bot session then carries the logout notice in
its queue. -/
theorem c9_logout_cascade (s : GState) (pid : Nat) (p : Player) (s' : GState)
    (hp : findPlayer s pid = some p)
    (hreg : s.playersReg.Nodup)
    (hrun : logout s pid = some s') :
    (∃ p1, findPlayer s' pid = some p1 ∧ p1.matchId = none ∧
      p1.spectating = none ∧ p1.channels = []) ∧
    pid ∉ s'.playersReg ∧
    (p.restricted = false →
      ∀ r pr', r ∈ s'.playersReg → findPlayer s' r = some pr' →
        pr'.botClient = false → Packet.logoutNotice pid ∈ pr'.queue) := by
  unfold logout at hrun
  rw [hp] at hrun
  try dsimp only [] at hrun
  split at hrun
  · exact absurd hrun (by simp)
  case _ s1 heq1 =>
    have step1 : s1.playersReg = s.playersReg ∧
        ∃ pA, findPlayer s1 pid = some pA ∧ pA.matchId = none := by
      by_cases hm : p.matchId.isSome = true
      · rw [if_pos hm] at heq1
        obtain ⟨-, hr, hsub⟩ := leave_match_out hp heq1 (fun q : Player => q.pid)
          (fun q l => rfl) (fun q l => rfl) (fun q v => rfl) (fun a b hab => hab)
        exact ⟨hr, hsub⟩
      · rw [if_neg hm] at heq1
        obtain rfl := Option.some.injEq .. ▸ heq1
        refine ⟨rfl, p, hp, ?_⟩
        cases hmo : p.matchId with
        | none => rfl
        | some v => rw [hmo] at hm; exact absurd rfl hm
    obtain ⟨reg1, pA, hpA, hpAm⟩ := step1
    have hpApid : pA.pid = pid := (findPlayer_mem hpA).2
    split at hrun
    · exact absurd hrun (by simp)
    case _ s2 heq2 =>
      obtain ⟨mape2, reg2, pB, hpB, hpBs⟩ := logoutSpectStep_out hpA heq2
        (fun q : Player => (q.pid, q.matchId))
        (fun q l => rfl) (fun q l => rfl) (fun q v => rfl) (fun q v => rfl)
        (fun a b hab => congrArg Prod.fst hab)
      have hpBpid : pB.pid = pid := (findPlayer_mem hpB).2
      have hvB : (findPlayer s2 pid).map (fun q : Player => (q.pid, q.matchId)) =
          some (pid, none) := by
        rw [findView_of_projEq (fun q : Player => (q.pid, q.matchId)) mape2
          (fun a b hab => congrArg Prod.fst hab)
          (fun q : Player => (q.pid, q.matchId)) (fun a b hab => hab) pid, hpA,
          Option.map_some', hpApid, hpAm]
      have hpBm : pB.matchId = none := by
        rw [hpB, Option.map_some'] at hvB
        injection hvB with hvB
        exact congrArg Prod.snd hvB
      rw [hpB] at hrun
      try dsimp only [] at hrun
      split at hrun
      · exact absurd hrun (by simp)
      case _ s3 heq3 =>
        obtain ⟨mape3, reg3, pC, hpC, hpCc⟩ := leaveAllChannels_out pid
          (fun q : Player => (q.pid, q.matchId, q.spectating))
          (fun q l => rfl) (fun q l => rfl) pB.channels.length s2 s3 heq3
        have hvC : (findPlayer s3 pid).map
            (fun q : Player => (q.pid, q.matchId, q.spectating)) =
            some (pid, none, none) := by
          rw [findView_of_projEq (fun q : Player => (q.pid, q.matchId, q.spectating))
            mape3 (fun a b hab => congrArg Prod.fst hab)
            (fun q : Player => (q.pid, q.matchId, q.spectating))
            (fun a b hab => hab) pid, hpB, Option.map_some', hpBpid, hpBm, hpBs]
        rw [hpC, Option.map_some'] at hvC
        injection hvC with hvC
        have hpCm : pC.matchId = none := congrArg (fun x => x.2.1) hvC
        have hpCs : pC.spectating = none := congrArg (fun x => x.2.2) hvC
        injection hrun with hrun
        subst hrun
        have regAll : s3.playersReg = s.playersReg := reg3.trans (reg2.trans reg1)
        have hnd3 : s3.playersReg.Nodup := by rw [regAll]; exact hreg
        by_cases hres : p.restricted = false
        · rw [if_pos hres]
          obtain ⟨lb, hlb, -, -⟩ := broadcast_find (Packet.logoutNotice pid)
            (s3.playersReg.erase pid)
            { s3 with playersReg := s3.playersReg.erase pid } pid
          refine ⟨⟨{ pC with queue := pC.queue ++ lb }, ?_, hpCm, hpCs, hpCc⟩, ?_, ?_⟩
          · exact hlb.trans (by
              rw [show findPlayer { s3 with playersReg := s3.playersReg.erase pid }
                pid = some pC from hpC]
              rfl)
          · show pid ∉ (broadcast { s3 with playersReg := s3.playersReg.erase pid }
              (s3.playersReg.erase pid) (Packet.logoutNotice pid)).playersReg
            rw [(broadcast_stable _ _ _).1]
            exact nodup_not_mem_erase hnd3 pid
          · intro hres2 r pr' hrmem hrfind hrbot
            replace hrmem : r ∈ (broadcast
                { s3 with playersReg := s3.playersReg.erase pid }
                (s3.playersReg.erase pid)
                (Packet.logoutNotice pid)).playersReg := hrmem
            replace hrfind : findPlayer (broadcast
                { s3 with playersReg := s3.playersReg.erase pid }
                (s3.playersReg.erase pid)
                (Packet.logoutNotice pid)) r = some pr' := hrfind
            rw [(broadcast_stable _ _ _).1] at hrmem
            obtain ⟨lr, hlr, hlrP, hlrNe⟩ := broadcast_find (Packet.logoutNotice pid)
              (s3.playersReg.erase pid)
              { s3 with playersReg := s3.playersReg.erase pid } r
            cases hfr : findPlayer
                { s3 with playersReg := s3.playersReg.erase pid } r with
            | none =>
              rw [hlr, hfr] at hrfind
              exact absurd hrfind (by simp)
            | some qr =>
              rw [hlr, hfr, Option.map_some'] at hrfind
              injection hrfind with hrfind
              subst hrfind
              have hlrne : lr ≠ [] := hlrNe hrmem qr hfr hrbot
              show Packet.logoutNotice pid ∈ qr.queue ++ lr
              cases lr with
              | nil => exact absurd rfl hlrne
              | cons a t =>
                refine List.mem_append_right _ ?_
                rw [← hlrP a (List.mem_cons_self a t)]
                exact List.mem_cons_self a t
        · rw [if_neg hres]
          refine ⟨⟨pC, hpC, hpCm, hpCs, hpCc⟩, ?_, ?_⟩
          · show pid ∉ s3.playersReg.erase pid
            exact nodup_not_mem_erase hnd3 pid
          · intro hres2
            exact absurd hres2 hres

/-- Witness for the amended C9 at a concrete state: player 3 (spectating
player 1) logs out of the fixture and ends detached, deregistered, with the
departure notice delivered to the remaining registered sessions. -/
theorem c9_witness :
    (∃ p1, findPlayer SxGout 3 = some p1 ∧ p1.matchId = none ∧
      p1.spectating = none ∧ p1.channels = []) ∧
    3 ∉ SxGout.playersReg ∧
    (SxSpec3.restricted = false →
      ∀ r pr', r ∈ SxGout.playersReg → findPlayer SxGout r = some pr' →
        pr'.botClient = false → Packet.logoutNotice 3 ∈ pr'.queue) :=
  c9_logout_cascade SxG 3 SxSpec3 SxGout (by decide) (by decide) (by decide)

theorem mem_of_map_eq {l l' : List α} {g : α → β} (h : l'.map g = l.map g)
    {a : α} (ha : a ∈ l') : ∃ b ∈ l, g b = g a := by
  have : g a ∈ l.map g := by rw [← h]; exact List.mem_map_of_mem g ha
  obtain ⟨b, hb, hba⟩ := List.mem_map.mp this
  exact ⟨b, hb, hba⟩

theorem map_factor {g : α → β} {u : α → α} (F : β → β)
    (hfac : ∀ a, g (u a) = F (g a)) {l l' : List α}
    (h : l'.map g = l.map g) : (l'.map u).map g = (l.map u).map g := by
  have e : ∀ (t : List α), (t.map u).map g = (t.map g).map F := by
    intro t
    rw [List.map_map, List.map_map]
    exact map_congr_fun fun a => hfac a
  rw [e l', e l, h]

theorem nodup_mid_eq {l : List MatchObj} (h : (l.map MatchObj.mid).Nodup)
    {a b : MatchObj} (ha : a ∈ l) (hb : b ∈ l) (hab : a.mid = b.mid) : a = b :=
  List.inj_on_of_nodup_map h ha hb hab

theorem matchInv_transfer {s s' : GState}
    (hpm : s'.players.map projM = s.players.map projM)
    (hmh : s'.matchHeap.map projMat = s.matchHeap.map projMat) :
    matchInv s → matchInv s' := by
  intro h p' hp' mid hmid
  obtain ⟨p, hp, hgp⟩ := mem_of_map_eq hpm hp'
  have hpid : p.pid = p'.pid := congrArg Prod.fst hgp
  have hmi : p.matchId = p'.matchId := congrArg Prod.snd hgp
  obtain ⟨m, hm, hmmid, sl, hsl, hslp⟩ := h p hp mid (by rw [hmi]; exact hmid)
  obtain ⟨m', hm', hgm⟩ := mem_of_map_eq hmh.symm hm
  have hmid2 : m'.mid = m.mid := congrArg Prod.fst hgm
  have hsl2 : m'.slots = m.slots := congrArg Prod.snd hgm
  refine ⟨m', hm', by rw [hmid2]; exact hmmid, sl, ?_, by rw [hslp, hpid]⟩
  rw [hsl2]
  exact hsl

theorem occInv_transfer {s s' : GState}
    (hpm : s'.players.map projM = s.players.map projM)
    (hmh : s'.matchHeap.map projMat = s.matchHeap.map projMat) :
    occInv s → occInv s' := by
  intro h m' hm' sl hsl q hq
  obtain ⟨m, hm, hgm⟩ := mem_of_map_eq hmh hm'
  have hmid : m.mid = m'.mid := congrArg Prod.fst hgm
  have hsls : m.slots = m'.slots := congrArg Prod.snd hgm
  obtain ⟨p, hp, hppid, hpm2⟩ := h m hm sl (by rw [hsls]; exact hsl) q hq
  obtain ⟨p', hp', hgp⟩ := mem_of_map_eq hpm.symm hp
  have hpid : p'.pid = p.pid := congrArg Prod.fst hgp
  have hmi : p'.matchId = p.matchId := congrArg Prod.snd hgp
  refine ⟨p', hp', ?_, ?_⟩
  · rw [hpid]; exact hppid
  · rw [hmi, hpm2, hmid]

theorem pairwise_occ_unique {slots : List Slot}
    (h : (slots.map Slot.player).Pairwise (fun a b => a.isSome = true → a ≠ b))
    {i k : Nat} {si sk : Slot}
    (hi : slots[i]? = some si) (hk : slots[k]? = some sk)
    {q : Nat} (hqi : si.player = some q) (hqk : sk.player = some q) : i = k := by
  have hil : i < slots.length := (List.getElem?_eq_some_iff.mp hi).1
  have hkl : k < slots.length := (List.getElem?_eq_some_iff.mp hk).1
  have hgi : slots[i] = si := by
    have e := List.getElem?_eq_getElem hil
    rw [hi] at e
    injection e with e
    exact e.symm
  have hgk : slots[k] = sk := by
    have e := List.getElem?_eq_getElem hkl
    rw [hk] at e
    injection e with e
    exact e.symm
  have hpg := List.pairwise_iff_getElem.mp h
  rcases Nat.lt_trichotomy i k with h1 | h1 | h1
  · have := hpg i k (by simpa using hil) (by simpa using hkl) h1
    rw [List.getElem_map, List.getElem_map, hgi, hgk, hqi, hqk] at this
    exact absurd rfl (this rfl)
  · exact h1
  · have := hpg k i (by simpa using hkl) (by simpa using hil) h1
    rw [List.getElem_map, List.getElem_map, hgi, hgk, hqi, hqk] at this
    exact absurd rfl (this rfl)

theorem updateMatch_projMat (s : GState) (i : Nat) (f : MatchObj → MatchObj)
    (hf : ∀ m, projMat (f m) = projMat m) :
    (updateMatch s i f).matchHeap.map projMat = s.matchHeap.map projMat := by
  unfold updateMatch
  rw [List.map_map]
  exact map_congr_fun fun m => by by_cases h : m.mid = i <;> simp [h, hf]

theorem remove_spectator_heap {s : GState} {hid oid : Nat} {s' : GState}
    (h : remove_spectator s hid oid = some s') : s'.matchHeap = s.matchHeap := by
  unfold remove_spectator at h
  split at h
  · exact absurd h (by simp)
  case _ h0 hh0 =>
    split at h
    · exact absurd h (by simp)
    case _ newSpecs hrem =>
      split at h
      case isTrue hempty =>
        dsimp only [] at h
        split at h
        · exact absurd h (by simp)
        case _ c hregc =>
          split at h
          · exact absurd h (by simp)
          case _ s3 hlc =>
            split at h
            · exact absurd h (by simp)
            case _ s4 hlc2 =>
              obtain rfl := Option.some.injEq .. ▸ h
              exact ((leave_channel_effects hlc2 (fun q : Player => q.pid)
                (fun q l => rfl) (fun q l => rfl)).2.1).trans
                ((leave_channel_effects hlc (fun q : Player => q.pid)
                  (fun q l => rfl) (fun q l => rfl)).2.1)
      case isFalse hempty =>
        dsimp only [] at h
        split at h
        · exact absurd h (by simp)
        case _ c hregc =>
          split at h
          · exact absurd h (by simp)
          case _ s3 hlc =>
            split at h
            · exact absurd h (by simp)
            case _ c2 hc2 =>
              obtain rfl := Option.some.injEq .. ▸ h
              exact ((spectLeaveNotify_stable oid c2.name c2.players.length newSpecs
                (enqueueTo s3 hid
                  (Packet.channelInfo c2.name c2.players.length))).2.2.2.1).trans
                ((leave_channel_effects hlc (fun q : Player => q.pid)
                  (fun q l => rfl) (fun q l => rfl)).2.1)

theorem logoutSpectStep_heap {s : GState} {pid : Nat} {s' : GState}
    (h : logoutSpectStep s pid = some s') : s'.matchHeap = s.matchHeap := by
  unfold logoutSpectStep at h
  split at h
  · exact absurd h (by simp)
  case _ p0 hp0 =>
    split at h
    case _ hid2 hspec => exact remove_spectator_heap h
    case _ hspec =>
      obtain rfl := Option.some.injEq .. ▸ h
      rfl

theorem leaveAllChannels_heap (pid : Nat) :
    ∀ (fuel : Nat) (s s' : GState), leaveAllChannels fuel s pid = some s' →
      s'.matchHeap = s.matchHeap := by
  intro fuel
  induction fuel with
  | zero =>
    intro s s' h
    unfold leaveAllChannels at h
    split at h
    · exact absurd h (by simp)
    case _ p0 hp0 =>
      split at h
      case _ hch =>
        obtain rfl := Option.some.injEq .. ▸ h
        rfl
      case _ c0 rest hch => exact absurd h (by simp)
  | succ fuel ih =>
    intro s s' h
    unfold leaveAllChannels at h
    split at h
    · exact absurd h (by simp)
    case _ p0 hp0 =>
      split at h
      case _ hch =>
        obtain rfl := Option.some.injEq .. ▸ h
        rfl
      case _ c0 rest hch =>
        try dsimp only [] at h
        split at h
        · exact absurd h (by simp)
        case _ s1 hlc =>
          exact (ih s1 s' h).trans (leave_channel_effects hlc
            (fun q : Player => q.pid) (fun q l => rfl) (fun q l => rfl)).2.1

theorem C1Iff_of {s : GState} (hInv : matchInv s) (hOcc : occInv s)
    (hnd : (s.players.map Player.pid).Nodup) : C1Iff s := by
  intro p hp
  constructor
  · intro mid hmid
    exact hInv p hp mid hmid
  · rintro ⟨m, hm, sl, hsl, hpl⟩
    obtain ⟨pq, hpq, hpqpid, hpqm⟩ := hOcc m hm sl hsl p.pid hpl
    have : pq = p := nodup_pid_eq hnd hpq hp hpqpid
    rw [← this, hpqm]
    simp

theorem c1_core_assign {s : GState} {pid mid slotID : Nat} {m : MatchObj}
    (fSl : Slot → Slot)
    (hm : findMatch s mid = some m)
    (hfree : (m.slots[slotID]?).map Slot.player = some none)
    (hfSl : ∀ sl, (fSl sl).player = some pid)
    {p : Player} (hp : findPlayer s pid = some p) (hpnone : p.matchId = none)
    (hInv : matchInv s) (hOcc : occInv s)
    (hndp : (s.players.map Player.pid).Nodup)
    (hndm : (s.matchHeap.map MatchObj.mid).Nodup) :
    matchInv (assignState s pid mid slotID fSl) ∧
    occInv (assignState s pid mid slotID fSl) := by
  have hmMem : m ∈ s.matchHeap := (findMatch_mem hm).1
  have hmmid : m.mid = mid := (findMatch_mem hm).2
  have hpMem : p ∈ s.players := (findPlayer_mem hp).1
  have hppid : p.pid = pid := (findPlayer_mem hp).2
  obtain ⟨sl0, hsl0⟩ : ∃ sl0, m.slots[slotID]? = some sl0 := by
    cases hq0 : m.slots[slotID]? with
    | none => rw [hq0] at hfree; exact absurd hfree (by simp)
    | some sl0 => exact ⟨sl0, rfl⟩
  have hfreeN : sl0.player = none := by
    rw [hsl0, Option.map_some'] at hfree
    injection hfree with hfree
    try exact hfree
  have hlt : slotID < m.slots.length := (List.getElem?_eq_some_iff.mp hsl0).1
  have hget : m.slots[slotID] = sl0 := by
    have e := List.getElem?_eq_getElem hlt
    rw [hsl0] at e
    injection e with e
    exact e.symm
  have hplayers : (assignState s pid mid slotID fSl).players =
      s.players.map (fun q =>
        if q.pid = pid then { q with matchId := some mid } else q) := rfl
  have hheap : (assignState s pid mid slotID fSl).matchHeap =
      s.matchHeap.map (fun mm => if mm.mid = mid then
        { mm with slots := listModify mm.slots slotID fSl } else mm) := rfl
  constructor
  · intro p' hp' mid2 hmid2
    rw [hplayers] at hp'
    rw [hheap]
    obtain ⟨p0, hp0, hfp0⟩ := List.mem_map.mp hp'
    by_cases hpp : p0.pid = pid
    · have hp'eq : p' = { p0 with matchId := some mid } := by
        rw [← hfp0]
        try dsimp only []
        rw [if_pos hpp]
      have hp'pid : p'.pid = pid := by rw [hp'eq]; exact hpp
      have hmid2eq : mid2 = mid := by
        rw [Option.mem_def, hp'eq] at hmid2
        injection hmid2 with e
        exact e.symm
      refine ⟨{ m with slots := listModify m.slots slotID fSl }, ?_, ?_, ?_⟩
      · have hmem := List.mem_map_of_mem (fun mm => if mm.mid = mid then
          { mm with slots := listModify mm.slots slotID fSl } else mm) hmMem
        try dsimp only [] at hmem
        rw [if_pos hmmid] at hmem
        exact hmem
      · show m.mid = mid2
        rw [hmmid, hmid2eq]
      · refine ⟨fSl sl0, ?_, ?_⟩
        · show fSl sl0 ∈ listModify m.slots slotID fSl
          have hs := self_mem_listModify (f := fSl) hlt
          rw [hget] at hs
          exact hs
        · rw [hfSl sl0, hp'pid]
    · have hp'eq : p' = p0 := by
        rw [← hfp0]
        try dsimp only []
        rw [if_neg hpp]
      rw [hp'eq] at hmid2 ⊢
      obtain ⟨m2, hm2, hm2mid, sl, hsl, hslp⟩ := hInv p0 hp0 mid2 hmid2
      by_cases hm2m : m2.mid = mid
      · have hm2eq : m2 = m := nodup_mid_eq hndm hm2 hmMem (by rw [hm2m, hmmid])
        rw [hm2eq] at hm2mid hsl
        obtain ⟨k, hkl, hkget⟩ := List.mem_iff_getElem.mp hsl
        have hkq : m.slots[k]? = some sl := by
          rw [List.getElem?_eq_getElem hkl, hkget]
        by_cases hkid : k = slotID
        · exfalso
          rw [hkid, hsl0] at hkq
          injection hkq with e
          rw [← e, hfreeN] at hslp
          exact absurd hslp (by simp)
        · refine ⟨{ m with slots := listModify m.slots slotID fSl }, ?_, ?_,
            sl, ?_, hslp⟩
          · have hmem := List.mem_map_of_mem (fun mm => if mm.mid = mid then
              { mm with slots := listModify mm.slots slotID fSl } else mm) hmMem
            try dsimp only [] at hmem
            rw [if_pos hmmid] at hmem
            exact hmem
          · show m.mid = mid2
            exact hm2mid
          · show sl ∈ listModify m.slots slotID fSl
            have hnew : (listModify m.slots slotID fSl)[k]? = some sl := by
              rw [listModify_getElem? fSl m.slots slotID k, if_neg hkid]
              exact hkq
            exact List.getElem?_mem hnew
      · refine ⟨m2, ?_, hm2mid, sl, hsl, hslp⟩
        have hmem := List.mem_map_of_mem (fun mm => if mm.mid = mid then
          { mm with slots := listModify mm.slots slotID fSl } else mm) hm2
        try dsimp only [] at hmem
        rw [if_neg hm2m] at hmem
        exact hmem
  · intro m' hm' sl' hsl' q hq
    rw [hheap] at hm'
    rw [hplayers]
    obtain ⟨m0, hm0, hfm0⟩ := List.mem_map.mp hm'
    by_cases hm0m : m0.mid = mid
    · have hm0eq : m0 = m := nodup_mid_eq hndm hm0 hmMem (by rw [hm0m, hmmid])
      rw [hm0eq] at hfm0
      have hm'eq : m' = { m with slots := listModify m.slots slotID fSl } := by
        rw [← hfm0]
        try dsimp only []
        rw [if_pos hmmid]
      have hm'mid : m'.mid = mid := by rw [hm'eq]; exact hmmid
      have hsl'' : sl' ∈ listModify m.slots slotID fSl := by
        rw [hm'eq] at hsl'
        exact hsl'
      obtain ⟨k, hkl, hkget⟩ := List.mem_iff_getElem.mp hsl''
      have hkq : (listModify m.slots slotID fSl)[k]? = some sl' := by
        rw [List.getElem?_eq_getElem hkl, hkget]
      by_cases hkid : k = slotID
      · have hsl'eq : sl' = fSl sl0 := by
          rw [hkid, listModify_getElem? fSl m.slots slotID slotID, if_pos rfl,
            hsl0, Option.map_some'] at hkq
          injection hkq with e
          exact e.symm
        have hqpid : q = pid := by
          have hqe : sl'.player = some q := hq
          rw [hsl'eq, hfSl sl0] at hqe
          injection hqe with e
          exact e.symm
        refine ⟨{ p with matchId := some mid }, ?_, ?_, ?_⟩
        · have hmem := List.mem_map_of_mem (fun qq => if qq.pid = pid then
            { qq with matchId := some mid } else qq) hpMem
          try dsimp only [] at hmem
          rw [if_pos hppid] at hmem
          exact hmem
        · show p.pid = q
          rw [hppid, hqpid]
        · show some mid = some m'.mid
          rw [hm'mid]
      · have hold : m.slots[k]? = some sl' := by
          rw [listModify_getElem? fSl m.slots slotID k, if_neg hkid] at hkq
          exact hkq
        obtain ⟨pq, hpq, hpqpid, hpqm⟩ := hOcc m hmMem sl'
          (List.getElem?_mem hold) q hq
        have hpqne : pq.pid ≠ pid := by
          intro he
          have hpqp : pq = p := nodup_pid_eq hndp hpq hpMem (by rw [he, hppid])
          rw [hpqp, hpnone] at hpqm
          exact absurd hpqm (by simp)
        refine ⟨pq, ?_, hpqpid, ?_⟩
        · have hmem := List.mem_map_of_mem (fun qq => if qq.pid = pid then
            { qq with matchId := some mid } else qq) hpq
          try dsimp only [] at hmem
          rw [if_neg hpqne] at hmem
          exact hmem
        · rw [hpqm, hm'mid, hmmid]
    · have hm'eq : m' = m0 := by
        rw [← hfm0]
        try dsimp only []
        rw [if_neg hm0m]
      rw [hm'eq] at hsl' ⊢
      obtain ⟨pq, hpq, hpqpid, hpqm⟩ := hOcc m0 hm0 sl' hsl' q hq
      have hpqne : pq.pid ≠ pid := by
        intro he
        have hpqp : pq = p := nodup_pid_eq hndp hpq hpMem (by rw [he, hppid])
        rw [hpqp, hpnone] at hpqm
        exact absurd hpqm (by simp)
      refine ⟨pq, ?_, hpqpid, hpqm⟩
      have hmem := List.mem_map_of_mem (fun qq => if qq.pid = pid then
        { qq with matchId := some mid } else qq) hpq
      try dsimp only [] at hmem
      rw [if_neg hpqne] at hmem
      exact hmem

theorem c1_core_clear {s : GState} {pid mid j : Nat} {m : MatchObj}
    (hm : findMatch s mid = some m)
    {slj : Slot} (hj : m.slots[j]? = some slj) (hjp : slj.player = some pid)
    {p : Player} (hp : findPlayer s pid = some p) (hpm : p.matchId = some mid)
    (hInv : matchInv s) (hOcc : occInv s) (hUniq : occUnique s)
    (hndp : (s.players.map Player.pid).Nodup)
    (hndm : (s.matchHeap.map MatchObj.mid).Nodup) :
    matchInv (clearState s pid mid j) ∧ occInv (clearState s pid mid j) := by
  have hmMem : m ∈ s.matchHeap := (findMatch_mem hm).1
  have hmmid : m.mid = mid := (findMatch_mem hm).2
  have hpMem : p ∈ s.players := (findPlayer_mem hp).1
  have hppid : p.pid = pid := (findPlayer_mem hp).2
  have hplayers : (clearState s pid mid j).players =
      s.players.map (fun q =>
        if q.pid = pid then { q with matchId := none } else q) := rfl
  have hheap : (clearState s pid mid j).matchHeap =
      s.matchHeap.map (fun mm => if mm.mid = mid then
        { mm with slots := listModify mm.slots j Slot.reset } else mm) := rfl
  constructor
  · intro p' hp' mid2 hmid2
    rw [hplayers] at hp'
    rw [hheap]
    obtain ⟨p0, hp0, hfp0⟩ := List.mem_map.mp hp'
    by_cases hpp : p0.pid = pid
    · exfalso
      have hp'eq : p' = { p0 with matchId := none } := by
        rw [← hfp0]
        try dsimp only []
        rw [if_pos hpp]
      rw [Option.mem_def, hp'eq] at hmid2
      exact absurd hmid2 (by simp)
    · have hp'eq : p' = p0 := by
        rw [← hfp0]
        try dsimp only []
        rw [if_neg hpp]
      rw [hp'eq] at hmid2 ⊢
      obtain ⟨m2, hm2, hm2mid, sl, hsl, hslp⟩ := hInv p0 hp0 mid2 hmid2
      by_cases hm2m : m2.mid = mid
      · have hm2eq : m2 = m := nodup_mid_eq hndm hm2 hmMem (by rw [hm2m, hmmid])
        rw [hm2eq] at hm2mid hsl
        obtain ⟨k, hkl, hkget⟩ := List.mem_iff_getElem.mp hsl
        have hkq : m.slots[k]? = some sl := by
          rw [List.getElem?_eq_getElem hkl, hkget]
        have hkj : k ≠ j := by
          intro he
          rw [he, hj] at hkq
          injection hkq with e
          rw [← e, hjp] at hslp
          injection hslp with e2
          exact hpp e2.symm
        refine ⟨{ m with slots := listModify m.slots j Slot.reset }, ?_, ?_,
          sl, ?_, hslp⟩
        · have hmem := List.mem_map_of_mem (fun mm => if mm.mid = mid then
            { mm with slots := listModify mm.slots j Slot.reset } else mm) hmMem
          try dsimp only [] at hmem
          rw [if_pos hmmid] at hmem
          exact hmem
        · show m.mid = mid2
          exact hm2mid
        · show sl ∈ listModify m.slots j Slot.reset
          have hnew : (listModify m.slots j Slot.reset)[k]? = some sl := by
            rw [listModify_getElem? Slot.reset m.slots j k, if_neg hkj]
            exact hkq
          exact List.getElem?_mem hnew
      · refine ⟨m2, ?_, hm2mid, sl, hsl, hslp⟩
        have hmem := List.mem_map_of_mem (fun mm => if mm.mid = mid then
          { mm with slots := listModify mm.slots j Slot.reset } else mm) hm2
        try dsimp only [] at hmem
        rw [if_neg hm2m] at hmem
        exact hmem
  · intro m' hm' sl' hsl' q hq
    rw [hheap] at hm'
    rw [hplayers]
    obtain ⟨m0, hm0, hfm0⟩ := List.mem_map.mp hm'
    by_cases hm0m : m0.mid = mid
    · have hm0eq : m0 = m := nodup_mid_eq hndm hm0 hmMem (by rw [hm0m, hmmid])
      rw [hm0eq] at hfm0
      have hm'eq : m' = { m with slots := listModify m.slots j Slot.reset } := by
        rw [← hfm0]
        try dsimp only []
        rw [if_pos hmmid]
      have hm'mid : m'.mid = mid := by rw [hm'eq]; exact hmmid
      have hsl'' : sl' ∈ listModify m.slots j Slot.reset := by
        rw [hm'eq] at hsl'
        exact hsl'
      obtain ⟨k, hkl, hkget⟩ := List.mem_iff_getElem.mp hsl''
      have hkq : (listModify m.slots j Slot.reset)[k]? = some sl' := by
        rw [List.getElem?_eq_getElem hkl, hkget]
      by_cases hkj : k = j
      · exfalso
        rw [hkj, listModify_getElem? Slot.reset m.slots j j, if_pos rfl, hj,
          Option.map_some'] at hkq
        injection hkq with e
        have hqe : sl'.player = some q := hq
        rw [← e] at hqe
        exact absurd hqe (by simp [Slot.reset])
      · have hold : m.slots[k]? = some sl' := by
          rw [listModify_getElem? Slot.reset m.slots j k, if_neg hkj] at hkq
          exact hkq
        obtain ⟨pq, hpq, hpqpid, hpqm⟩ := hOcc m hmMem sl'
          (List.getElem?_mem hold) q hq
        have hpqne : pq.pid ≠ pid := by
          intro he
          have hqpid : q = pid := by rw [← hpqpid, he]
          have hqe : sl'.player = some pid := by
            have hqe0 : sl'.player = some q := hq
            rw [hqpid] at hqe0
            exact hqe0
          exact hkj (pairwise_occ_unique (hUniq m hmMem) hold hj hqe hjp)
        refine ⟨pq, ?_, hpqpid, ?_⟩
        · have hmem := List.mem_map_of_mem (fun qq => if qq.pid = pid then
            { qq with matchId := none } else qq) hpq
          try dsimp only [] at hmem
          rw [if_neg hpqne] at hmem
          exact hmem
        · rw [hpqm, hm'mid, hmmid]
    · have hm'eq : m' = m0 := by
        rw [← hfm0]
        try dsimp only []
        rw [if_neg hm0m]
      rw [hm'eq] at hsl' ⊢
      obtain ⟨pq, hpq, hpqpid, hpqm⟩ := hOcc m0 hm0 sl' hsl' q hq
      have hpqne : pq.pid ≠ pid := by
        intro he
        have hpqp : pq = p := nodup_pid_eq hndp hpq hpMem (by rw [he, hppid])
        rw [hpqp, hpm] at hpqm
        injection hpqm with e
        exact hm0m e.symm
      refine ⟨pq, ?_, hpqpid, hpqm⟩
      have hmem := List.mem_map_of_mem (fun qq => if qq.pid = pid then
        { qq with matchId := none } else qq) hpq
      try dsimp only [] at hmem
      rw [if_neg hpqne] at hmem
      exact hmem

theorem c1_leave_match_pres {s : GState} {pid : Nat} {s' : GState}
    (hrun : leave_match s pid = some s')
    (hInv : matchInv s) (hOcc : occInv s) (hUniq : occUnique s)
    (hndp : (s.players.map Player.pid).Nodup)
    (hndm : (s.matchHeap.map MatchObj.mid).Nodup) :
    matchInv s' ∧ occInv s' ∧
    s'.players.map Player.pid = s.players.map Player.pid := by
  unfold leave_match at hrun
  split at hrun
  · exact absurd hrun (by simp)
  case _ p hfp =>
    split at hrun
    case _ hmidn =>
      obtain rfl := Option.some.injEq .. ▸ hrun
      exact ⟨hInv, hOcc, rfl⟩
    case _ mid hpm =>
      split at hrun
      · exact absurd hrun (by simp)
      case _ m hfm =>
        split at hrun
        · exact absurd hrun (by simp)
        case _ j hslot =>
          obtain ⟨slj, hj, hpb⟩ := firstIdx_some hslot
          have hjp : slj.player = some pid := eq_of_beq hpb
          have core := c1_core_clear hfm hj hjp hfp hpm hInv hOcc hUniq hndp hndm
          have hfac : ∀ a : Player,
              projM (if a.pid = pid then
                (fun q => { q with matchId := none }) a else a) =
              (fun x : Nat × Option Nat => if x.1 = pid then (x.1, none) else x)
                (projM a) := by
            intro a
            by_cases h : a.pid = pid <;> simp [projM, h]
          have key : ∀ (sx : GState),
              (∀ (g : Player → Nat × Option Nat),
                (∀ q l, g { q with queue := l } = g q) →
                (∀ q l, g { q with channels := l } = g q) →
                sx.players.map g = s.players.map g) →
              (∀ (g : Player → Nat),
                (∀ q l, g { q with queue := l } = g q) →
                (∀ q l, g { q with channels := l } = g q) →
                sx.players.map g = s.players.map g) →
              sx.matchHeap.map projMat = (updateMatch s mid (fun mm =>
                { mm with slots := listModify mm.slots j Slot.reset
                  })).matchHeap.map projMat →
              some (updatePlayer sx pid (fun q => { q with matchId := none })) =
                some s' →
              matchInv s' ∧ occInv s' ∧
              s'.players.map Player.pid = s.players.map Player.pid := by
            intro sx hmapM hmapN hheap hh
            obtain rfl := Option.some.injEq .. ▸ hh
            have hi : (updatePlayer sx pid
                (fun q => { q with matchId := none })).players.map projM =
                (clearState s pid mid j).players.map projM := by
              exact map_factor
                (fun x : Nat × Option Nat => if x.1 = pid then (x.1, none) else x)
                hfac (hmapM projM (fun q l => rfl) (fun q l => rfl))
            have hii : (updatePlayer sx pid
                (fun q => { q with matchId := none })).matchHeap.map projMat =
                (clearState s pid mid j).matchHeap.map projMat := hheap
            refine ⟨matchInv_transfer hi hii core.1, occInv_transfer hi hii core.2, ?_⟩
            exact (updatePlayer_projEq sx pid
              (fun q => { q with matchId := none }) Player.pid
              (fun q => rfl)).trans
              (hmapN Player.pid (fun q l => rfl) (fun q l => rfl))
          try dsimp only [] at hrun
          split at hrun
          · exact absurd hrun (by simp)
          case _ s2 hlc =>
            split at hrun
            · exact absurd hrun (by simp)
            case _ m2 hfm2 =>
              have hheap2 : s2.matchHeap.map projMat = (updateMatch s mid (fun mm =>
                  { mm with slots := listModify mm.slots j Slot.reset
                    })).matchHeap.map projMat :=
                congrArg (List.map projMat) (leave_channel_effects hlc
                  (fun q : Player => q.pid) (fun q l => rfl) (fun q l => rfl)).2.1
              have hmapM2 : ∀ (g : Player → Nat × Option Nat),
                  (∀ q l, g { q with queue := l } = g q) →
                  (∀ q l, g { q with channels := l } = g q) →
                  s2.players.map g = s.players.map g := fun g hgQ hgC =>
                ((leave_channel_effects hlc g hgQ hgC).1).trans rfl
              have hmapN2 : ∀ (g : Player → Nat),
                  (∀ q l, g { q with queue := l } = g q) →
                  (∀ q l, g { q with channels := l } = g q) →
                  s2.players.map g = s.players.map g := fun g hgQ hgC =>
                ((leave_channel_effects hlc g hgQ hgC).1).trans rfl
              split at hrun
              case isTrue hempty =>
                try dsimp only [] at hrun
                cases hstart : m2.startingStart with
                | some t =>
                  rw [hstart] at hrun
                  try dsimp only [] at hrun
                  split at hrun
                  case _ lobby hlob =>
                    refine key _ ?_ ?_ ?_ hrun
                    · intro g hgQ hgC
                      rw [broadcast_projEq _ g hgQ]
                      exact hmapM2 g hgQ hgC
                    · intro g hgQ hgC
                      rw [broadcast_projEq _ g hgQ]
                      exact hmapN2 g hgQ hgC
                    · rw [(broadcast_stable _ _ _).2.2.2.1]
                      exact (updateMatch_projMat
                        { s2 with cancelled := s2.cancelled ++ t :: m2.startingAlerts }
                        mid (fun mm => { mm with startingStart := none, startingAlerts := [] })
                        (fun mm => rfl)).trans hheap2
                  case _ hlob =>
                    refine key _ ?_ ?_ ?_ hrun
                    · intro g hgQ hgC
                      exact hmapM2 g hgQ hgC
                    · intro g hgQ hgC
                      exact hmapN2 g hgQ hgC
                    · exact (updateMatch_projMat
                        { s2 with cancelled := s2.cancelled ++ t :: m2.startingAlerts }
                        mid (fun mm => { mm with startingStart := none, startingAlerts := [] })
                        (fun mm => rfl)).trans hheap2
                | none =>
                  rw [hstart] at hrun
                  try dsimp only [] at hrun
                  split at hrun
                  case _ lobby hlob =>
                    refine key _ ?_ ?_ ?_ hrun
                    · intro g hgQ hgC
                      rw [broadcast_projEq _ g hgQ]
                      exact hmapM2 g hgQ hgC
                    · intro g hgQ hgC
                      rw [broadcast_projEq _ g hgQ]
                      exact hmapN2 g hgQ hgC
                    · rw [(broadcast_stable _ _ _).2.2.2.1]
                      exact hheap2
                  case _ hlob =>
                    refine key _ ?_ ?_ ?_ hrun
                    · intro g hgQ hgC
                      exact hmapM2 g hgQ hgC
                    · intro g hgQ hgC
                      exact hmapN2 g hgQ hgC
                    · exact hheap2
              case isFalse hempty =>
                split at hrun
                · exact absurd hrun (by simp)
                case _ s3 hs3 =>
                  try dsimp only [] at hrun
                  have h3 : (∀ (g : Player → Nat × Option Nat),
                      (∀ q l, g { q with queue := l } = g q) →
                      s3.players.map g = s2.players.map g) ∧
                      (∀ (g : Player → Nat),
                      (∀ q l, g { q with queue := l } = g q) →
                      s3.players.map g = s2.players.map g) ∧
                      s3.matchHeap.map projMat = s2.matchHeap.map projMat := by
                    by_cases hh2 : pid = m2.host
                    · rw [if_pos hh2] at hs3
                      split at hs3
                      case _ sl hsl =>
                        split at hs3
                        case _ q hq =>
                          obtain rfl := Option.some.injEq .. ▸ hs3
                          refine ⟨?_, ?_, ?_⟩
                          · intro g hgQ
                            rw [enqueueTo_projEq _ _ _ g hgQ]
                            rfl
                          · intro g hgQ
                            rw [enqueueTo_projEq _ _ _ g hgQ]
                            rfl
                          · exact updateMatch_projMat s2 mid
                              (fun mm => { mm with host := q }) (fun mm => rfl)
                        case _ hq => exact absurd hs3 (by simp)
                      case _ hsl =>
                        obtain rfl := Option.some.injEq .. ▸ hs3
                        exact ⟨fun g hgQ => rfl, fun g hgQ => rfl, rfl⟩
                    · rw [if_neg hh2] at hs3
                      obtain rfl := Option.some.injEq .. ▸ hs3
                      exact ⟨fun g hgQ => rfl, fun g hgQ => rfl, rfl⟩
                  split at hrun
                  case isTrue href =>
                    refine key _ ?_ ?_ ?_ hrun
                    · intro g hgQ hgC
                      rw [enqueueState_projEq _ _ g hgQ,
                        sendBotToChannel_projEq _ _ _ g hgQ]
                      exact (h3.1 g hgQ).trans (hmapM2 g hgQ hgC)
                    · intro g hgQ hgC
                      rw [enqueueState_projEq _ _ g hgQ,
                        sendBotToChannel_projEq _ _ _ g hgQ]
                      exact (h3.2.1 g hgQ).trans (hmapN2 g hgQ hgC)
                    · rw [(enqueueState_stable _ _).2.2.2.1,
                        (sendBotToChannel_stable _ _ _).2.2.2.1]
                      exact ((updateMatch_projMat s3 mid
                        (fun mm => { mm with refs := mm.refs.erase pid })
                        (fun mm => rfl)).trans h3.2.2).trans hheap2
                  case isFalse href =>
                    refine key _ ?_ ?_ ?_ hrun
                    · intro g hgQ hgC
                      rw [enqueueState_projEq _ _ g hgQ]
                      exact (h3.1 g hgQ).trans (hmapM2 g hgQ hgC)
                    · intro g hgQ hgC
                      rw [enqueueState_projEq _ _ g hgQ]
                      exact (h3.2.1 g hgQ).trans (hmapN2 g hgQ hgC)
                    · rw [(enqueueState_stable _ _).2.2.2.1]
                      exact h3.2.2.trans hheap2

theorem c1_join_match_pres {s : GState} {pid mid : Nat} {pw : String}
    {r : Bool} {s' : GState}
    (hrun : join_match s pid mid pw = some (r, s'))
    (hInv : matchInv s) (hOcc : occInv s) (hWF : slotWFAll s)
    (hHost : hostOccAll s) (hLen : slotsLen s)
    (hndp : (s.players.map Player.pid).Nodup)
    (hndm : (s.matchHeap.map MatchObj.mid).Nodup) :
    matchInv s' ∧ occInv s' ∧
    s'.players.map Player.pid = s.players.map Player.pid := by
  have tfail : ∀ (pkt : Packet),
      matchInv (enqueueTo s pid pkt) ∧ occInv (enqueueTo s pid pkt) ∧
      (enqueueTo s pid pkt).players.map Player.pid =
        s.players.map Player.pid := by
    intro pkt
    have hpm := enqueueTo_projEq s pid pkt projM (fun q l => rfl)
    have hh : (enqueueTo s pid pkt).matchHeap.map projMat =
        s.matchHeap.map projMat := rfl
    exact ⟨matchInv_transfer hpm hh hInv, occInv_transfer hpm hh hOcc,
      enqueueTo_projEq s pid pkt Player.pid (fun q l => rfl)⟩
  unfold join_match at hrun
  split at hrun
  · exact absurd hrun (by simp)
  case _ p hfp =>
    split at hrun
    case isTrue hms =>
      obtain ⟨-, rfl⟩ := Prod.mk.injEq .. ▸ Option.some.injEq .. ▸ hrun
      exact tfail Packet.matchJoinFail
    case isFalse hms =>
      have hpnone : p.matchId = none := by
        cases hmo : p.matchId with
        | none => rfl
        | some v => rw [hmo] at hms; exact absurd rfl hms
      split at hrun
      · exact absurd hrun (by simp)
      case _ m hfm =>
        have hmMem : m ∈ s.matchHeap := (findMatch_mem hfm).1
        have hmmid : m.mid = mid := (findMatch_mem hfm).2
        split at hrun
        case isTrue htour =>
          obtain ⟨-, rfl⟩ := Prod.mk.injEq .. ▸ Option.some.injEq .. ▸ hrun
          exact tfail Packet.matchJoinFail
        case isFalse htour =>
          split at hrun
          case _ sFail heqSum =>
            obtain ⟨-, rfl⟩ := Prod.mk.injEq .. ▸ Option.some.injEq .. ▸ hrun
            have hsf : sFail = enqueueTo s pid Packet.matchJoinFail := by
              by_cases hh2 : pid ≠ m.host
              · rw [if_pos hh2] at heqSum
                by_cases hpw : pw ≠ m.passwd ∧ isStaff p = false
                · rw [if_pos hpw] at heqSum
                  injection heqSum.symm
                · rw [if_neg hpw] at heqSum
                  cases hfree0 : m.getFree with
                  | none => rw [hfree0] at heqSum; injection heqSum.symm
                  | some i =>
                    rw [hfree0] at heqSum
                    exact absurd heqSum.symm (by simp)
              · rw [if_neg hh2] at heqSum
                exact absurd heqSum.symm (by simp)
            rw [hsf]
            exact tfail Packet.matchJoinFail
          case _ slotID heqSum =>
            have hfree : (m.slots[slotID]?).map Slot.player = some none := by
              by_cases hh2 : pid ≠ m.host
              · rw [if_pos hh2] at heqSum
                by_cases hpw : pw ≠ m.passwd ∧ isStaff p = false
                · rw [if_pos hpw] at heqSum
                  exact absurd heqSum.symm (by simp)
                · rw [if_neg hpw] at heqSum
                  cases hfree0 : m.getFree with
                  | none =>
                    rw [hfree0] at heqSum
                    exact absurd heqSum.symm (by simp)
                  | some i =>
                    rw [hfree0] at heqSum
                    injection heqSum with e
                    have hfi : firstIdx (fun sl => sl.status == SlotStatus.open_)
                        m.slots = some i := hfree0
                    obtain ⟨sl0, hsl0, hemp⟩ := firstIdx_some hfi
                    have hstat : sl0.status = SlotStatus.open_ := eq_of_beq hemp
                    have hwf := hWF m hmMem sl0 (List.getElem?_mem hsl0)
                    rw [hstat] at hwf
                    have hnone : sl0.player = none := by
                      cases hq0 : sl0.player with
                      | none => rfl
                      | some v =>
                        rw [hq0] at hwf
                        have he : SlotStatus.open_.hasPlayer = false := rfl
                        rw [he] at hwf
                        simp at hwf
                    rw [← e, hsl0, Option.map_some', hnone]
              · rw [if_neg hh2] at heqSum
                injection heqSum with e
                have hhost : pid = m.host := not_not.mp hh2
                have hallfree : ∀ sl ∈ m.slots, sl.player = none := by
                  intro sl hsl
                  cases hq0 : sl.player with
                  | none => rfl
                  | some v =>
                    exfalso
                    have hocc : ∃ sl2 ∈ m.slots, sl2.player.isSome = true :=
                      ⟨sl, hsl, by rw [hq0]; rfl⟩
                    obtain ⟨slh, hslh, hslhp⟩ := hHost m hmMem hocc
                    obtain ⟨pq, hpq, hpqpid, hpqm⟩ :=
                      hOcc m hmMem slh hslh m.host hslhp
                    have hpqp : pq = p := nodup_pid_eq hndp hpq
                      (findPlayer_mem hfp).1
                      (by rw [hpqpid, ← hhost, (findPlayer_mem hfp).2])
                    rw [hpqp, hpnone] at hpqm
                    exact absurd hpqm (by simp)
                have h0len : 0 < m.slots.length := by
                  rw [hLen m hmMem]
                  decide
                rw [← e, List.getElem?_eq_getElem h0len, Option.map_some',
                  hallfree (m.slots[0]) (List.getElem_mem h0len)]
            split at hrun
            · exact absurd hrun (by simp)
            case _ s1 hjc =>
              obtain ⟨-, rfl⟩ := Prod.mk.injEq .. ▸ Option.some.injEq .. ▸ hrun
              rw [join_channel_false hjc]
              exact ⟨hInv, hOcc, rfl⟩
            case _ s1 hjc =>
              try dsimp only [] at hrun
              split at hrun
              · exact absurd hrun (by simp)
              case _ s2 heq2 =>
                have j1M := (join_channel_effects hjc projM
                  (fun q l => rfl) (fun q l => rfl))
                have j1N := (join_channel_effects hjc Player.pid
                  (fun q l => rfl) (fun q l => rfl))
                have h2 : (s2.players.map projM = s1.players.map projM) ∧
                    (s2.players.map Player.pid = s1.players.map Player.pid) ∧
                    s2.matchHeap = s1.matchHeap := by
                  split at heq2
                  case _ lobby hreg =>
                    split at heq2
                    case _ p1 hfp1 =>
                      split at heq2
                      case isTrue hmemc =>
                        exact ⟨(leave_channel_effects heq2 projM
                            (fun q l => rfl) (fun q l => rfl)).1,
                          (leave_channel_effects heq2 Player.pid
                            (fun q l => rfl) (fun q l => rfl)).1,
                          (leave_channel_effects heq2 Player.pid
                            (fun q l => rfl) (fun q l => rfl)).2.1⟩
                      case isFalse hmemc =>
                        obtain rfl := Option.some.injEq .. ▸ heq2
                        exact ⟨rfl, rfl, rfl⟩
                    case _ hfp1 =>
                      obtain rfl := Option.some.injEq .. ▸ heq2
                      exact ⟨rfl, rfl, rfl⟩
                  case _ hreg =>
                    obtain rfl := Option.some.injEq .. ▸ heq2
                    exact ⟨rfl, rfl, rfl⟩
                obtain ⟨-, rfl⟩ := Prod.mk.injEq .. ▸ Option.some.injEq .. ▸ hrun
                have core := c1_core_assign
                  (fun sl => { sl with
                    team := if m.teamType = MatchTeamTypes.team_vs ∨
                        m.teamType = MatchTeamTypes.tag_team_vs then
                      MatchTeams.red else sl.team,
                    status := SlotStatus.notReady,
                    player := some pid })
                  hfm hfree (fun sl => rfl) hfp hpnone hInv hOcc hndp hndm
                have hpmap12 : s2.players.map projM = s.players.map projM :=
                  h2.1.trans j1M.1
                have hfac : ∀ a : Player,
                    projM (if a.pid = pid then
                      (fun q => { q with matchId := some mid }) a else a) =
                    (fun x : Nat × Option Nat =>
                      if x.1 = pid then (x.1, some mid) else x) (projM a) := by
                  intro a
                  by_cases h : a.pid = pid <;> simp [projM, h]
                have hheapEq : (updateMatch s2 mid (fun mm =>
                    { mm with slots := listModify mm.slots slotID (fun sl =>
                      { sl with
                        team := if m.teamType = MatchTeamTypes.team_vs ∨
                            m.teamType = MatchTeamTypes.tag_team_vs then
                          MatchTeams.red else sl.team,
                        status := SlotStatus.notReady,
                        player := some pid }) })).matchHeap =
                    (updateMatch s mid (fun mm =>
                    { mm with slots := listModify mm.slots slotID (fun sl =>
                      { sl with
                        team := if m.teamType = MatchTeamTypes.team_vs ∨
                            m.teamType = MatchTeamTypes.tag_team_vs then
                          MatchTeams.red else sl.team,
                        status := SlotStatus.notReady,
                        player := some pid }) })).matchHeap := by
                  show s2.matchHeap.map _ = s.matchHeap.map _
                  rw [h2.2.2, j1M.2.1]
                have hi : (enqueueState (enqueueTo (updatePlayer
                    (updateMatch s2 mid (fun mm =>
                      { mm with slots := listModify mm.slots slotID (fun sl =>
                        { sl with
                          team := if m.teamType = MatchTeamTypes.team_vs ∨
                              m.teamType = MatchTeamTypes.tag_team_vs then
                            MatchTeams.red else sl.team,
                          status := SlotStatus.notReady,
                          player := some pid }) }))
                    pid (fun q => { q with matchId := some mid }))
                    pid (Packet.matchJoinSuccess mid)) mid).players.map projM =
                    (assignState s pid mid slotID (fun sl =>
                      { sl with
                        team := if m.teamType = MatchTeamTypes.team_vs ∨
                            m.teamType = MatchTeamTypes.tag_team_vs then
                          MatchTeams.red else sl.team,
                        status := SlotStatus.notReady,
                        player := some pid })).players.map projM := by
                  rw [enqueueState_projEq _ _ projM (fun q l => rfl),
                    enqueueTo_projEq _ _ _ projM (fun q l => rfl)]
                  exact map_factor (fun x : Nat × Option Nat =>
                    if x.1 = pid then (x.1, some mid) else x) hfac hpmap12
                have hii : (enqueueState (enqueueTo (updatePlayer
                    (updateMatch s2 mid (fun mm =>
                      { mm with slots := listModify mm.slots slotID (fun sl =>
                        { sl with
                          team := if m.teamType = MatchTeamTypes.team_vs ∨
                              m.teamType = MatchTeamTypes.tag_team_vs then
                            MatchTeams.red else sl.team,
                          status := SlotStatus.notReady,
                          player := some pid }) }))
                    pid (fun q => { q with matchId := some mid }))
                    pid (Packet.matchJoinSuccess mid)) mid).matchHeap.map projMat =
                    (assignState s pid mid slotID (fun sl =>
                      { sl with
                        team := if m.teamType = MatchTeamTypes.team_vs ∨
                            m.teamType = MatchTeamTypes.tag_team_vs then
                          MatchTeams.red else sl.team,
                        status := SlotStatus.notReady,
                        player := some pid })).matchHeap.map projMat := by
                  rw [(enqueueState_stable _ _).2.2.2.1]
                  exact congrArg (List.map projMat) hheapEq
                refine ⟨matchInv_transfer hi hii core.1,
                  occInv_transfer hi hii core.2, ?_⟩
                rw [enqueueState_projEq _ _ Player.pid (fun q l => rfl),
                  enqueueTo_projEq _ _ _ Player.pid (fun q l => rfl)]
                exact (updatePlayer_projEq _ pid
                  (fun q => { q with matchId := some mid }) Player.pid
                  (fun q => rfl)).trans (h2.2.1.trans j1N.1)

theorem c1_logout_pres {s : GState} {pid : Nat} {s' : GState}
    (hrun : logout s pid = some s')
    (hInv : matchInv s) (hOcc : occInv s) (hUniq : occUnique s)
    (hndp : (s.players.map Player.pid).Nodup)
    (hndm : (s.matchHeap.map MatchObj.mid).Nodup) :
    matchInv s' ∧ occInv s' ∧
    s'.players.map Player.pid = s.players.map Player.pid := by
  unfold logout at hrun
  split at hrun
  · exact absurd hrun (by simp)
  case _ p hfp =>
    split at hrun
    · exact absurd hrun (by simp)
    case _ s1 heq1 =>
      have step1 : matchInv s1 ∧ occInv s1 ∧
          s1.players.map Player.pid = s.players.map Player.pid := by
        by_cases hm : p.matchId.isSome = true
        · rw [if_pos hm] at heq1
          exact c1_leave_match_pres heq1 hInv hOcc hUniq hndp hndm
        · rw [if_neg hm] at heq1
          obtain rfl := Option.some.injEq .. ▸ heq1
          exact ⟨hInv, hOcc, rfl⟩
      obtain ⟨hInv1, hOcc1, hpidmap1⟩ := step1
      have hsome1 : (findPlayer s1 pid).isSome = true := by
        rw [findPlayer_isSome_of_projEq Player.pid hpidmap1
          (fun a b hab => hab) pid, hfp]
        rfl
      obtain ⟨pA, hpA⟩ := Option.isSome_iff_exists.mp hsome1
      split at hrun
      · exact absurd hrun (by simp)
      case _ s2 heq2 =>
        obtain ⟨hmapM2, -, -⟩ := logoutSpectStep_out hpA heq2 projM
          (fun q l => rfl) (fun q l => rfl) (fun q v => rfl) (fun q v => rfl)
          (fun a b hab => congrArg Prod.fst hab)
        obtain ⟨hmapN2, -, -⟩ := logoutSpectStep_out hpA heq2 Player.pid
          (fun q l => rfl) (fun q l => rfl) (fun q v => rfl) (fun q v => rfl)
          (fun a b hab => hab)
        have hheap2 := logoutSpectStep_heap heq2
        split at hrun
        · exact absurd hrun (by simp)
        case _ p2 hp2 =>
          split at hrun
          · exact absurd hrun (by simp)
          case _ s3 heq3 =>
            obtain ⟨hmapM3, -, -⟩ := leaveAllChannels_out pid projM
              (fun q l => rfl) (fun q l => rfl) p2.channels.length s2 s3 heq3
            obtain ⟨hmapN3, -, -⟩ := leaveAllChannels_out pid Player.pid
              (fun q l => rfl) (fun q l => rfl) p2.channels.length s2 s3 heq3
            have hheap3 := leaveAllChannels_heap pid p2.channels.length s2 s3 heq3
            injection hrun with hrun
            subst hrun
            have hMfin : matchInv s3 ∧ occInv s3 ∧
                s3.players.map Player.pid = s.players.map Player.pid := by
              have hpm : s3.players.map projM = s1.players.map projM :=
                hmapM3.trans hmapM2
              have hhp : s3.matchHeap.map projMat = s1.matchHeap.map projMat := by
                rw [hheap3, hheap2]
              exact ⟨matchInv_transfer hpm hhp hInv1,
                occInv_transfer hpm hhp hOcc1,
                (hmapN3.trans hmapN2).trans hpidmap1⟩
            by_cases hres : p.restricted = false
            · rw [if_pos hres]
              refine ⟨matchInv_transfer
                  ((broadcast_projEq _ projM (fun q l => rfl) _ _).trans rfl)
                  (congrArg (List.map projMat) ((broadcast_stable _ _ _).2.2.2.1))
                  hMfin.1,
                occInv_transfer
                  ((broadcast_projEq _ projM (fun q l => rfl) _ _).trans rfl)
                  (congrArg (List.map projMat) ((broadcast_stable _ _ _).2.2.2.1))
                  hMfin.2.1, ?_⟩
              exact (broadcast_projEq _ Player.pid (fun q l => rfl) _ _).trans
                hMfin.2.2
            · rw [if_neg hres]
              exact ⟨hMfin.1, hMfin.2.1, hMfin.2.2⟩

/-- C1: from a well-formed state (the match/slot biconditional plus slot
well-formedness, host occupancy, 16-slot capacity, per-match seat
uniqueness, and duplicate-free session and match keys), each of join_match,
leave_match and logout re-establishes the biconditional: a session's
`match` is non-null exactly when some slot of a live match seats it. -/
theorem c1_match_slot_iff (s : GState) (pid mid : Nat) (pw : String)
    (hInv : matchInv s) (hOcc : occInv s) (hWF : slotWFAll s)
    (hHost : hostOccAll s) (hLen : slotsLen s) (hUniq : occUnique s)
    (hndp : (s.players.map Player.pid).Nodup)
    (hndm : (s.matchHeap.map MatchObj.mid).Nodup) :
    (∀ r s', join_match s pid mid pw = some (r, s') → C1Iff s') ∧
    (∀ s', leave_match s pid = some s' → C1Iff s') ∧
    (∀ s', logout s pid = some s' → C1Iff s') := by
  refine ⟨?_, ?_, ?_⟩
  · intro r s' h
    obtain ⟨h1, h2, h3⟩ := c1_join_match_pres h hInv hOcc hWF hHost hLen hndp hndm
    exact C1Iff_of h1 h2 (by rw [h3]; exact hndp)
  · intro s' h
    obtain ⟨h1, h2, h3⟩ := c1_leave_match_pres h hInv hOcc hUniq hndp hndm
    exact C1Iff_of h1 h2 (by rw [h3]; exact hndp)
  · intro s' h
    obtain ⟨h1, h2, h3⟩ := c1_logout_pres h hInv hOcc hUniq hndp hndm
    exact C1Iff_of h1 h2 (by rw [h3]; exact hndp)

/-- Witness for C1 at a concrete state: the fixture around match 1
satisfies every well-formedness hypothesis, so each of the three operations
run by player 2 preserves the match/slot biconditional. -/
theorem c1_witness :
    (∀ r s', join_match MxG 2 1 "pw" = some (r, s') → C1Iff s') ∧
    (∀ s', leave_match MxG 2 = some s' → C1Iff s') ∧
    (∀ s', logout MxG 2 = some s' → C1Iff s') :=
  c1_match_slot_iff MxG 2 1 "pw" (by decide) (by decide) (by decide) (by decide)
    (by decide) (by decide) (by decide) (by decide)

end Circles
